import Mathlib

/-!
Verification of the unishark hierarchical test-suite runner (src/unishark/suite.py).

The Python module is shallowly embedded: the duck-typed tree of nested
unittest suites becomes the inductive type `Test`; the process-wide fixture
ledger (`self._successful_fixtures` / `self._failed_fixtures`, plus the
`_classSetupFailed` marks set on class objects) becomes the explicit state
`RunState`; the in-place mutation of the shared result object becomes the
record bundle `RecBundle` that each operation appends; raised Python
exceptions become an `Option PyErr` component threaded through every
operation, with the state at raise time preserved.  Hook invocations and
test-body executions are made observable through an event trace carried in
`RunState`.

Pieces of the program that are outside src/ (the stdlib sequential run used
by `TestSuite.run`, `unishark.result.combine_results`, and the per-case
execution behaviour) are modelled from the spec; each such definition says
so in its doc comment.
-/

namespace Unishark

/-- Outcome that an individual test case records when its body runs. -/
inductive Outcome where
  | pass
  | fail
  | error
  | skip
deriving Repr, DecidableEq

/-- A leaf test case: its owning module and class (by name), its reported
identity, and the opaque outcome its body records into the result. -/
structure CaseInfo where
  module : String
  cls : String
  id : String
  outcome : Outcome
deriving Repr, DecidableEq

/-- A test node: either a leaf case or a suite owning an ordered list of
child nodes (the duck-typed iterable of unittest suites). -/
inductive Test where
  | case (c : CaseInfo)
  | suite (ts : List Test)
deriving Repr

/-- Python exceptions that can propagate out of the embedded operations. -/
inductive PyErr where
  | typeError
  | attributeError
  | valueError
  | runtimeError
deriving Repr, DecidableEq

/-- Observable events: scoped stdout redirection, fixture hook invocations,
and execution of a test method body. -/
inductive Event where
  | setupStdout
  | restoreStdout
  | callSetUpModule (m : String)
  | callTearDownModule (m : String)
  | callSetUpClass (c : String)
  | callTearDownClass (c : String)
  | execBody (id : String)
deriving Repr, DecidableEq

/-- The flat records a run appends to a result object: tests-run count and
the identity lists of failures, errors and skips. -/
structure RecBundle where
  count : Nat
  failures : List String
  errors : List String
  skips : List String
deriving Repr, DecidableEq

instance : EmptyCollection RecBundle := ⟨⟨0, [], [], []⟩⟩

instance : Append RecBundle :=
  ⟨fun a b => ⟨a.count + b.count, a.failures ++ b.failures,
               a.errors ++ b.errors, a.skips ++ b.skips⟩⟩

/-- A result object: its own flat records plus the child results attached by
the concurrent scheduler (empty for sequentially produced results). -/
inductive Result where
  | mk (recs : RecBundle) (children : List Result)
deriving Repr

/-- Flat records of a result. -/
def Result.recs : Result → RecBundle
  | .mk b _ => b

/-- Child results of a result. -/
def Result.children : Result → List Result
  | .mk _ c => c

/-- The per-run mutable state: the two ledger sets of fixture names, the set
of classes marked `_classSetupFailed`, and the observable event trace. -/
structure RunState where
  successful : List String
  failed : List String
  csf : List String
  trace : List Event
deriving Repr, DecidableEq

/-- The fresh state a top-level run starts from. -/
def initState : RunState := ⟨[], [], [], []⟩

/-- Behaviour of one module object as found in `sys.modules`: each hook is
absent (`none`) or present with `some b`, where `b` tells whether calling it
succeeds (`true`) or raises (`false`). -/
structure ModuleEnv where
  setUpModuleHook : Option Bool
  tearDownModuleHook : Option Bool

/-- Behaviour of one class object: the `__unittest_skip__` marker and the
optional `setUpClass` / `tearDownClass` hooks. -/
structure ClassEnv where
  skip : Bool
  setUpClassHook : Option Bool
  tearDownClassHook : Option Bool

/-- The ambient Python environment: `sys.modules` (a module name maps to
`none` when the module is absent) and the class objects keyed by their fully
qualified name. -/
structure Env where
  modules : String → Option ModuleEnv
  classes : String → ClassEnv

/-- A reference to a class object, as returned by `_get_current_class`: a
user test class identified by module and class name, or the `TestSuite`
class itself (obtained when the first child is itself a suite, since
`t.__class__` of a suite object is `TestSuite`). -/
inductive ClassRef where
  | user (m c : String)
  | tsClass
deriving Repr, DecidableEq

/-- The `__module__` attribute of a referenced class. -/
def ClassRef.modName : ClassRef → String
  | .user m _ => m
  | .tsClass => "unishark.suite"

/-- The dotted full name `module.ClassName` of a referenced class. -/
def ClassRef.fullName : ClassRef → String
  | .user m c => m ++ "." ++ c
  | .tsClass => "unishark.suite" ++ "." ++ "TestSuite"

/-- Attribute lookup on a referenced class: user classes come from the
environment; the `TestSuite` class has no skip marker and no fixture hooks. -/
def classEnvOf (env : Env) : ClassRef → ClassEnv
  | .user m c => env.classes (m ++ "." ++ c)
  | .tsClass => ⟨false, none, none⟩

/-- `_is_suite`: true iff the node supports iteration over children. -/
def isSuite : Test → Bool
  | .case _ => false
  | .suite _ => true

/-- `_get_level`: a case is at method level (3); a suite takes the level of
its first child minus one; an empty suite yields the sentinel -1. -/
def getLevel : Test → Int
  | .case _ => 3
  | .suite [] => -1
  | .suite (t :: _) => getLevel t - 1

/-- `_get_current_module`: descend two levels from a module-level suite and
return the `__class__.__module__` of the first case.  Iterating a case
raises `TypeError`; an empty suite (or empty first child) yields `None`;
a doubly nested suite yields the module of the `TestSuite` class. -/
def getCurrentModule : Test → Except PyErr (Option String)
  | .case _ => .error .typeError
  | .suite [] => .ok none
  | .suite (.case _ :: _) => .error .typeError
  | .suite (.suite [] :: _) => .ok none
  | .suite (.suite (.case c :: _) :: _) => .ok (some c.module)
  | .suite (.suite (.suite _ :: _) :: _) => .ok (some "unishark.suite")

/-- `_get_current_class`: the class of the first child of a class-level
suite.  Iterating a case raises `TypeError`; an empty suite yields `None`;
a nested suite yields the `TestSuite` class. -/
def getCurrentClass : Test → Except PyErr (Option ClassRef)
  | .case _ => .error .typeError
  | .suite [] => .ok none
  | .suite (.case c :: _) => .ok (some (.user c.module c.cls))
  | .suite (.suite _ :: _) => .ok (some .tsClass)

/-- Record bundle holding one class-or-module-level error entry, as produced
by `_addClassOrModuleLevelException` (no test is counted). -/
def fxErr (name : String) : RecBundle := ⟨0, [], [name], []⟩

/-- Trace of a scoped hook invocation: `_setupStdout`, the hook call, and
the `finally`-guaranteed `_restoreStdout`. -/
def hookEvents (e : Event) : List Event := [.setupStdout, e, .restoreStdout]

/-- Modelled from the spec: execution of one leaf case (the Runnable Case
contract; the case logic itself lives in stdlib unittest and the unishark
result classes, which are not under src/).  A case of a class carrying the
skip marker records a skip without executing its body; a case whose class is
marked `_classSetupFailed`, or whose module has a failed `setUpModule`, is
recorded as an error without executing its body; otherwise the body runs and
records its outcome. -/
def runCase (env : Env) (c : CaseInfo) (st : RunState) : RunState × RecBundle :=
  let full := c.module ++ "." ++ c.cls
  if (env.classes full).skip then
    (st, ⟨1, [], [], [c.id]⟩)
  else if st.csf.contains full || st.failed.contains (c.module ++ ".setUpModule") then
    (st, ⟨1, [], [c.id], []⟩)
  else
    match c.outcome with
    | .pass => ({st with trace := st.trace ++ [.execBody c.id]}, ⟨1, [], [], []⟩)
    | .fail => ({st with trace := st.trace ++ [.execBody c.id]}, ⟨1, [c.id], [], []⟩)
    | .error => ({st with trace := st.trace ++ [.execBody c.id]}, ⟨1, [], [c.id], []⟩)
    | .skip => (st, ⟨1, [], [], [c.id]⟩)

/-- `TestSuite._setup_module`.  The appended records and the raised
exception, if any, are returned alongside the updated state. -/
def setupModule (env : Env) (t : Test) (st : RunState) :
    RunState × RecBundle × Option PyErr :=
  match getCurrentModule t with
  | .error e => (st, ∅, some e)
  | .ok none => (st, ∅, some .typeError)
  | .ok (some m) =>
    let fixture := m ++ ".setUpModule"
    if st.successful.contains fixture || st.failed.contains fixture then
      (st, ∅, none)
    else
      match env.modules m with
      | none => (st, ∅, none)
      | some me =>
        match me.setUpModuleHook with
        | none => (st, ∅, none)
        | some true =>
          ({st with successful := st.successful ++ [fixture],
                    trace := st.trace ++ hookEvents (.callSetUpModule m)}, ∅, none)
        | some false =>
          ({st with failed := st.failed ++ [fixture],
                    trace := st.trace ++ hookEvents (.callSetUpModule m)},
           fxErr ("setUpModule (" ++ m ++ ")"), none)

/-- `TestSuite._teardown_module`. -/
def teardownModule (env : Env) (t : Test) (st : RunState) :
    RunState × RecBundle × Option PyErr :=
  match getCurrentModule t with
  | .error e => (st, ∅, some e)
  | .ok none => (st, ∅, some .typeError)
  | .ok (some m) =>
    let fixture := m ++ ".tearDownModule"
    if st.successful.contains fixture || st.failed.contains fixture then
      (st, ∅, none)
    else if st.failed.contains (m ++ ".setUpModule") then
      (st, ∅, none)
    else
      match env.modules m with
      | none => (st, ∅, none)
      | some me =>
        match me.tearDownModuleHook with
        | none => (st, ∅, none)
        | some true =>
          ({st with successful := st.successful ++ [fixture],
                    trace := st.trace ++ hookEvents (.callTearDownModule m)}, ∅, none)
        | some false =>
          ({st with failed := st.failed ++ [fixture],
                    trace := st.trace ++ hookEvents (.callTearDownModule m)},
           fxErr ("tearDownModule (" ++ m ++ ")"), none)

/-- `TestSuite._setup_class`.  On a hook failure the class is additionally
marked `_classSetupFailed`. -/
def setupClass (env : Env) (t : Test) (st : RunState) :
    RunState × RecBundle × Option PyErr :=
  match getCurrentClass t with
  | .error e => (st, ∅, some e)
  | .ok none => (st, ∅, some .attributeError)
  | .ok (some cr) =>
    let full := cr.fullName
    let fixture := full ++ ".setUpClass"
    if st.successful.contains fixture || st.failed.contains fixture then
      (st, ∅, none)
    else if st.failed.contains (cr.modName ++ ".setUpModule") then
      (st, ∅, none)
    else if (classEnvOf env cr).skip then
      (st, ∅, none)
    else
      match (classEnvOf env cr).setUpClassHook with
      | none => (st, ∅, none)
      | some true =>
        ({st with successful := st.successful ++ [fixture],
                  trace := st.trace ++ hookEvents (.callSetUpClass full)}, ∅, none)
      | some false =>
        ({st with failed := st.failed ++ [fixture],
                  csf := st.csf ++ [full],
                  trace := st.trace ++ hookEvents (.callSetUpClass full)},
         fxErr ("setUpClass (" ++ full ++ ")"), none)

/-- `TestSuite._teardown_class`. -/
def teardownClass (env : Env) (t : Test) (st : RunState) :
    RunState × RecBundle × Option PyErr :=
  match getCurrentClass t with
  | .error e => (st, ∅, some e)
  | .ok none => (st, ∅, some .attributeError)
  | .ok (some cr) =>
    let full := cr.fullName
    let fixture := full ++ ".tearDownClass"
    if st.successful.contains fixture || st.failed.contains fixture then
      (st, ∅, none)
    else if st.failed.contains (full ++ ".setUpClass") then
      (st, ∅, none)
    else if st.failed.contains (cr.modName ++ ".setUpModule") then
      (st, ∅, none)
    else if (classEnvOf env cr).skip then
      (st, ∅, none)
    else
      match (classEnvOf env cr).tearDownClassHook with
      | none => (st, ∅, none)
      | some true =>
        ({st with successful := st.successful ++ [fixture],
                  trace := st.trace ++ hookEvents (.callTearDownClass full)}, ∅, none)
      | some false =>
        ({st with failed := st.failed ++ [fixture],
                  trace := st.trace ++ hookEvents (.callTearDownClass full)},
         fxErr ("tearDownClass (" ++ full ++ ")"), none)

mutual

/-- `TestSuite._seq_run`: a case executes into the result; a module-level
suite is wrapped in the module fixtures, a class-level suite in the class
fixtures; any other suite is left untouched.  An exception from a fixture
aborts the walk and propagates, keeping the mutations made so far. -/
def seqRun (env : Env) (t : Test) (st : RunState) :
    RunState × RecBundle × Option PyErr :=
  match t with
  | .case c =>
    let (st1, b) := runCase env c st
    (st1, b, none)
  | .suite ts =>
    if getLevel (.suite ts) = 1 then
      match setupModule env (.suite ts) st with
      | (st1, b1, some e) => (st1, b1, some e)
      | (st1, b1, none) =>
        match seqRunList env ts st1 with
        | (st2, b2, some e) => (st2, b1 ++ b2, some e)
        | (st2, b2, none) =>
          let (st3, b3, e3) := teardownModule env (.suite ts) st2
          (st3, b1 ++ b2 ++ b3, e3)
    else if getLevel (.suite ts) = 2 then
      match setupClass env (.suite ts) st with
      | (st1, b1, some e) => (st1, b1, some e)
      | (st1, b1, none) =>
        match seqRunList env ts st1 with
        | (st2, b2, some e) => (st2, b1 ++ b2, some e)
        | (st2, b2, none) =>
          let (st3, b3, e3) := teardownClass env (.suite ts) st2
          (st3, b1 ++ b2 ++ b3, e3)
    else
      (st, ∅, none)

/-- Sequential walk over a list of sibling nodes, short-circuiting on a
raised exception. -/
def seqRunList (env : Env) (ts : List Test) (st : RunState) :
    RunState × RecBundle × Option PyErr :=
  match ts with
  | [] => (st, ∅, none)
  | t :: rest =>
    match seqRun env t st with
    | (st1, b1, some e) => (st1, b1, some e)
    | (st1, b1, none) =>
      let (st2, b2, e2) := seqRunList env rest st1
      (st2, b1 ++ b2, e2)

end

/-- Children of a suite node (a case has none). -/
def suiteChildren : Test → List Test
  | .suite ts => ts
  | .case _ => []

/-- Concatenated flat records of a list of results, in list order, as
appended by `unishark.result.combine_results`. -/
def concatRecs (rs : List Result) : RecBundle :=
  rs.foldr (fun r acc => r.recs ++ acc) ∅

/-- Thread the state through a per-child operation, collecting one output
per child in order (a batch of submitted futures, executed in submission
order in this deterministic model of the worker pool). -/
def threadList {α : Type} (f : Test → RunState → RunState × α) :
    List Test → RunState → RunState × List α
  | [], st => (st, [])
  | t :: ts, st =>
    let (st1, a) := f t st
    let (st2, rest) := threadList f ts st1
    (st2, a :: rest)

/-- The body phase of a divide step: children whose setup raised re-raise at
the `as_completed` barrier, aborting the phase; a raised body exception also
aborts.  State mutations made before the abort are kept. -/
def bodyPhase (f : Test → RunState → RunState × Result × Option PyErr) :
    List (Test × (RecBundle × Option PyErr)) → RunState →
    RunState × List Result × Option PyErr
  | [], st => (st, [], none)
  | (_, (_, some e)) :: _, st => (st, [], some e)
  | (t, (_, none)) :: rest, st =>
    match f t st with
    | (st1, _, some e) => (st1, [], some e)
    | (st1, r, none) =>
      match bodyPhase f rest st1 with
      | (st2, rs, e2) => (st2, r :: rs, e2)

/-- Children whose bodies all completed are walked with the teardown
operation; `concurrent.futures.wait` discards teardown exceptions. -/
def teardownPhase (f : Test → RunState → RunState × RecBundle × Option PyErr) :
    List Test → RunState → RunState × List RecBundle
  | [], st => (st, [])
  | t :: ts, st =>
    let (st1, b, _) := f t st
    let (st2, rest) := teardownPhase f ts st1
    (st2, b :: rest)

/-- Assemble the per-child result slots: each slot accumulated its setup
records, then everything its body appended (including attached
grandchildren), then its teardown records. -/
def assembleChildren :
    List (RecBundle × Option PyErr) → List Result → List RecBundle → List Result
  | (sb, _) :: ss, b :: bs, td :: tds =>
    Result.mk (sb ++ b.recs ++ td) b.children :: assembleChildren ss bs tds
  | _, _, _ => []

/-- One divide step of `TestSuite._run` with a fixture phase (used at root
level with the module fixtures and at module level with the class fixtures):
submit all setups, then one body per child whose setup completed, then the
teardowns, and finally fold the ordered child results into the parent
(`combine_results`, modelled from the spec since `unishark/result.py` is not
under src/: counts are summed, record lists concatenated in child index
order, and the child result list attached to the parent). -/
def concPhases (env : Env)
    (setupF teardownF : Env → Test → RunState → RunState × RecBundle × Option PyErr)
    (bodyF : Test → RunState → RunState × Result × Option PyErr)
    (ts : List Test) (st : RunState) : RunState × Result × Option PyErr :=
  let (st1, setups) := threadList
    (fun t s => match setupF env t s with | (s1, b, e) => (s1, (b, e))) ts st
  match bodyPhase bodyF (ts.zip setups) st1 with
  | (st2, _, some e) => (st2, Result.mk ∅ [], some e)
  | (st2, bodies, none) =>
    let (st3, tds) := teardownPhase (teardownF env) ts st2
    let children := assembleChildren setups bodies tds
    (st3, Result.mk (concatRecs children) children, none)

/-- The fixture-free divide step at class level: one body per child case,
awaited with `concurrent.futures.wait`, which discards exceptions. -/
def classBodyPhase (bodyF : Test → RunState → RunState × Result × Option PyErr) :
    List Test → RunState → RunState × List Result
  | [], st => (st, [])
  | t :: ts, st =>
    let (st1, r, _) := bodyF t st
    let (st2, rest) := classBodyPhase bodyF ts st1
    (st2, r :: rest)

/-- `TestSuite._run` at method level (level 3): at the concurrency level the
subtree is handed to the sequential executor; a deeper concurrency level
never occurs for a validated run, and below it the call is a no-op. -/
def concRunMethod (env : Env) (cl : Int) (t : Test) (st : RunState) :
    RunState × Result × Option PyErr :=
  if (3 : Int) = cl then
    match seqRun env t st with
    | (st1, b, e) => (st1, Result.mk b [], e)
  else if 3 < cl then
    match t with
    | .case _ => (st, Result.mk ∅ [], some .typeError)
    | .suite ts => (st, Result.mk ∅ (ts.map fun _ => Result.mk ∅ []), none)
  else
    (st, Result.mk ∅ [], none)

/-- `TestSuite._run` at class level (level 2). -/
def concRunClass (env : Env) (cl : Int) (t : Test) (st : RunState) :
    RunState × Result × Option PyErr :=
  if (2 : Int) = cl then
    match seqRun env t st with
    | (st1, b, e) => (st1, Result.mk b [], e)
  else if 2 < cl then
    match t with
    | .case _ => (st, Result.mk ∅ [], some .typeError)
    | .suite ts =>
      let (st1, rs) := classBodyPhase (concRunMethod env cl) ts st
      (st1, Result.mk (concatRecs rs) rs, none)
  else
    (st, Result.mk ∅ [], none)

/-- `TestSuite._run` at module level (level 1). -/
def concRunModule (env : Env) (cl : Int) (t : Test) (st : RunState) :
    RunState × Result × Option PyErr :=
  if (1 : Int) = cl then
    match seqRun env t st with
    | (st1, b, e) => (st1, Result.mk b [], e)
  else if 1 < cl then
    match t with
    | .case _ => (st, Result.mk ∅ [], some .typeError)
    | .suite ts => concPhases env setupClass teardownClass (concRunClass env cl) ts st
  else
    (st, Result.mk ∅ [], none)

/-- `TestSuite._run` at root level (level 0), the entry point of the
concurrent scheduler. -/
def concRunRoot (env : Env) (cl : Int) (t : Test) (st : RunState) :
    RunState × Result × Option PyErr :=
  if (0 : Int) = cl then
    match seqRun env t st with
    | (st1, b, e) => (st1, Result.mk b [], e)
  else if 0 < cl then
    match t with
    | .case _ => (st, Result.mk ∅ [], some .typeError)
    | .suite ts => concPhases env setupModule teardownModule (concRunModule env cl) ts st
  else
    (st, Result.mk ∅ [], none)

/-- Modelled from the spec: the full sequential run strategy taken by
`TestSuite.run` when concurrency is disabled.  The code delegates to the
stdlib `unittest.suite.TestSuite.run` (not under src/); per the spec it
walks the children of the root depth-first, wrapping module- and class-level
suites in their fixtures, exactly as the sequential executor does on
subtrees. -/
def unittestRun (env : Env) (t : Test) (st : RunState) :
    RunState × RecBundle × Option PyErr :=
  match t with
  | .case c =>
    let (st1, b) := runCase env c st
    (st1, b, none)
  | .suite ts => seqRunList env ts st

/-- `TestSuite.run`: validate the concurrency level, take the sequential
path when debugging, at root concurrency level, or with at most one worker;
otherwise check well-formedness via `_get_level` and run the concurrent
scheduler. -/
def run (env : Env) (t : Test) (st : RunState) (debug : Bool) (cl mw : Int) :
    RunState × Result × Option PyErr :=
  if cl < 0 ∨ 3 < cl then
    (st, Result.mk ∅ [], some .valueError)
  else if debug = true ∨ cl = 0 ∨ mw ≤ 1 then
    match unittestRun env t st with
    | (st1, b, e) => (st1, Result.mk b [], e)
  else if getLevel t = 0 then
    concRunRoot env cl t st
  else
    (st, Result.mk ∅ [], some .runtimeError)

/-- True iff no character of the string is a dot (Python class `__name__`s
are dot-free, which makes `module + "." + cls` decompositions unique). -/
def dotFreeB (s : String) : Bool := s.data.all (fun ch => ch != '.')

/-- The node is a case owned by module `m` and class `c`. -/
def isCaseOfB (m c : String) : Test → Bool
  | .case ci => ci.module == m && ci.cls == c
  | .suite _ => false

/-- A canonical class-level suite: non-empty, all children cases of the same
dot-free class `c` of module `m`. -/
def wfClassSuiteB (m c : String) : Test → Bool
  | .suite (t :: ts) => dotFreeB c && (t :: ts).all (isCaseOfB m c)
  | _ => false

/-- Class name represented by a class-level suite (first case's class). -/
def classNameOf : Test → String
  | .suite (.case ci :: _) => ci.cls
  | _ => ""

/-- Module name represented by a module-level suite (first case's module,
two levels down). -/
def modNameOf : Test → String
  | .suite (.suite (.case ci :: _) :: _) => ci.module
  | _ => ""

/-- No duplicates in a list of names. -/
def nodupB : List String → Bool
  | [] => true
  | x :: xs => !(xs.contains x) && nodupB xs

/-- A canonical module-level suite for module `m`: non-empty, every child a
canonical class-level suite of `m`, with pairwise distinct class names. -/
def wfModuleSuiteB (m : String) : Test → Bool
  | .suite (t :: ts) =>
    (t :: ts).all (fun x => wfClassSuiteB m (classNameOf x) x) &&
      nodupB ((t :: ts).map classNameOf)
  | _ => false

/-- A canonical well-formed four-level tree: a non-empty root of canonical
module-level suites with pairwise distinct module names. -/
def wfTreeB : Test → Bool
  | .suite (t :: ts) =>
    (t :: ts).all (fun x => wfModuleSuiteB (modNameOf x) x) &&
      nodupB ((t :: ts).map modNameOf)
  | _ => false

/-! ## Reference effects

The equivalence proofs describe each fixture/body operation as appending an
explicit effect to the state and the result.  The effect of each operation
is a pure function of the environment, the subtree, and the boolean
fixture-outcome flags it reads. -/

/-- An effect: the names appended to the two ledger sets, the classes marked
`_classSetupFailed`, the trace events emitted, and the records appended to
the result. -/
structure Eff where
  succ : List String
  fail : List String
  csf : List String
  events : List Event
  recs : RecBundle
deriving Repr

instance : EmptyCollection Eff := ⟨⟨[], [], [], [], ∅⟩⟩

instance : Append Eff :=
  ⟨fun a b => ⟨a.succ ++ b.succ, a.fail ++ b.fail, a.csf ++ b.csf,
               a.events ++ b.events, a.recs ++ b.recs⟩⟩

/-- Apply an effect to a state. -/
def RunState.apply (st : RunState) (e : Eff) : RunState :=
  ⟨st.successful ++ e.succ, st.failed ++ e.fail, st.csf ++ e.csf, st.trace ++ e.events⟩

/-- Concatenation of a list of effects, in order. -/
def Eff.concat (es : List Eff) : Eff := es.foldr (· ++ ·) ∅

/-- The `setUpModule` hook of module `m`, `none` when the module is missing
from `sys.modules` or has no such attribute. -/
def modHookSetup (env : Env) (m : String) : Option Bool :=
  match env.modules m with
  | none => none
  | some me => me.setUpModuleHook

/-- The `tearDownModule` hook of module `m`. -/
def modHookTeardown (env : Env) (m : String) : Option Bool :=
  match env.modules m with
  | none => none
  | some me => me.tearDownModuleHook

/-- Whether the first `_setup_module` invocation for `m` records a failure. -/
def modSetupFails (env : Env) (m : String) : Bool :=
  modHookSetup env m == some false

/-- Effect of the first `_setup_module` invocation for module `m`. -/
def setupModuleEff (env : Env) (m : String) : Eff :=
  match modHookSetup env m with
  | none => ∅
  | some true =>
    ⟨[m ++ ".setUpModule"], [], [], hookEvents (.callSetUpModule m), ∅⟩
  | some false =>
    ⟨[], [m ++ ".setUpModule"], [], hookEvents (.callSetUpModule m),
     fxErr ("setUpModule (" ++ m ++ ")")⟩

/-- Effect of the first `_teardown_module` invocation for module `m`, given
whether the module's setup is recorded failed. -/
def teardownModuleEff (env : Env) (m : String) (mf : Bool) : Eff :=
  if mf then ∅
  else
    match modHookTeardown env m with
    | none => ∅
    | some true =>
      ⟨[m ++ ".tearDownModule"], [], [], hookEvents (.callTearDownModule m), ∅⟩
    | some false =>
      ⟨[], [m ++ ".tearDownModule"], [], hookEvents (.callTearDownModule m),
       fxErr ("tearDownModule (" ++ m ++ ")")⟩

/-- Effect of the first `_setup_class` invocation for the class `cr`, given
whether the owning module's setup is recorded failed. -/
def setupClassEff (env : Env) (cr : ClassRef) (mf : Bool) : Eff :=
  if mf then ∅
  else if (classEnvOf env cr).skip then ∅
  else
    match (classEnvOf env cr).setUpClassHook with
    | none => ∅
    | some true =>
      ⟨[cr.fullName ++ ".setUpClass"], [], [],
       hookEvents (.callSetUpClass cr.fullName), ∅⟩
    | some false =>
      ⟨[], [cr.fullName ++ ".setUpClass"], [cr.fullName],
       hookEvents (.callSetUpClass cr.fullName),
       fxErr ("setUpClass (" ++ cr.fullName ++ ")")⟩

/-- Whether the first `_setup_class` invocation for `cr` records a failure. -/
def classSetupFails (env : Env) (cr : ClassRef) (mf : Bool) : Bool :=
  !mf && !(classEnvOf env cr).skip && ((classEnvOf env cr).setUpClassHook == some false)

/-- Effect of the first `_teardown_class` invocation for `cr`, given whether
the class setup and the module setup are recorded failed. -/
def teardownClassEff (env : Env) (cr : ClassRef) (cf mf : Bool) : Eff :=
  if cf then ∅
  else if mf then ∅
  else if (classEnvOf env cr).skip then ∅
  else
    match (classEnvOf env cr).tearDownClassHook with
    | none => ∅
    | some true =>
      ⟨[cr.fullName ++ ".tearDownClass"], [], [],
       hookEvents (.callTearDownClass cr.fullName), ∅⟩
    | some false =>
      ⟨[], [cr.fullName ++ ".tearDownClass"], [],
       hookEvents (.callTearDownClass cr.fullName),
       fxErr ("tearDownClass (" ++ cr.fullName ++ ")")⟩

/-- Effect of executing one case, given the module-setup-failed and
class-setup-failed flags visible to it. -/
def caseEff (env : Env) (mf cf : Bool) (c : CaseInfo) : Eff :=
  if (env.classes (c.module ++ "." ++ c.cls)).skip then
    ⟨[], [], [], [], ⟨1, [], [], [c.id]⟩⟩
  else if cf || mf then
    ⟨[], [], [], [], ⟨1, [], [c.id], []⟩⟩
  else
    match c.outcome with
    | .pass => ⟨[], [], [], [.execBody c.id], ⟨1, [], [], []⟩⟩
    | .fail => ⟨[], [], [], [.execBody c.id], ⟨1, [c.id], [], []⟩⟩
    | .error => ⟨[], [], [], [.execBody c.id], ⟨1, [], [c.id], []⟩⟩
    | .skip => ⟨[], [], [], [], ⟨1, [], [], [c.id]⟩⟩

/-- Case infos of the children of a class-level suite. -/
def caseInfosOf : Test → List CaseInfo
  | .suite ts => ts.filterMap (fun x => match x with | .case ci => some ci | .suite _ => none)
  | .case _ => []

/-- Class reference represented by a class-level suite. -/
def classRefOf : Test → ClassRef
  | .suite (.case ci :: _) => .user ci.module ci.cls
  | _ => .tsClass

/-- Effect of the part of a class-level walk after its setup: the cases in
order, then the class teardown. -/
def classAfterSetupEff (env : Env) (cr : ClassRef) (cases : List CaseInfo)
    (mf cf : Bool) : Eff :=
  Eff.concat (cases.map (caseEff env mf cf)) ++ teardownClassEff env cr cf mf

/-- Effect of a full sequential class-level walk. -/
def classRunEff (env : Env) (cr : ClassRef) (cases : List CaseInfo) (mf : Bool) : Eff :=
  setupClassEff env cr mf ++
    classAfterSetupEff env cr cases mf (classSetupFails env cr mf)

/-- The class units (reference and cases) of a module-level suite. -/
def classUnitsOf (t : Test) : List (ClassRef × List CaseInfo) :=
  (suiteChildren t).map fun cs => (classRefOf cs, caseInfosOf cs)

/-- Effect of the part of a module-level walk after its setup: the class
walks in order, then the module teardown. -/
def moduleAfterSetupEff (env : Env) (m : String)
    (units : List (ClassRef × List CaseInfo)) : Eff :=
  Eff.concat (units.map fun u => classRunEff env u.1 u.2 (modSetupFails env m)) ++
    teardownModuleEff env m (modSetupFails env m)

/-- Effect of a full sequential module-level walk. -/
def moduleRunEff (env : Env) (m : String)
    (units : List (ClassRef × List CaseInfo)) : Eff :=
  setupModuleEff env m ++ moduleAfterSetupEff env m units

/-- Effect of a full sequential walk of a module-level suite. -/
def moduleSuiteEff (env : Env) (t : Test) : Eff :=
  moduleRunEff env (modNameOf t) (classUnitsOf t)

/-- Effect of a full sequential run of a well-formed tree: the module walks
in order. -/
def treeEff (env : Env) (t : Test) : Eff :=
  Eff.concat ((suiteChildren t).map (moduleSuiteEff env))

/-- Fully qualified class names of a module-level suite. -/
def classFullsOf (t : Test) : List String :=
  (classUnitsOf t).map (fun u => u.1.fullName)

/-- Ledger names a class unit can touch. -/
def classLedgerNames (full : String) : List String :=
  [full ++ ".setUpClass", full ++ ".tearDownClass"]

/-- Ledger names a module unit can touch. -/
def moduleLedgerNames (m : String) (fulls : List String) : List String :=
  (m ++ ".setUpModule") :: (m ++ ".tearDownModule") :: (fulls.map classLedgerNames).flatten

/-- Ledger names touched by processing a module-level suite. -/
def unitNames (t : Test) : List String :=
  moduleLedgerNames (modNameOf t) (classFullsOf t)

/-- All the given ledger names and `_classSetupFailed` marks are absent from
the state. -/
def freshFor (st : RunState) (ledger csfNames : List String) : Bool :=
  ledger.all (fun x => !(st.successful.contains x) && !(st.failed.contains x)) &&
    csfNames.all (fun y => !(st.csf.contains y))

/-! ## Fixture-name arithmetic

Distinct modules and classes can never produce the same ledger key: the four
hook suffixes are pairwise distinguishable from the right, and with dot-free
class names the decomposition of `module ++ "." ++ cls` is unique. -/

theorem append_ne_of_rev_take_ne (s t : String) (k : Nat)
    (hs : k ≤ s.data.length) (ht : k ≤ t.data.length)
    (h : s.data.reverse.take k ≠ t.data.reverse.take k) (a b : String) :
    a ++ s ≠ b ++ t := by
  intro he
  apply h
  have hd : a.data ++ s.data = b.data ++ t.data := by
    have hq := congrArg String.data he
    simpa [String.data_append] using hq
  have hr : s.data.reverse ++ a.data.reverse = t.data.reverse ++ b.data.reverse := by
    have hq := congrArg List.reverse hd
    simpa [List.reverse_append] using hq
  have h1 : (s.data.reverse ++ a.data.reverse).take k = s.data.reverse.take k :=
    List.take_append_of_le_length (by simpa using hs)
  have h2 : (t.data.reverse ++ b.data.reverse).take k = t.data.reverse.take k :=
    List.take_append_of_le_length (by simpa using ht)
  rw [← h1, ← h2, hr]

theorem ne_sUM_tDM (a b : String) : a ++ ".setUpModule" ≠ b ++ ".tearDownModule" :=
  append_ne_of_rev_take_ne _ _ 7 (by decide) (by decide) (by decide) a b

theorem ne_sUM_sUC (a b : String) : a ++ ".setUpModule" ≠ b ++ ".setUpClass" :=
  append_ne_of_rev_take_ne _ _ 1 (by decide) (by decide) (by decide) a b

theorem ne_sUM_tDC (a b : String) : a ++ ".setUpModule" ≠ b ++ ".tearDownClass" :=
  append_ne_of_rev_take_ne _ _ 1 (by decide) (by decide) (by decide) a b

theorem ne_tDM_sUC (a b : String) : a ++ ".tearDownModule" ≠ b ++ ".setUpClass" :=
  append_ne_of_rev_take_ne _ _ 1 (by decide) (by decide) (by decide) a b

theorem ne_tDM_tDC (a b : String) : a ++ ".tearDownModule" ≠ b ++ ".tearDownClass" :=
  append_ne_of_rev_take_ne _ _ 1 (by decide) (by decide) (by decide) a b

theorem ne_sUC_tDC (a b : String) : a ++ ".setUpClass" ≠ b ++ ".tearDownClass" :=
  append_ne_of_rev_take_ne _ _ 6 (by decide) (by decide) (by decide) a b

theorem append_right_cancel_ne (a b s : String) (h : a ≠ b) : a ++ s ≠ b ++ s := by
  intro he
  apply h
  apply String.ext
  have hd := congrArg String.data he
  simp only [String.data_append] at hd
  exact List.append_cancel_right hd

theorem append_left_cancel_eq (a : String) {s t : String} (h : a ++ s = a ++ t) :
    s = t := by
  apply String.ext
  have hd := congrArg String.data h
  simp only [String.data_append] at hd
  exact List.append_cancel_left hd

theorem dotfree_split : ∀ (x y u v : List Char),
    (∀ a ∈ u, a ≠ '.') → (∀ a ∈ v, a ≠ '.') →
    x ++ '.' :: u = y ++ '.' :: v → x = y ∧ u = v := by
  intro x
  induction x with
  | nil =>
    intro y u v hu hv he
    cases y with
    | nil => simpa using he
    | cons b ys =>
      simp only [List.nil_append, List.cons_append, List.cons.injEq] at he
      exfalso
      exact hu '.' (he.2 ▸ List.mem_append_right _ (List.mem_cons_self _ _)) rfl
  | cons a xs ih =>
    intro y u v hu hv he
    cases y with
    | nil =>
      simp only [List.nil_append, List.cons_append, List.cons.injEq] at he
      exfalso
      exact hv '.' (he.2 ▸ List.mem_append_right _ (List.mem_cons_self _ _)) rfl
    | cons b ys =>
      simp only [List.cons_append, List.cons.injEq] at he
      obtain ⟨h1, h2⟩ := he
      obtain ⟨h3, h4⟩ := ih ys u v hu hv h2
      exact ⟨by rw [h1, h3], h4⟩

theorem dotFreeB_chars {c : String} (h : dotFreeB c = true) :
    ∀ a ∈ c.data, a ≠ '.' := by
  intro a ha
  have hq := (List.all_eq_true.mp h) a ha
  simpa using hq

theorem fullName_inj {m₁ c₁ m₂ c₂ : String}
    (h₁ : dotFreeB c₁ = true) (h₂ : dotFreeB c₂ = true)
    (he : m₁ ++ "." ++ c₁ = m₂ ++ "." ++ c₂) : m₁ = m₂ ∧ c₁ = c₂ := by
  have hd := congrArg String.data he
  simp only [String.data_append] at hd
  have hd2 : m₁.data ++ '.' :: c₁.data = m₂.data ++ '.' :: c₂.data := by
    simpa [List.append_assoc] using hd
  obtain ⟨ha, hb⟩ :=
    dotfree_split _ _ _ _ (dotFreeB_chars h₁) (dotFreeB_chars h₂) hd2
  exact ⟨String.ext ha, String.ext hb⟩

theorem fullName_ne {m₁ c₁ m₂ c₂ : String}
    (h₁ : dotFreeB c₁ = true) (h₂ : dotFreeB c₂ = true)
    (h : m₁ ≠ m₂ ∨ c₁ ≠ c₂) : m₁ ++ "." ++ c₁ ≠ m₂ ++ "." ++ c₂ := by
  intro he
  obtain ⟨ha, hb⟩ := fullName_inj h₁ h₂ he
  cases h with
  | inl h => exact h ha
  | inr h => exact h hb

/-! ## Basic rewriting lemmas for effects, states and membership -/

@[simp] theorem Eff.empty_succ : (∅ : Eff).succ = [] := rfl
@[simp] theorem Eff.empty_fail : (∅ : Eff).fail = [] := rfl
@[simp] theorem Eff.empty_csf : (∅ : Eff).csf = [] := rfl
@[simp] theorem Eff.empty_events : (∅ : Eff).events = [] := rfl
@[simp] theorem Eff.empty_recs : (∅ : Eff).recs = ∅ := rfl

@[simp] theorem Eff.append_succ (a b : Eff) : (a ++ b).succ = a.succ ++ b.succ := rfl
@[simp] theorem Eff.append_fail (a b : Eff) : (a ++ b).fail = a.fail ++ b.fail := rfl
@[simp] theorem Eff.append_csf (a b : Eff) : (a ++ b).csf = a.csf ++ b.csf := rfl
@[simp] theorem Eff.append_events (a b : Eff) : (a ++ b).events = a.events ++ b.events := rfl
@[simp] theorem Eff.append_recs (a b : Eff) : (a ++ b).recs = a.recs ++ b.recs := rfl

@[simp] theorem RecBundle.empty_count : (∅ : RecBundle).count = 0 := rfl
@[simp] theorem RecBundle.empty_failures : (∅ : RecBundle).failures = [] := rfl
@[simp] theorem RecBundle.empty_errors : (∅ : RecBundle).errors = [] := rfl
@[simp] theorem RecBundle.empty_skips : (∅ : RecBundle).skips = [] := rfl

@[simp] theorem RecBundle.append_count (a b : RecBundle) :
    (a ++ b).count = a.count + b.count := rfl
@[simp] theorem RecBundle.append_failures (a b : RecBundle) :
    (a ++ b).failures = a.failures ++ b.failures := rfl
@[simp] theorem RecBundle.append_errors (a b : RecBundle) :
    (a ++ b).errors = a.errors ++ b.errors := rfl
@[simp] theorem RecBundle.append_skips (a b : RecBundle) :
    (a ++ b).skips = a.skips ++ b.skips := rfl

theorem RecBundle.mk_append (c₁ c₂ : Nat) (f₁ e₁ s₁ f₂ e₂ s₂ : List String) :
    (RecBundle.mk c₁ f₁ e₁ s₁) ++ (RecBundle.mk c₂ f₂ e₂ s₂) =
      ⟨c₁ + c₂, f₁ ++ f₂, e₁ ++ e₂, s₁ ++ s₂⟩ := rfl

theorem RecBundle.empty_def : (∅ : RecBundle) = ⟨0, [], [], []⟩ := rfl

theorem RecBundle.empty_append (a : RecBundle) : ∅ ++ a = a := by
  cases a; simp [RecBundle.mk_append, RecBundle.empty_def]

theorem RecBundle.append_empty (a : RecBundle) : a ++ ∅ = a := by
  cases a; simp [RecBundle.mk_append, RecBundle.empty_def]

theorem RecBundle.append_assoc (a b c : RecBundle) : a ++ b ++ c = a ++ (b ++ c) := by
  cases a; cases b; cases c
  simp [RecBundle.mk_append, Nat.add_assoc]

theorem Eff.mk_appendE (s₁ f₁ c₁ : List String) (v₁ : List Event) (r₁ : RecBundle)
    (s₂ f₂ c₂ : List String) (v₂ : List Event) (r₂ : RecBundle) :
    (Eff.mk s₁ f₁ c₁ v₁ r₁) ++ (Eff.mk s₂ f₂ c₂ v₂ r₂) =
      ⟨s₁ ++ s₂, f₁ ++ f₂, c₁ ++ c₂, v₁ ++ v₂, r₁ ++ r₂⟩ := rfl

theorem Eff.empty_defE : (∅ : Eff) = ⟨[], [], [], [], ∅⟩ := rfl

theorem Eff.empty_appendE (a : Eff) : ∅ ++ a = a := by
  cases a; simp [Eff.mk_appendE, Eff.empty_defE, RecBundle.empty_append]

theorem Eff.append_emptyE (a : Eff) : a ++ ∅ = a := by
  cases a; simp [Eff.mk_appendE, Eff.empty_defE, RecBundle.append_empty]

theorem Eff.append_assocE (a b c : Eff) : a ++ b ++ c = a ++ (b ++ c) := by
  cases a; cases b; cases c
  simp [Eff.mk_appendE, RecBundle.append_assoc]

@[simp] theorem Eff.concat_nil : Eff.concat [] = ∅ := rfl
@[simp] theorem Eff.concat_cons (e : Eff) (es : List Eff) :
    Eff.concat (e :: es) = e ++ Eff.concat es := rfl

@[simp] theorem RunState.apply_successful (st : RunState) (e : Eff) :
    (st.apply e).successful = st.successful ++ e.succ := rfl
@[simp] theorem RunState.apply_failed (st : RunState) (e : Eff) :
    (st.apply e).failed = st.failed ++ e.fail := rfl
@[simp] theorem RunState.apply_csf (st : RunState) (e : Eff) :
    (st.apply e).csf = st.csf ++ e.csf := rfl
@[simp] theorem RunState.apply_trace (st : RunState) (e : Eff) :
    (st.apply e).trace = st.trace ++ e.events := rfl

theorem RunState.apply_empty (st : RunState) : st.apply ∅ = st := by
  cases st; simp [RunState.apply]

theorem RunState.apply_apply (st : RunState) (a b : Eff) :
    (st.apply a).apply b = st.apply (a ++ b) := by
  cases st; simp [RunState.apply]

theorem contains_append (l₁ l₂ : List String) (a : String) :
    (l₁ ++ l₂).contains a = (l₁.contains a || l₂.contains a) := by
  simp [List.contains_eq_any_beq]

@[simp] theorem contains_nil (a : String) : ([] : List String).contains a = false := rfl

theorem contains_singleton (a y : String) : ([y] : List String).contains a = (a == y) := by
  show (a == y || false) = (a == y)
  simp

theorem contains_singleton_ne {a y : String} (h : a ≠ y) :
    ([y] : List String).contains a = false := by
  simp [contains_singleton, h]

@[simp] theorem Result.recs_mk (b : RecBundle) (cs : List Result) :
    (Result.mk b cs).recs = b := rfl

@[simp] theorem Result.children_mk (b : RecBundle) (cs : List Result) :
    (Result.mk b cs).children = cs := rfl

/-! ## Shape lemmas for well-formed suites -/

theorem all_cases_map {m c : String} : ∀ (ts : List Test),
    (∀ x ∈ ts, isCaseOfB m c x = true) →
    ∃ cis : List CaseInfo, ts = cis.map Test.case ∧
      ∀ ci ∈ cis, ci.module = m ∧ ci.cls = c := by
  intro ts
  induction ts with
  | nil => exact fun _ => ⟨[], rfl, by simp⟩
  | cons x xs ih =>
    intro h
    match x with
    | .suite s =>
      have hx := h (.suite s) (List.mem_cons_self _ _)
      simp [isCaseOfB] at hx
    | .case ci =>
      obtain ⟨cis, h1, h2⟩ := ih (fun y hy => h y (List.mem_cons_of_mem _ hy))
      have hx := h (.case ci) (List.mem_cons_self _ _)
      simp only [isCaseOfB, Bool.and_eq_true, beq_iff_eq] at hx
      refine ⟨ci :: cis, by simp [h1], ?_⟩
      intro a ha
      rcases List.mem_cons.mp ha with h3 | h3
      · subst h3; exact hx
      · exact h2 a h3

theorem wfClassSuite_parts {m c : String} {t : Test} (h : wfClassSuiteB m c t = true) :
    dotFreeB c = true ∧
    ∃ cis : List CaseInfo, cis ≠ [] ∧ t = .suite (cis.map Test.case) ∧
      ∀ ci ∈ cis, ci.module = m ∧ ci.cls = c := by
  match t with
  | .case _ => simp [wfClassSuiteB] at h
  | .suite [] => simp [wfClassSuiteB] at h
  | .suite (x :: xs) =>
    simp only [wfClassSuiteB, Bool.and_eq_true, List.all_eq_true] at h
    obtain ⟨hdot, hall⟩ := h
    obtain ⟨cis, h1, h2⟩ := all_cases_map (x :: xs) hall
    refine ⟨hdot, cis, ?_, by rw [h1], h2⟩
    intro hnil
    rw [hnil] at h1
    simp at h1

theorem caseInfosOf_map (cis : List CaseInfo) :
    caseInfosOf (.suite (cis.map Test.case)) = cis := by
  induction cis with
  | nil => rfl
  | cons a l ih =>
    simp only [caseInfosOf, List.map_cons, List.filterMap_cons] at *
    rw [ih]

theorem wfClassSuite_caseInfos {m c : String} {t : Test} (h : wfClassSuiteB m c t = true) :
    ∀ ci ∈ caseInfosOf t, ci.module = m ∧ ci.cls = c := by
  obtain ⟨-, cis, -, ht, hall⟩ := wfClassSuite_parts h
  rw [ht, caseInfosOf_map]
  exact hall

theorem wfClassSuite_level {m c : String} {t : Test} (h : wfClassSuiteB m c t = true) :
    getLevel t = 2 := by
  obtain ⟨-, cis, hne, ht, -⟩ := wfClassSuite_parts h
  match cis, hne with
  | ci :: rest, _ => rw [ht]; rfl

theorem wfClassSuite_getClass {m c : String} {t : Test} (h : wfClassSuiteB m c t = true) :
    getCurrentClass t = .ok (some (.user m c)) := by
  obtain ⟨-, cis, hne, ht, hall⟩ := wfClassSuite_parts h
  match cis, hne with
  | ci :: rest, _ =>
    have hc := hall ci (List.mem_cons_self _ _)
    rw [ht]
    simp [getCurrentClass, hc.1, hc.2]

theorem wfClassSuite_classRef {m c : String} {t : Test} (h : wfClassSuiteB m c t = true) :
    classRefOf t = .user m c := by
  obtain ⟨-, cis, hne, ht, hall⟩ := wfClassSuite_parts h
  match cis, hne with
  | ci :: rest, _ =>
    have hc := hall ci (List.mem_cons_self _ _)
    rw [ht]
    simp [classRefOf, hc.1, hc.2]

theorem wfClassSuite_children {m c : String} {t : Test} (h : wfClassSuiteB m c t = true) :
    suiteChildren t = (caseInfosOf t).map Test.case := by
  obtain ⟨-, cis, -, ht, -⟩ := wfClassSuite_parts h
  rw [ht, caseInfosOf_map]
  rfl

theorem wfModuleSuite_parts {m : String} {t : Test} (h : wfModuleSuiteB m t = true) :
    ∃ css : List Test, css ≠ [] ∧ t = .suite css ∧
      (∀ x ∈ css, wfClassSuiteB m (classNameOf x) x = true) ∧
      nodupB (css.map classNameOf) = true := by
  match t with
  | .case _ => simp [wfModuleSuiteB] at h
  | .suite [] => simp [wfModuleSuiteB] at h
  | .suite (x :: xs) =>
    simp only [wfModuleSuiteB, Bool.and_eq_true, List.all_eq_true] at h
    exact ⟨x :: xs, by simp, rfl, h.1, h.2⟩

theorem wfClassSuite_className {m c : String} {t : Test} (h : wfClassSuiteB m c t = true) :
    classNameOf t = c := by
  obtain ⟨-, cis, hne, ht, hall⟩ := wfClassSuite_parts h
  match cis, hne with
  | ci :: rest, _ =>
    have hc := hall ci (List.mem_cons_self _ _)
    rw [ht]
    simp [classNameOf, hc.2]

theorem wfModuleSuite_level {m : String} {t : Test} (h : wfModuleSuiteB m t = true) :
    getLevel t = 1 := by
  obtain ⟨css, hne, ht, hall, -⟩ := wfModuleSuite_parts h
  match css, hne with
  | x :: rest, _ =>
    have h2 := wfClassSuite_level (hall x (List.mem_cons_self _ _))
    rw [ht]
    match x, h2 with
    | .suite (y :: ys), h2 =>
      show getLevel (.suite (y :: ys)) - 1 = 1
      rw [h2]
      rfl

theorem wfModuleSuite_getModule {m : String} {t : Test} (h : wfModuleSuiteB m t = true) :
    getCurrentModule t = .ok (some m) := by
  obtain ⟨css, hne, ht, hall, -⟩ := wfModuleSuite_parts h
  match css, hne with
  | x :: rest, _ =>
    obtain ⟨-, cis, hne2, hx, hall2⟩ :=
      wfClassSuite_parts (hall x (List.mem_cons_self _ _))
    match cis, hne2 with
    | ci :: r2, _ =>
      have hc := hall2 ci (List.mem_cons_self _ _)
      rw [ht, hx]
      simp [getCurrentModule, hc.1]

theorem wfModuleSuite_modName {m : String} {t : Test} (h : wfModuleSuiteB m t = true) :
    modNameOf t = m := by
  obtain ⟨css, hne, ht, hall, -⟩ := wfModuleSuite_parts h
  match css, hne with
  | x :: rest, _ =>
    obtain ⟨-, cis, hne2, hx, hall2⟩ :=
      wfClassSuite_parts (hall x (List.mem_cons_self _ _))
    match cis, hne2 with
    | ci :: r2, _ =>
      have hc := hall2 ci (List.mem_cons_self _ _)
      rw [ht, hx]
      simp [modNameOf, hc.1]

theorem wfTree_parts {t : Test} (h : wfTreeB t = true) :
    ∃ ms : List Test, ms ≠ [] ∧ t = .suite ms ∧
      (∀ x ∈ ms, wfModuleSuiteB (modNameOf x) x = true) ∧
      nodupB (ms.map modNameOf) = true := by
  match t with
  | .case _ => simp [wfTreeB] at h
  | .suite [] => simp [wfTreeB] at h
  | .suite (x :: xs) =>
    simp only [wfTreeB, Bool.and_eq_true, List.all_eq_true] at h
    exact ⟨x :: xs, by simp, rfl, h.1, h.2⟩

theorem wfTree_level {t : Test} (h : wfTreeB t = true) : getLevel t = 0 := by
  obtain ⟨ms, hne, ht, hall, -⟩ := wfTree_parts h
  match ms, hne with
  | x :: rest, _ =>
    have h2 := wfModuleSuite_level (hall x (List.mem_cons_self _ _))
    rw [ht]
    match x, h2 with
    | .suite (y :: ys), h2 =>
      show getLevel (.suite (y :: ys)) - 1 = 0
      rw [h2]
      rfl

/-! ## Behaviour of the fixture operations -/

theorem setupModule_fresh (env : Env) {t : Test} {m : String} (st : RunState)
    (hget : getCurrentModule t = .ok (some m))
    (h1 : st.successful.contains (m ++ ".setUpModule") = false)
    (h2 : st.failed.contains (m ++ ".setUpModule") = false) :
    setupModule env t st =
      (st.apply (setupModuleEff env m), (setupModuleEff env m).recs, none) := by
  simp only [setupModule, hget, h1, h2, setupModuleEff, modHookSetup,
    Bool.or_self, Bool.false_eq_true, if_false]
  cases hmod : env.modules m with
  | none => simp [hmod, RunState.apply_empty]
  | some me =>
    cases hhook : me.setUpModuleHook with
    | none => simp [hmod, hhook, RunState.apply_empty]
    | some b => cases b <;> simp [hmod, hhook, RunState.apply, hookEvents]

theorem setupModule_recorded (env : Env) {t : Test} {m : String} (st : RunState)
    (hget : getCurrentModule t = .ok (some m))
    (h : st.successful.contains (m ++ ".setUpModule") = true ∨
         st.failed.contains (m ++ ".setUpModule") = true) :
    setupModule env t st = (st, ∅, none) := by
  simp only [setupModule, hget]
  rcases h with h | h <;> rw [h] <;> simp

theorem setupModule_after (env : Env) {t : Test} {m : String} (st : RunState)
    (hget : getCurrentModule t = .ok (some m))
    (hs : st.successful.contains (m ++ ".setUpModule") =
      (modHookSetup env m == some true))
    (hf : st.failed.contains (m ++ ".setUpModule") =
      (modHookSetup env m == some false)) :
    setupModule env t st = (st, ∅, none) := by
  simp only [setupModule, hget, hs, hf]
  cases hmod : env.modules m with
  | none => simp [modHookSetup, hmod]
  | some me =>
    cases hhook : me.setUpModuleHook with
    | none => simp [modHookSetup, hmod, hhook]
    | some b => cases b <;> simp [modHookSetup, hmod, hhook]

theorem teardownModule_fresh (env : Env) {t : Test} {m : String} (st : RunState)
    (mf : Bool)
    (hget : getCurrentModule t = .ok (some m))
    (h1 : st.successful.contains (m ++ ".tearDownModule") = false)
    (h2 : st.failed.contains (m ++ ".tearDownModule") = false)
    (hmf : st.failed.contains (m ++ ".setUpModule") = mf) :
    teardownModule env t st =
      (st.apply (teardownModuleEff env m mf), (teardownModuleEff env m mf).recs, none) := by
  simp only [teardownModule, hget, h1, h2, hmf, teardownModuleEff, modHookTeardown,
    Bool.or_self, Bool.false_eq_true, if_false]
  cases mf with
  | true => simp [RunState.apply_empty]
  | false =>
    simp only [Bool.false_eq_true, if_false]
    cases hmod : env.modules m with
    | none => simp [hmod, RunState.apply_empty]
    | some me =>
      cases hhook : me.tearDownModuleHook with
      | none => simp [hmod, hhook, RunState.apply_empty]
      | some b => cases b <;> simp [hmod, hhook, RunState.apply, hookEvents]

theorem teardownModule_failedSetup (env : Env) {t : Test} {m : String} (st : RunState)
    (hget : getCurrentModule t = .ok (some m))
    (hmf : st.failed.contains (m ++ ".setUpModule") = true) :
    teardownModule env t st = (st, ∅, none) := by
  simp only [teardownModule, hget]
  cases h1 : (st.successful.contains (m ++ ".tearDownModule") ||
      st.failed.contains (m ++ ".tearDownModule")) with
  | true => simp
  | false => rw [hmf]; simp

theorem teardownModule_after (env : Env) {t : Test} {m : String} (st : RunState)
    (mf : Bool)
    (hget : getCurrentModule t = .ok (some m))
    (hs : st.successful.contains (m ++ ".tearDownModule") =
      (!mf && (modHookTeardown env m == some true)))
    (hf : st.failed.contains (m ++ ".tearDownModule") =
      (!mf && (modHookTeardown env m == some false)))
    (hmf : st.failed.contains (m ++ ".setUpModule") = mf) :
    teardownModule env t st = (st, ∅, none) := by
  simp only [teardownModule, hget, hs, hf, hmf]
  cases mf with
  | true => simp
  | false =>
    cases hmod : env.modules m with
    | none => simp [modHookTeardown, hmod]
    | some me =>
      cases hhook : me.tearDownModuleHook with
      | none => simp [modHookTeardown, hmod, hhook]
      | some b => cases b <;> simp [modHookTeardown, hmod, hhook]

theorem setupClass_fresh (env : Env) {t : Test} {cr : ClassRef} (st : RunState)
    (mf : Bool)
    (hget : getCurrentClass t = .ok (some cr))
    (h1 : st.successful.contains (cr.fullName ++ ".setUpClass") = false)
    (h2 : st.failed.contains (cr.fullName ++ ".setUpClass") = false)
    (hmf : st.failed.contains (cr.modName ++ ".setUpModule") = mf) :
    setupClass env t st =
      (st.apply (setupClassEff env cr mf), (setupClassEff env cr mf).recs, none) := by
  simp only [setupClass, hget, h1, h2, hmf, setupClassEff,
    Bool.or_self, Bool.false_eq_true, if_false]
  cases mf with
  | true => simp [RunState.apply_empty]
  | false =>
    simp only [Bool.false_eq_true, if_false]
    cases hskip : (classEnvOf env cr).skip with
    | true => simp [hskip, RunState.apply_empty]
    | false =>
      simp only [hskip, Bool.false_eq_true, if_false]
      cases hhook : (classEnvOf env cr).setUpClassHook with
      | none => simp [hskip, hhook, RunState.apply_empty]
      | some b => cases b <;> simp [hskip, hhook, RunState.apply, hookEvents]

theorem setupClass_recorded (env : Env) {t : Test} {cr : ClassRef} (st : RunState)
    (hget : getCurrentClass t = .ok (some cr))
    (h : st.successful.contains (cr.fullName ++ ".setUpClass") = true ∨
         st.failed.contains (cr.fullName ++ ".setUpClass") = true) :
    setupClass env t st = (st, ∅, none) := by
  simp only [setupClass, hget]
  rcases h with h | h <;> rw [h] <;> simp

theorem setupClass_after (env : Env) {t : Test} {cr : ClassRef} (st : RunState)
    (mf : Bool)
    (hget : getCurrentClass t = .ok (some cr))
    (hs : st.successful.contains (cr.fullName ++ ".setUpClass") =
      (!mf && !(classEnvOf env cr).skip && ((classEnvOf env cr).setUpClassHook == some true)))
    (hf : st.failed.contains (cr.fullName ++ ".setUpClass") =
      classSetupFails env cr mf)
    (hmf : st.failed.contains (cr.modName ++ ".setUpModule") = mf) :
    setupClass env t st = (st, ∅, none) := by
  simp only [setupClass, hget, hs, hf, hmf, classSetupFails]
  cases mf with
  | true => simp
  | false =>
    cases hskip : (classEnvOf env cr).skip with
    | true => simp [hskip]
    | false =>
      cases hhook : (classEnvOf env cr).setUpClassHook with
      | none => simp [hhook]
      | some b => cases b <;> simp [hhook]

theorem setupClass_skip (env : Env) {t : Test} {cr : ClassRef} (st : RunState)
    (hget : getCurrentClass t = .ok (some cr))
    (hskip : (classEnvOf env cr).skip = true) :
    setupClass env t st = (st, ∅, none) := by
  simp only [setupClass, hget]
  cases h1 : (st.successful.contains (cr.fullName ++ ".setUpClass") ||
      st.failed.contains (cr.fullName ++ ".setUpClass")) with
  | true => simp
  | false =>
    cases h2 : st.failed.contains (cr.modName ++ ".setUpModule") with
    | true => simp
    | false => rw [hskip]; simp

theorem teardownClass_fresh (env : Env) {t : Test} {cr : ClassRef} (st : RunState)
    (cf mf : Bool)
    (hget : getCurrentClass t = .ok (some cr))
    (h1 : st.successful.contains (cr.fullName ++ ".tearDownClass") = false)
    (h2 : st.failed.contains (cr.fullName ++ ".tearDownClass") = false)
    (hcf : st.failed.contains (cr.fullName ++ ".setUpClass") = cf)
    (hmf : st.failed.contains (cr.modName ++ ".setUpModule") = mf) :
    teardownClass env t st =
      (st.apply (teardownClassEff env cr cf mf), (teardownClassEff env cr cf mf).recs, none) := by
  simp only [teardownClass, hget, h1, h2, hcf, hmf, teardownClassEff,
    Bool.or_self, Bool.false_eq_true, if_false]
  cases cf with
  | true => simp [RunState.apply_empty]
  | false =>
    simp only [Bool.false_eq_true, if_false]
    cases mf with
    | true => simp [RunState.apply_empty]
    | false =>
      simp only [Bool.false_eq_true, if_false]
      cases hskip : (classEnvOf env cr).skip with
      | true => simp [hskip, RunState.apply_empty]
      | false =>
        simp only [hskip, Bool.false_eq_true, if_false]
        cases hhook : (classEnvOf env cr).tearDownClassHook with
        | none => simp [hskip, hhook, RunState.apply_empty]
        | some b => cases b <;> simp [hskip, hhook, RunState.apply, hookEvents]

theorem teardownClass_after (env : Env) {t : Test} {cr : ClassRef} (st : RunState)
    (cf mf : Bool)
    (hget : getCurrentClass t = .ok (some cr))
    (hs : st.successful.contains (cr.fullName ++ ".tearDownClass") =
      (!cf && !mf && !(classEnvOf env cr).skip &&
        ((classEnvOf env cr).tearDownClassHook == some true)))
    (hf : st.failed.contains (cr.fullName ++ ".tearDownClass") =
      (!cf && !mf && !(classEnvOf env cr).skip &&
        ((classEnvOf env cr).tearDownClassHook == some false)))
    (hcf : st.failed.contains (cr.fullName ++ ".setUpClass") = cf)
    (hmf : st.failed.contains (cr.modName ++ ".setUpModule") = mf) :
    teardownClass env t st = (st, ∅, none) := by
  simp only [teardownClass, hget, hs, hf, hcf, hmf]
  cases cf with
  | true => simp
  | false =>
    cases mf with
    | true => simp
    | false =>
      cases hskip : (classEnvOf env cr).skip with
      | true => simp [hskip]
      | false =>
        cases hhook : (classEnvOf env cr).tearDownClassHook with
        | none => simp [hhook]
        | some b => cases b <;> simp [hhook]

theorem teardownClass_suppressed (env : Env) {t : Test} {cr : ClassRef} (st : RunState)
    (hget : getCurrentClass t = .ok (some cr))
    (h : st.failed.contains (cr.fullName ++ ".setUpClass") = true ∨
         st.failed.contains (cr.modName ++ ".setUpModule") = true ∨
         (classEnvOf env cr).skip = true) :
    teardownClass env t st = (st, ∅, none) := by
  simp only [teardownClass, hget]
  cases h1 : (st.successful.contains (cr.fullName ++ ".tearDownClass") ||
      st.failed.contains (cr.fullName ++ ".tearDownClass")) with
  | true => simp
  | false =>
    rcases h with h | h | h
    · rw [h]; simp
    · cases h2 : st.failed.contains (cr.fullName ++ ".setUpClass") with
      | true => simp
      | false => rw [h]; simp
    · cases h2 : st.failed.contains (cr.fullName ++ ".setUpClass") with
      | true => simp
      | false =>
        cases h3 : st.failed.contains (cr.modName ++ ".setUpModule") with
        | true => simp
        | false => rw [h]; simp

theorem runCase_eq (env : Env) (c : CaseInfo) (st : RunState) (mf cf : Bool)
    (hcsf : st.csf.contains (c.module ++ "." ++ c.cls) = cf)
    (hmod : st.failed.contains (c.module ++ ".setUpModule") = mf) :
    runCase env c st = (st.apply (caseEff env mf cf c), (caseEff env mf cf c).recs) := by
  simp only [runCase, caseEff, hcsf, hmod]
  cases hskip : (env.classes (c.module ++ "." ++ c.cls)).skip with
  | true => cases st; simp [RunState.apply]
  | false =>
    simp only [Bool.false_eq_true, if_false]
    cases hcm : (cf || mf) with
    | true => cases st; simp [RunState.apply]
    | false =>
      simp only [Bool.false_eq_true, if_false]
      cases c.outcome <;> (cases st; simp [RunState.apply])

/-! ## Names appearing in the effects -/

theorem caseEff_succ (env : Env) (mf cf : Bool) (c : CaseInfo) :
    (caseEff env mf cf c).succ = [] := by
  unfold caseEff
  split
  · rfl
  · split
    · rfl
    · cases c.outcome <;> rfl

theorem caseEff_fail (env : Env) (mf cf : Bool) (c : CaseInfo) :
    (caseEff env mf cf c).fail = [] := by
  unfold caseEff
  split
  · rfl
  · split
    · rfl
    · cases c.outcome <;> rfl

theorem caseEff_csf (env : Env) (mf cf : Bool) (c : CaseInfo) :
    (caseEff env mf cf c).csf = [] := by
  unfold caseEff
  split
  · rfl
  · split
    · rfl
    · cases c.outcome <;> rfl

theorem setupModuleEff_csf (env : Env) (m : String) :
    (setupModuleEff env m).csf = [] := by
  unfold setupModuleEff
  cases modHookSetup env m with
  | none => rfl
  | some b => cases b <;> rfl

theorem setupModuleEff_succ_contains (env : Env) (m x : String)
    (h : x ≠ m ++ ".setUpModule") : (setupModuleEff env m).succ.contains x = false := by
  unfold setupModuleEff
  cases modHookSetup env m with
  | none => rfl
  | some b => cases b <;> simp [contains_singleton_ne h, h]

theorem setupModuleEff_fail_contains (env : Env) (m x : String)
    (h : x ≠ m ++ ".setUpModule") : (setupModuleEff env m).fail.contains x = false := by
  unfold setupModuleEff
  cases modHookSetup env m with
  | none => rfl
  | some b => cases b <;> simp [contains_singleton_ne h, h]

theorem setupModuleEff_succ_self (env : Env) (m : String) :
    (setupModuleEff env m).succ.contains (m ++ ".setUpModule") =
      (modHookSetup env m == some true) := by
  unfold setupModuleEff
  cases modHookSetup env m with
  | none => rfl
  | some b => cases b <;> simp [contains_singleton]

theorem setupModuleEff_fail_self (env : Env) (m : String) :
    (setupModuleEff env m).fail.contains (m ++ ".setUpModule") =
      (modHookSetup env m == some false) := by
  unfold setupModuleEff
  cases modHookSetup env m with
  | none => rfl
  | some b => cases b <;> simp [contains_singleton]

theorem teardownModuleEff_csf (env : Env) (m : String) (mf : Bool) :
    (teardownModuleEff env m mf).csf = [] := by
  unfold teardownModuleEff
  cases mf
  · cases modHookTeardown env m with
    | none => rfl
    | some b => cases b <;> rfl
  · rfl

theorem teardownModuleEff_succ_contains (env : Env) (m x : String) (mf : Bool)
    (h : x ≠ m ++ ".tearDownModule") :
    (teardownModuleEff env m mf).succ.contains x = false := by
  unfold teardownModuleEff
  cases mf
  · cases modHookTeardown env m with
    | none => rfl
    | some b => cases b <;> simp [contains_singleton_ne h, h]
  · rfl

theorem teardownModuleEff_fail_contains (env : Env) (m x : String) (mf : Bool)
    (h : x ≠ m ++ ".tearDownModule") :
    (teardownModuleEff env m mf).fail.contains x = false := by
  unfold teardownModuleEff
  cases mf
  · cases modHookTeardown env m with
    | none => rfl
    | some b => cases b <;> simp [contains_singleton_ne h, h]
  · rfl

theorem teardownModuleEff_succ_self (env : Env) (m : String) (mf : Bool) :
    (teardownModuleEff env m mf).succ.contains (m ++ ".tearDownModule") =
      (!mf && (modHookTeardown env m == some true)) := by
  unfold teardownModuleEff
  cases mf
  · cases modHookTeardown env m with
    | none => simp
    | some b => cases b <;> simp [contains_singleton]
  · simp

theorem teardownModuleEff_fail_self (env : Env) (m : String) (mf : Bool) :
    (teardownModuleEff env m mf).fail.contains (m ++ ".tearDownModule") =
      (!mf && (modHookTeardown env m == some false)) := by
  unfold teardownModuleEff
  cases mf
  · cases modHookTeardown env m with
    | none => simp
    | some b => cases b <;> simp [contains_singleton]
  · simp

theorem setupClassEff_succ_contains (env : Env) (cr : ClassRef) (mf : Bool) (x : String)
    (h : x ≠ cr.fullName ++ ".setUpClass") :
    (setupClassEff env cr mf).succ.contains x = false := by
  unfold setupClassEff
  cases mf
  · cases (classEnvOf env cr).skip
    · cases (classEnvOf env cr).setUpClassHook with
      | none => rfl
      | some b => cases b <;> simp [contains_singleton_ne h, h]
    · rfl
  · rfl

theorem setupClassEff_fail_contains (env : Env) (cr : ClassRef) (mf : Bool) (x : String)
    (h : x ≠ cr.fullName ++ ".setUpClass") :
    (setupClassEff env cr mf).fail.contains x = false := by
  unfold setupClassEff
  cases mf
  · cases (classEnvOf env cr).skip
    · cases (classEnvOf env cr).setUpClassHook with
      | none => rfl
      | some b => cases b <;> simp [contains_singleton_ne h, h]
    · rfl
  · rfl

theorem setupClassEff_csf_contains (env : Env) (cr : ClassRef) (mf : Bool) (y : String)
    (h : y ≠ cr.fullName) :
    (setupClassEff env cr mf).csf.contains y = false := by
  unfold setupClassEff
  cases mf
  · cases (classEnvOf env cr).skip
    · cases (classEnvOf env cr).setUpClassHook with
      | none => rfl
      | some b => cases b <;> simp [contains_singleton_ne h, h]
    · rfl
  · rfl

theorem setupClassEff_succ_self (env : Env) (cr : ClassRef) (mf : Bool) :
    (setupClassEff env cr mf).succ.contains (cr.fullName ++ ".setUpClass") =
      (!mf && !(classEnvOf env cr).skip &&
        ((classEnvOf env cr).setUpClassHook == some true)) := by
  unfold setupClassEff
  cases mf
  · cases (classEnvOf env cr).skip
    · cases (classEnvOf env cr).setUpClassHook with
      | none => simp
      | some b => cases b <;> simp [contains_singleton]
    · simp
  · simp

theorem setupClassEff_fail_self (env : Env) (cr : ClassRef) (mf : Bool) :
    (setupClassEff env cr mf).fail.contains (cr.fullName ++ ".setUpClass") =
      classSetupFails env cr mf := by
  unfold setupClassEff classSetupFails
  cases mf
  · cases (classEnvOf env cr).skip
    · cases (classEnvOf env cr).setUpClassHook with
      | none => simp
      | some b => cases b <;> simp [contains_singleton]
    · simp
  · simp

theorem setupClassEff_csf_self (env : Env) (cr : ClassRef) (mf : Bool) :
    (setupClassEff env cr mf).csf.contains cr.fullName = classSetupFails env cr mf := by
  unfold setupClassEff classSetupFails
  cases mf
  · cases (classEnvOf env cr).skip
    · cases (classEnvOf env cr).setUpClassHook with
      | none => simp
      | some b => cases b <;> simp [contains_singleton]
    · simp
  · simp

theorem teardownClassEff_csf (env : Env) (cr : ClassRef) (cf mf : Bool) :
    (teardownClassEff env cr cf mf).csf = [] := by
  unfold teardownClassEff
  cases cf
  · cases mf
    · cases (classEnvOf env cr).skip
      · cases (classEnvOf env cr).tearDownClassHook with
        | none => rfl
        | some b => cases b <;> rfl
      · rfl
    · rfl
  · rfl

theorem teardownClassEff_succ_contains (env : Env) (cr : ClassRef) (cf mf : Bool)
    (x : String) (h : x ≠ cr.fullName ++ ".tearDownClass") :
    (teardownClassEff env cr cf mf).succ.contains x = false := by
  unfold teardownClassEff
  cases cf
  · cases mf
    · cases (classEnvOf env cr).skip
      · cases (classEnvOf env cr).tearDownClassHook with
        | none => rfl
        | some b => cases b <;> simp [contains_singleton_ne h, h]
      · rfl
    · rfl
  · rfl

theorem teardownClassEff_fail_contains (env : Env) (cr : ClassRef) (cf mf : Bool)
    (x : String) (h : x ≠ cr.fullName ++ ".tearDownClass") :
    (teardownClassEff env cr cf mf).fail.contains x = false := by
  unfold teardownClassEff
  cases cf
  · cases mf
    · cases (classEnvOf env cr).skip
      · cases (classEnvOf env cr).tearDownClassHook with
        | none => rfl
        | some b => cases b <;> simp [contains_singleton_ne h, h]
      · rfl
    · rfl
  · rfl

theorem teardownClassEff_succ_self (env : Env) (cr : ClassRef) (cf mf : Bool) :
    (teardownClassEff env cr cf mf).succ.contains (cr.fullName ++ ".tearDownClass") =
      (!cf && !mf && !(classEnvOf env cr).skip &&
        ((classEnvOf env cr).tearDownClassHook == some true)) := by
  unfold teardownClassEff
  cases cf
  · cases mf
    · cases (classEnvOf env cr).skip
      · cases (classEnvOf env cr).tearDownClassHook with
        | none => simp
        | some b => cases b <;> simp [contains_singleton]
      · simp
    · simp
  · simp

theorem teardownClassEff_fail_self (env : Env) (cr : ClassRef) (cf mf : Bool) :
    (teardownClassEff env cr cf mf).fail.contains (cr.fullName ++ ".tearDownClass") =
      (!cf && !mf && !(classEnvOf env cr).skip &&
        ((classEnvOf env cr).tearDownClassHook == some false)) := by
  unfold teardownClassEff
  cases cf
  · cases mf
    · cases (classEnvOf env cr).skip
      · cases (classEnvOf env cr).tearDownClassHook with
        | none => simp
        | some b => cases b <;> simp [contains_singleton]
      · simp
    · simp
  · simp

theorem concat_succ_contains {es : List Eff} {x : String}
    (h : ∀ e ∈ es, e.succ.contains x = false) :
    (Eff.concat es).succ.contains x = false := by
  induction es with
  | nil => rfl
  | cons e rest ih =>
    rw [Eff.concat_cons, Eff.append_succ, contains_append,
      h e (List.mem_cons_self _ _), ih (fun a ha => h a (List.mem_cons_of_mem _ ha))]
    rfl

theorem concat_fail_contains {es : List Eff} {x : String}
    (h : ∀ e ∈ es, e.fail.contains x = false) :
    (Eff.concat es).fail.contains x = false := by
  induction es with
  | nil => rfl
  | cons e rest ih =>
    rw [Eff.concat_cons, Eff.append_fail, contains_append,
      h e (List.mem_cons_self _ _), ih (fun a ha => h a (List.mem_cons_of_mem _ ha))]
    rfl

theorem concat_csf_contains {es : List Eff} {y : String}
    (h : ∀ e ∈ es, e.csf.contains y = false) :
    (Eff.concat es).csf.contains y = false := by
  induction es with
  | nil => rfl
  | cons e rest ih =>
    rw [Eff.concat_cons, Eff.append_csf, contains_append,
      h e (List.mem_cons_self _ _), ih (fun a ha => h a (List.mem_cons_of_mem _ ha))]
    rfl

@[simp] theorem fullName_user (m c : String) :
    ClassRef.fullName (.user m c) = m ++ "." ++ c := rfl

@[simp] theorem modName_user (m c : String) :
    ClassRef.modName (.user m c) = m := rfl

@[simp] theorem classEnvOf_user (env : Env) (m c : String) :
    classEnvOf env (.user m c) = env.classes (m ++ "." ++ c) := rfl

theorem caseEff_succ_contains (env : Env) (mf cf : Bool) (c : CaseInfo) (x : String) :
    (caseEff env mf cf c).succ.contains x = false := by
  rw [caseEff_succ]; rfl

theorem caseEff_fail_contains (env : Env) (mf cf : Bool) (c : CaseInfo) (x : String) :
    (caseEff env mf cf c).fail.contains x = false := by
  rw [caseEff_fail]; rfl

theorem caseEff_csf_contains (env : Env) (mf cf : Bool) (c : CaseInfo) (x : String) :
    (caseEff env mf cf c).csf.contains x = false := by
  rw [caseEff_csf]; rfl

/-! ## The sequential executor on class-level suites -/

theorem seqRunList_cases (env : Env) (m c : String) (mf cf : Bool) :
    ∀ (cis : List CaseInfo) (st : RunState),
    (∀ ci ∈ cis, ci.module = m ∧ ci.cls = c) →
    st.csf.contains (m ++ "." ++ c) = cf →
    st.failed.contains (m ++ ".setUpModule") = mf →
    seqRunList env (cis.map Test.case) st =
      (st.apply (Eff.concat (cis.map (caseEff env mf cf))),
       (Eff.concat (cis.map (caseEff env mf cf))).recs, none) := by
  intro cis
  induction cis with
  | nil =>
    intro st h1 h2 h3
    simp [seqRunList, RunState.apply_empty]
  | cons ci rest ih =>
    intro st hall hcsf hmod
    have hm := hall ci (List.mem_cons_self _ _)
    have hrc : runCase env ci st =
        (st.apply (caseEff env mf cf ci), (caseEff env mf cf ci).recs) := by
      apply runCase_eq
      · rw [hm.1, hm.2]; exact hcsf
      · rw [hm.1]; exact hmod
    have hih := ih (st.apply (caseEff env mf cf ci))
      (fun a ha => hall a (List.mem_cons_of_mem _ ha))
      (by rw [RunState.apply_csf, contains_append, hcsf, caseEff_csf_contains]
          cases cf <;> rfl)
      (by rw [RunState.apply_failed, contains_append, hmod, caseEff_fail_contains]
          cases mf <;> rfl)
    simp only [List.map_cons, seqRunList, seqRun, hrc, hih]
    simp [RunState.apply_apply, Eff.append_recs]

theorem seqRun_class_fresh (env : Env) {m c : String} {t : Test} (st : RunState) (mf : Bool)
    (hwf : wfClassSuiteB m c t = true)
    (h1 : st.successful.contains ((m ++ "." ++ c) ++ ".setUpClass") = false)
    (h2 : st.failed.contains ((m ++ "." ++ c) ++ ".setUpClass") = false)
    (h3 : st.successful.contains ((m ++ "." ++ c) ++ ".tearDownClass") = false)
    (h4 : st.failed.contains ((m ++ "." ++ c) ++ ".tearDownClass") = false)
    (h5 : st.csf.contains (m ++ "." ++ c) = false)
    (hmf : st.failed.contains (m ++ ".setUpModule") = mf) :
    seqRun env t st =
      (st.apply (classRunEff env (.user m c) (caseInfosOf t) mf),
       (classRunEff env (.user m c) (caseInfosOf t) mf).recs, none) := by
  have hget := wfClassSuite_getClass hwf
  have hlvl := wfClassSuite_level hwf
  have hinfos := wfClassSuite_caseInfos hwf
  obtain ⟨hdot, cis, hne, ht, hall⟩ := wfClassSuite_parts hwf
  subst ht
  rw [caseInfosOf_map] at hinfos
  set cf := classSetupFails env (.user m c) mf with hcf
  -- facts about the setup effect, in the syntactic form used below
  have s1 : (setupClassEff env (.user m c) mf).csf.contains (m ++ "." ++ c) = cf :=
    setupClassEff_csf_self env (.user m c) mf
  have s2 : (setupClassEff env (.user m c) mf).fail.contains (m ++ ".setUpModule") = false :=
    setupClassEff_fail_contains env _ mf _ (ne_sUM_sUC m (m ++ "." ++ c))
  have s3 : (setupClassEff env (.user m c) mf).succ.contains
      ((m ++ "." ++ c) ++ ".tearDownClass") = false :=
    setupClassEff_succ_contains env _ mf _ (Ne.symm (ne_sUC_tDC (m ++ "." ++ c) (m ++ "." ++ c)))
  have s4 : (setupClassEff env (.user m c) mf).fail.contains
      ((m ++ "." ++ c) ++ ".tearDownClass") = false :=
    setupClassEff_fail_contains env _ mf _ (Ne.symm (ne_sUC_tDC (m ++ "." ++ c) (m ++ "." ++ c)))
  have s5 : (setupClassEff env (.user m c) mf).fail.contains
      ((m ++ "." ++ c) ++ ".setUpClass") = cf :=
    setupClassEff_fail_self env (.user m c) mf
  have hsc : setupClass env (.suite (cis.map Test.case)) st =
      (st.apply (setupClassEff env (.user m c) mf),
       (setupClassEff env (.user m c) mf).recs, none) :=
    setupClass_fresh env st mf hget h1 h2 hmf
  have k1 : ∀ x : String,
      (Eff.concat (cis.map (caseEff env mf cf))).succ.contains x = false := by
    intro x
    apply concat_succ_contains
    intro e he
    obtain ⟨a, -, rfl⟩ := List.mem_map.mp he
    exact caseEff_succ_contains env mf cf a x
  have k2 : ∀ x : String,
      (Eff.concat (cis.map (caseEff env mf cf))).fail.contains x = false := by
    intro x
    apply concat_fail_contains
    intro e he
    obtain ⟨a, -, rfl⟩ := List.mem_map.mp he
    exact caseEff_fail_contains env mf cf a x
  have hcases := seqRunList_cases env m c mf cf cis
    (st.apply (setupClassEff env (.user m c) mf)) hinfos
    (by rw [RunState.apply_csf, contains_append, h5, s1]; cases cf <;> rfl)
    (by rw [RunState.apply_failed, contains_append, hmf, s2]; cases mf <;> rfl)
  have htd : teardownClass env (.suite (cis.map Test.case))
      ((st.apply (setupClassEff env (.user m c) mf)).apply
        (Eff.concat (cis.map (caseEff env mf cf)))) =
      (((st.apply (setupClassEff env (.user m c) mf)).apply
        (Eff.concat (cis.map (caseEff env mf cf)))).apply
          (teardownClassEff env (.user m c) cf mf),
       (teardownClassEff env (.user m c) cf mf).recs, none) := by
    apply teardownClass_fresh env _ cf mf hget
    · simp only [fullName_user, modName_user, RunState.apply_successful,
        RunState.apply_failed, contains_append]
      rw [h3, s3, k1]
      rfl
    · simp only [fullName_user, modName_user, RunState.apply_successful,
        RunState.apply_failed, contains_append]
      rw [h4, s4, k2]
      rfl
    · simp only [fullName_user, modName_user, RunState.apply_successful,
        RunState.apply_failed, contains_append]
      rw [h2, s5, k2]
      cases cf <;> rfl
    · simp only [fullName_user, modName_user, RunState.apply_successful,
        RunState.apply_failed, contains_append]
      rw [hmf, s2, k2]
      cases mf <;> rfl
  simp only [seqRun, hlvl]
  simp only [if_true, if_false, reduceCtorEq, reduceIte]
  rw [hsc]
  simp only [hcases, htd]
  simp [classRunEff, classAfterSetupEff, RunState.apply_apply, Eff.append_assocE,
    RecBundle.append_assoc, hcf, caseInfosOf_map]

theorem seqRun_class_after (env : Env) {m c : String} {t : Test} (st : RunState) (mf : Bool)
    (hwf : wfClassSuiteB m c t = true)
    (h1 : st.successful.contains ((m ++ "." ++ c) ++ ".setUpClass") =
      (!mf && !(classEnvOf env (.user m c)).skip &&
        ((classEnvOf env (.user m c)).setUpClassHook == some true)))
    (h2 : st.failed.contains ((m ++ "." ++ c) ++ ".setUpClass") =
      classSetupFails env (.user m c) mf)
    (h3 : st.successful.contains ((m ++ "." ++ c) ++ ".tearDownClass") = false)
    (h4 : st.failed.contains ((m ++ "." ++ c) ++ ".tearDownClass") = false)
    (h5 : st.csf.contains (m ++ "." ++ c) = classSetupFails env (.user m c) mf)
    (hmf : st.failed.contains (m ++ ".setUpModule") = mf) :
    seqRun env t st =
      (st.apply (classAfterSetupEff env (.user m c) (caseInfosOf t) mf
        (classSetupFails env (.user m c) mf)),
       (classAfterSetupEff env (.user m c) (caseInfosOf t) mf
        (classSetupFails env (.user m c) mf)).recs, none) := by
  have hget := wfClassSuite_getClass hwf
  have hlvl := wfClassSuite_level hwf
  have hinfos := wfClassSuite_caseInfos hwf
  obtain ⟨hdot, cis, hne, ht, hall⟩ := wfClassSuite_parts hwf
  subst ht
  rw [caseInfosOf_map] at hinfos
  set cf := classSetupFails env (.user m c) mf with hcf
  have hsc : setupClass env (.suite (cis.map Test.case)) st = (st, ∅, none) :=
    setupClass_after env st mf hget h1 h2 hmf
  have k1 : ∀ x : String,
      (Eff.concat (cis.map (caseEff env mf cf))).succ.contains x = false := by
    intro x
    apply concat_succ_contains
    intro e he
    obtain ⟨a, -, rfl⟩ := List.mem_map.mp he
    exact caseEff_succ_contains env mf cf a x
  have k2 : ∀ x : String,
      (Eff.concat (cis.map (caseEff env mf cf))).fail.contains x = false := by
    intro x
    apply concat_fail_contains
    intro e he
    obtain ⟨a, -, rfl⟩ := List.mem_map.mp he
    exact caseEff_fail_contains env mf cf a x
  have hcases := seqRunList_cases env m c mf cf cis st hinfos h5 hmf
  have htd : teardownClass env (.suite (cis.map Test.case))
      (st.apply (Eff.concat (cis.map (caseEff env mf cf)))) =
      ((st.apply (Eff.concat (cis.map (caseEff env mf cf)))).apply
          (teardownClassEff env (.user m c) cf mf),
       (teardownClassEff env (.user m c) cf mf).recs, none) := by
    apply teardownClass_fresh env _ cf mf hget
    · simp only [fullName_user, modName_user, RunState.apply_successful,
        RunState.apply_failed, contains_append]
      rw [h3, k1]
      rfl
    · simp only [fullName_user, modName_user, RunState.apply_successful,
        RunState.apply_failed, contains_append]
      rw [h4, k2]
      rfl
    · simp only [fullName_user, modName_user, RunState.apply_successful,
        RunState.apply_failed, contains_append]
      rw [h2, k2]
      cases cf <;> rfl
    · simp only [fullName_user, modName_user, RunState.apply_successful,
        RunState.apply_failed, contains_append]
      rw [hmf, k2]
      cases mf <;> rfl
  simp only [seqRun, hlvl]
  simp only [if_true, if_false, reduceCtorEq, reduceIte]
  rw [hsc]
  simp only [hcases, htd]
  simp [classAfterSetupEff, RunState.apply_apply, Eff.append_assocE,
    RecBundle.append_assoc, RecBundle.empty_append, Eff.empty_appendE, hcf, caseInfosOf_map]

/-! ## The sequential executor on module-level suites -/

/-- All ledger names and the mark of the class with full name `full` are
absent from the state. -/
def classFresh (st : RunState) (full : String) : Prop :=
  st.successful.contains (full ++ ".setUpClass") = false ∧
  st.failed.contains (full ++ ".setUpClass") = false ∧
  st.successful.contains (full ++ ".tearDownClass") = false ∧
  st.failed.contains (full ++ ".tearDownClass") = false ∧
  st.csf.contains full = false

theorem full_ne_of_cls_ne {m c₁ c₂ : String} (h : c₁ ≠ c₂) :
    m ++ "." ++ c₁ ≠ m ++ "." ++ c₂ := by
  intro he
  exact h (append_left_cancel_eq (m ++ ".") he)

theorem classRunEff_succ_contains (env : Env) (cr : ClassRef)
    (cases : List CaseInfo) (mf : Bool) (x : String)
    (hx1 : x ≠ cr.fullName ++ ".setUpClass") (hx2 : x ≠ cr.fullName ++ ".tearDownClass") :
    (classRunEff env cr cases mf).succ.contains x = false := by
  unfold classRunEff classAfterSetupEff
  rw [Eff.append_succ, Eff.append_succ, contains_append, contains_append,
    setupClassEff_succ_contains env cr mf x hx1,
    teardownClassEff_succ_contains env cr _ mf x hx2,
    concat_succ_contains (fun e he => ?_)]
  · rfl
  · obtain ⟨a, -, rfl⟩ := List.mem_map.mp he
    exact caseEff_succ_contains env mf _ a x

theorem classRunEff_fail_contains (env : Env) (cr : ClassRef)
    (cases : List CaseInfo) (mf : Bool) (x : String)
    (hx1 : x ≠ cr.fullName ++ ".setUpClass") (hx2 : x ≠ cr.fullName ++ ".tearDownClass") :
    (classRunEff env cr cases mf).fail.contains x = false := by
  unfold classRunEff classAfterSetupEff
  rw [Eff.append_fail, Eff.append_fail, contains_append, contains_append,
    setupClassEff_fail_contains env cr mf x hx1,
    teardownClassEff_fail_contains env cr _ mf x hx2,
    concat_fail_contains (fun e he => ?_)]
  · rfl
  · obtain ⟨a, -, rfl⟩ := List.mem_map.mp he
    exact caseEff_fail_contains env mf _ a x

theorem classRunEff_csf_contains (env : Env) (cr : ClassRef)
    (cases : List CaseInfo) (mf : Bool) (y : String) (hy : y ≠ cr.fullName) :
    (classRunEff env cr cases mf).csf.contains y = false := by
  unfold classRunEff classAfterSetupEff
  rw [Eff.append_csf, Eff.append_csf, contains_append, contains_append,
    setupClassEff_csf_contains env cr mf y hy, teardownClassEff_csf,
    concat_csf_contains (fun e he => ?_)]
  · rfl
  · obtain ⟨a, -, rfl⟩ := List.mem_map.mp he
    exact caseEff_csf_contains env mf _ a y

theorem nodupB_head {x : String} {xs : List String} (h : nodupB (x :: xs) = true) :
    xs.contains x = false ∧ nodupB xs = true := by
  simp only [nodupB, Bool.and_eq_true, Bool.not_eq_true'] at h
  exact h

theorem contains_of_mem {l : List String} {a : String} (h : a ∈ l) :
    l.contains a = true := by
  simp only [List.contains_eq_any_beq, List.any_eq_true]
  exact ⟨a, h, by simp⟩

theorem seqRunList_classes (env : Env) (m : String) (mf : Bool) :
    ∀ (css : List Test) (st : RunState),
    (∀ x ∈ css, wfClassSuiteB m (classNameOf x) x = true) →
    nodupB (css.map classNameOf) = true →
    (∀ x ∈ css, classFresh st (m ++ "." ++ classNameOf x)) →
    st.failed.contains (m ++ ".setUpModule") = mf →
    seqRunList env css st =
      (st.apply (Eff.concat (css.map
        (fun x => classRunEff env (.user m (classNameOf x)) (caseInfosOf x) mf))),
       (Eff.concat (css.map
        (fun x => classRunEff env (.user m (classNameOf x)) (caseInfosOf x) mf))).recs,
       none) := by
  intro css
  induction css with
  | nil =>
    intro st hwf hnd hfresh hmf
    simp [seqRunList, RunState.apply_empty]
  | cons x rest ih =>
    intro st hwf hnd hfresh hmf
    have hwx := hwf x (List.mem_cons_self _ _)
    obtain ⟨f1, f2, f3, f4, f5⟩ := hfresh x (List.mem_cons_self _ _)
    have hx : seqRun env x st =
        (st.apply (classRunEff env (.user m (classNameOf x)) (caseInfosOf x) mf),
         (classRunEff env (.user m (classNameOf x)) (caseInfosOf x) mf).recs, none) :=
      seqRun_class_fresh env st mf hwx f1 f2 f3 f4 f5 hmf
    obtain ⟨hnd1, hnd2⟩ := nodupB_head (by simpa using hnd)
    have hstep : ∀ y ∈ rest,
        classFresh (st.apply (classRunEff env (.user m (classNameOf x)) (caseInfosOf x) mf))
          (m ++ "." ++ classNameOf y) := by
      intro y hy
      obtain ⟨g1, g2, g3, g4, g5⟩ := hfresh y (List.mem_cons_of_mem _ hy)
      have hcne : classNameOf y ≠ classNameOf x := by
        intro he
        have hmem : (rest.map classNameOf).contains (classNameOf x) = true :=
          contains_of_mem (List.mem_map.mpr ⟨y, hy, he ▸ rfl⟩)
        rw [hmem] at hnd1
        exact Bool.true_eq_false.mp hnd1
      have hfne : m ++ "." ++ classNameOf y ≠ m ++ "." ++ classNameOf x :=
        full_ne_of_cls_ne hcne
      refine ⟨?_, ?_, ?_, ?_, ?_⟩
      · rw [RunState.apply_successful, contains_append, g1,
          classRunEff_succ_contains env _ _ mf _
            (append_right_cancel_ne _ _ _ hfne)
            (ne_sUC_tDC _ _)]
        rfl
      · rw [RunState.apply_failed, contains_append, g2,
          classRunEff_fail_contains env _ _ mf _
            (append_right_cancel_ne _ _ _ hfne)
            (ne_sUC_tDC _ _)]
        rfl
      · rw [RunState.apply_successful, contains_append, g3,
          classRunEff_succ_contains env _ _ mf _
            (Ne.symm (ne_sUC_tDC _ _))
            (append_right_cancel_ne _ _ _ hfne)]
        rfl
      · rw [RunState.apply_failed, contains_append, g4,
          classRunEff_fail_contains env _ _ mf _
            (Ne.symm (ne_sUC_tDC _ _))
            (append_right_cancel_ne _ _ _ hfne)]
        rfl
      · rw [RunState.apply_csf, contains_append, g5,
          classRunEff_csf_contains env _ _ mf _ hfne]
        rfl
    have hmf2 : (st.apply (classRunEff env (.user m (classNameOf x))
        (caseInfosOf x) mf)).failed.contains (m ++ ".setUpModule") = mf := by
      rw [RunState.apply_failed, contains_append, hmf,
        classRunEff_fail_contains env _ _ mf _ (ne_sUM_sUC _ _) (ne_sUM_tDC _ _)]
      cases mf <;> rfl
    have hih := ih _ (fun a ha => hwf a (List.mem_cons_of_mem _ ha)) hnd2 hstep hmf2
    simp only [seqRunList, hx, hih, List.map_cons]
    simp [RunState.apply_apply, Eff.append_recs]

@[simp] theorem suiteChildren_suite (ts : List Test) :
    suiteChildren (.suite ts) = ts := rfl

theorem map_congr_mem {α β : Type} {l : List α} {f g : α → β}
    (h : ∀ a ∈ l, f a = g a) : l.map f = l.map g := by
  induction l with
  | nil => rfl
  | cons a rest ih =>
    simp only [List.map_cons, h a (List.mem_cons_self _ _),
      ih (fun b hb => h b (List.mem_cons_of_mem _ hb))]

theorem moduleSuiteEff_eq (env : Env) {m : String} {t : Test}
    (hwf : wfModuleSuiteB m t = true) :
    moduleSuiteEff env t =
      setupModuleEff env m ++
        (Eff.concat ((suiteChildren t).map
          (fun x => classRunEff env (.user m (classNameOf x)) (caseInfosOf x)
            (modSetupFails env m))) ++
         teardownModuleEff env m (modSetupFails env m)) := by
  have hm := wfModuleSuite_modName hwf
  obtain ⟨css, hne, ht, hall, -⟩ := wfModuleSuite_parts hwf
  subst ht
  unfold moduleSuiteEff moduleRunEff moduleAfterSetupEff classUnitsOf
  rw [hm, List.map_map]
  apply congrArg (fun z => setupModuleEff env m ++
    (z ++ teardownModuleEff env m (modSetupFails env m)))
  apply congrArg
  apply map_congr_mem
  intro x hx
  have hcr := wfClassSuite_classRef (hall x hx)
  simp [Function.comp, hcr]

/-- The module ledger names and every class name of a well-formed
module-level suite are absent from the state. -/
def moduleFresh (st : RunState) (m : String) (t : Test) : Prop :=
  st.successful.contains (m ++ ".setUpModule") = false ∧
  st.failed.contains (m ++ ".setUpModule") = false ∧
  st.successful.contains (m ++ ".tearDownModule") = false ∧
  st.failed.contains (m ++ ".tearDownModule") = false ∧
  ∀ x ∈ suiteChildren t, classFresh st (m ++ "." ++ classNameOf x)

theorem seqRun_module_fresh (env : Env) {m : String} {t : Test} (st : RunState)
    (hwf : wfModuleSuiteB m t = true)
    (hfresh : moduleFresh st m t) :
    seqRun env t st =
      (st.apply (moduleSuiteEff env t), (moduleSuiteEff env t).recs, none) := by
  obtain ⟨h1, h2, h3, h4, hcls⟩ := hfresh
  have hget := wfModuleSuite_getModule hwf
  have hlvl := wfModuleSuite_level hwf
  have heq := moduleSuiteEff_eq env hwf
  obtain ⟨css, hne, ht, hall, hnd⟩ := wfModuleSuite_parts hwf
  subst ht
  set mf := modSetupFails env m with hmfdef
  have hsm : setupModule env (.suite css) st =
      (st.apply (setupModuleEff env m), (setupModuleEff env m).recs, none) :=
    setupModule_fresh env st hget h1 h2
  have hmf1 : (st.apply (setupModuleEff env m)).failed.contains
      (m ++ ".setUpModule") = mf := by
    rw [RunState.apply_failed, contains_append, h2, setupModuleEff_fail_self]
    rfl
  have hfr1 : ∀ x ∈ css, classFresh (st.apply (setupModuleEff env m))
      (m ++ "." ++ classNameOf x) := by
    intro x hx
    obtain ⟨g1, g2, g3, g4, g5⟩ := hcls x hx
    refine ⟨?_, ?_, ?_, ?_, ?_⟩
    · rw [RunState.apply_successful, contains_append, g1,
        setupModuleEff_succ_contains env m _ (Ne.symm (ne_sUM_sUC _ _))]
      rfl
    · rw [RunState.apply_failed, contains_append, g2,
        setupModuleEff_fail_contains env m _ (Ne.symm (ne_sUM_sUC _ _))]
      rfl
    · rw [RunState.apply_successful, contains_append, g3,
        setupModuleEff_succ_contains env m _ (Ne.symm (ne_sUM_tDC _ _))]
      rfl
    · rw [RunState.apply_failed, contains_append, g4,
        setupModuleEff_fail_contains env m _ (Ne.symm (ne_sUM_tDC _ _))]
      rfl
    · rw [RunState.apply_csf, contains_append, g5, setupModuleEff_csf]
      rfl
  have hclasses := seqRunList_classes env m mf css
    (st.apply (setupModuleEff env m)) hall (by simpa using hnd) hfr1 hmf1
  have k3 : ∀ x : String,
      (∀ y ∈ css, x ≠ (m ++ "." ++ classNameOf y) ++ ".setUpClass" ∧
        x ≠ (m ++ "." ++ classNameOf y) ++ ".tearDownClass") →
      (Eff.concat (css.map
        (fun y => classRunEff env (.user m (classNameOf y)) (caseInfosOf y) mf))).succ.contains
          x = false := by
    intro x hx
    apply concat_succ_contains
    intro e he
    obtain ⟨a, ha, rfl⟩ := List.mem_map.mp he
    exact classRunEff_succ_contains env _ _ mf x (hx a ha).1 (hx a ha).2
  have k4 : ∀ x : String,
      (∀ y ∈ css, x ≠ (m ++ "." ++ classNameOf y) ++ ".setUpClass" ∧
        x ≠ (m ++ "." ++ classNameOf y) ++ ".tearDownClass") →
      (Eff.concat (css.map
        (fun y => classRunEff env (.user m (classNameOf y)) (caseInfosOf y) mf))).fail.contains
          x = false := by
    intro x hx
    apply concat_fail_contains
    intro e he
    obtain ⟨a, ha, rfl⟩ := List.mem_map.mp he
    exact classRunEff_fail_contains env _ _ mf x (hx a ha).1 (hx a ha).2
  have htd : teardownModule env (.suite css)
      ((st.apply (setupModuleEff env m)).apply (Eff.concat (css.map
        (fun y => classRunEff env (.user m (classNameOf y)) (caseInfosOf y) mf)))) =
      (((st.apply (setupModuleEff env m)).apply (Eff.concat (css.map
        (fun y => classRunEff env (.user m (classNameOf y)) (caseInfosOf y) mf)))).apply
          (teardownModuleEff env m mf),
       (teardownModuleEff env m mf).recs, none) := by
    apply teardownModule_fresh env _ mf hget
    · rw [RunState.apply_successful, RunState.apply_successful, contains_append,
        contains_append, h3,
        setupModuleEff_succ_contains env m _ (Ne.symm (ne_sUM_tDM _ _)),
        k3 _ (fun y hy => ⟨ne_tDM_sUC _ _, ne_tDM_tDC _ _⟩)]
      rfl
    · rw [RunState.apply_failed, RunState.apply_failed, contains_append,
        contains_append, h4,
        setupModuleEff_fail_contains env m _ (Ne.symm (ne_sUM_tDM _ _)),
        k4 _ (fun y hy => ⟨ne_tDM_sUC _ _, ne_tDM_tDC _ _⟩)]
      rfl
    · rw [RunState.apply_failed, contains_append, hmf1,
        k4 _ (fun y hy => ⟨ne_sUM_sUC _ _, ne_sUM_tDC _ _⟩)]
      cases mf <;> rfl
  simp only [seqRun, hlvl]
  simp only [if_true, if_false, reduceCtorEq, reduceIte]
  rw [hsm]
  simp only [hclasses, htd, heq]
  simp [RunState.apply_apply, Eff.append_assocE, RecBundle.append_assoc]

theorem seqRun_module_after (env : Env) {m : String} {t : Test} (st : RunState)
    (hwf : wfModuleSuiteB m t = true)
    (h1 : st.successful.contains (m ++ ".setUpModule") =
      (modHookSetup env m == some true))
    (h2 : st.failed.contains (m ++ ".setUpModule") =
      (modHookSetup env m == some false))
    (h3 : st.successful.contains (m ++ ".tearDownModule") = false)
    (h4 : st.failed.contains (m ++ ".tearDownModule") = false)
    (hcls : ∀ x ∈ suiteChildren t, classFresh st (m ++ "." ++ classNameOf x)) :
    seqRun env t st =
      (st.apply (Eff.concat ((suiteChildren t).map
          (fun x => classRunEff env (.user m (classNameOf x)) (caseInfosOf x)
            (modSetupFails env m))) ++
        teardownModuleEff env m (modSetupFails env m)),
       (Eff.concat ((suiteChildren t).map
          (fun x => classRunEff env (.user m (classNameOf x)) (caseInfosOf x)
            (modSetupFails env m))) ++
        teardownModuleEff env m (modSetupFails env m)).recs, none) := by
  have hget := wfModuleSuite_getModule hwf
  have hlvl := wfModuleSuite_level hwf
  obtain ⟨css, hne, ht, hall, hnd⟩ := wfModuleSuite_parts hwf
  subst ht
  set mf := modSetupFails env m with hmfdef
  have hsm : setupModule env (.suite css) st = (st, ∅, none) :=
    setupModule_after env st hget h1 h2
  have hmf1 : st.failed.contains (m ++ ".setUpModule") = mf := h2
  have hclasses := seqRunList_classes env m mf css st hall (by simpa using hnd) hcls hmf1
  have k4 : ∀ x : String,
      (∀ y ∈ css, x ≠ (m ++ "." ++ classNameOf y) ++ ".setUpClass" ∧
        x ≠ (m ++ "." ++ classNameOf y) ++ ".tearDownClass") →
      (Eff.concat (css.map
        (fun y => classRunEff env (.user m (classNameOf y)) (caseInfosOf y) mf))).fail.contains
          x = false := by
    intro x hx
    apply concat_fail_contains
    intro e he
    obtain ⟨a, ha, rfl⟩ := List.mem_map.mp he
    exact classRunEff_fail_contains env _ _ mf x (hx a ha).1 (hx a ha).2
  have k3 : ∀ x : String,
      (∀ y ∈ css, x ≠ (m ++ "." ++ classNameOf y) ++ ".setUpClass" ∧
        x ≠ (m ++ "." ++ classNameOf y) ++ ".tearDownClass") →
      (Eff.concat (css.map
        (fun y => classRunEff env (.user m (classNameOf y)) (caseInfosOf y) mf))).succ.contains
          x = false := by
    intro x hx
    apply concat_succ_contains
    intro e he
    obtain ⟨a, ha, rfl⟩ := List.mem_map.mp he
    exact classRunEff_succ_contains env _ _ mf x (hx a ha).1 (hx a ha).2
  have htd : teardownModule env (.suite css)
      (st.apply (Eff.concat (css.map
        (fun y => classRunEff env (.user m (classNameOf y)) (caseInfosOf y) mf)))) =
      ((st.apply (Eff.concat (css.map
        (fun y => classRunEff env (.user m (classNameOf y)) (caseInfosOf y) mf)))).apply
          (teardownModuleEff env m mf),
       (teardownModuleEff env m mf).recs, none) := by
    apply teardownModule_fresh env _ mf hget
    · rw [RunState.apply_successful, contains_append, h3,
        k3 _ (fun y hy => ⟨ne_tDM_sUC _ _, ne_tDM_tDC _ _⟩)]
      rfl
    · rw [RunState.apply_failed, contains_append, h4,
        k4 _ (fun y hy => ⟨ne_tDM_sUC _ _, ne_tDM_tDC _ _⟩)]
      rfl
    · rw [RunState.apply_failed, contains_append, hmf1,
        k4 _ (fun y hy => ⟨ne_sUM_sUC _ _, ne_sUM_tDC _ _⟩)]
      cases mf <;> rfl
  simp only [seqRun, hlvl]
  simp only [if_true, if_false, reduceCtorEq, reduceIte]
  rw [hsm]
  simp only [hclasses, htd]
  simp [RunState.apply_apply, Eff.append_assocE, RecBundle.append_assoc,
    RecBundle.empty_append, Eff.empty_appendE]

/-! ## The full sequential run over all modules -/

theorem moduleSuiteEff_succ_contains (env : Env) {m : String} {t : Test}
    (hwf : wfModuleSuiteB m t = true) (x : String)
    (hx1 : x ≠ m ++ ".setUpModule") (hx2 : x ≠ m ++ ".tearDownModule")
    (hx3 : ∀ cs ∈ suiteChildren t,
      x ≠ (m ++ "." ++ classNameOf cs) ++ ".setUpClass" ∧
      x ≠ (m ++ "." ++ classNameOf cs) ++ ".tearDownClass") :
    (moduleSuiteEff env t).succ.contains x = false := by
  rw [moduleSuiteEff_eq env hwf, Eff.append_succ, Eff.append_succ,
    contains_append, contains_append,
    setupModuleEff_succ_contains env m x hx1,
    teardownModuleEff_succ_contains env m x _ hx2,
    concat_succ_contains (fun e he => ?_)]
  · rfl
  · obtain ⟨a, ha, rfl⟩ := List.mem_map.mp he
    exact classRunEff_succ_contains env _ _ _ x (hx3 a ha).1 (hx3 a ha).2

theorem moduleSuiteEff_fail_contains (env : Env) {m : String} {t : Test}
    (hwf : wfModuleSuiteB m t = true) (x : String)
    (hx1 : x ≠ m ++ ".setUpModule") (hx2 : x ≠ m ++ ".tearDownModule")
    (hx3 : ∀ cs ∈ suiteChildren t,
      x ≠ (m ++ "." ++ classNameOf cs) ++ ".setUpClass" ∧
      x ≠ (m ++ "." ++ classNameOf cs) ++ ".tearDownClass") :
    (moduleSuiteEff env t).fail.contains x = false := by
  rw [moduleSuiteEff_eq env hwf, Eff.append_fail, Eff.append_fail,
    contains_append, contains_append,
    setupModuleEff_fail_contains env m x hx1,
    teardownModuleEff_fail_contains env m x _ hx2,
    concat_fail_contains (fun e he => ?_)]
  · rfl
  · obtain ⟨a, ha, rfl⟩ := List.mem_map.mp he
    exact classRunEff_fail_contains env _ _ _ x (hx3 a ha).1 (hx3 a ha).2

theorem moduleSuiteEff_csf_contains (env : Env) {m : String} {t : Test}
    (hwf : wfModuleSuiteB m t = true) (y : String)
    (hy : ∀ cs ∈ suiteChildren t, y ≠ m ++ "." ++ classNameOf cs) :
    (moduleSuiteEff env t).csf.contains y = false := by
  rw [moduleSuiteEff_eq env hwf, Eff.append_csf, Eff.append_csf,
    contains_append, contains_append, setupModuleEff_csf, teardownModuleEff_csf,
    concat_csf_contains (fun e he => ?_)]
  · rfl
  · obtain ⟨a, ha, rfl⟩ := List.mem_map.mp he
    exact classRunEff_csf_contains env _ _ _ y (hy a ha)

theorem wfModuleSuite_dotFree {m : String} {t : Test} (hwf : wfModuleSuiteB m t = true) :
    ∀ cs ∈ suiteChildren t, dotFreeB (classNameOf cs) = true := by
  obtain ⟨css, hne, ht, hall, -⟩ := wfModuleSuite_parts hwf
  subst ht
  intro cs hcs
  exact (wfClassSuite_parts (hall cs hcs)).1

theorem moduleFresh_preserved (env : Env) {mx my : String} {tx ty : Test}
    (hwx : wfModuleSuiteB mx tx = true) (hwy : wfModuleSuiteB my ty = true)
    (hne : my ≠ mx) {st : RunState}
    (h : moduleFresh st my ty) :
    moduleFresh (st.apply (moduleSuiteEff env tx)) my ty := by
  obtain ⟨h1, h2, h3, h4, hcls⟩ := h
  have hdoty := wfModuleSuite_dotFree hwy
  have hdotx := wfModuleSuite_dotFree hwx
  refine ⟨?_, ?_, ?_, ?_, ?_⟩
  · rw [RunState.apply_successful, contains_append, h1,
      moduleSuiteEff_succ_contains env hwx _
        (append_right_cancel_ne _ _ _ hne) (ne_sUM_tDM _ _)
        (fun cs hcs => ⟨ne_sUM_sUC _ _, ne_sUM_tDC _ _⟩)]
    rfl
  · rw [RunState.apply_failed, contains_append, h2,
      moduleSuiteEff_fail_contains env hwx _
        (append_right_cancel_ne _ _ _ hne) (ne_sUM_tDM _ _)
        (fun cs hcs => ⟨ne_sUM_sUC _ _, ne_sUM_tDC _ _⟩)]
    rfl
  · rw [RunState.apply_successful, contains_append, h3,
      moduleSuiteEff_succ_contains env hwx _
        (Ne.symm (ne_sUM_tDM _ _)) (append_right_cancel_ne _ _ _ hne)
        (fun cs hcs => ⟨ne_tDM_sUC _ _, ne_tDM_tDC _ _⟩)]
    rfl
  · rw [RunState.apply_failed, contains_append, h4,
      moduleSuiteEff_fail_contains env hwx _
        (Ne.symm (ne_sUM_tDM _ _)) (append_right_cancel_ne _ _ _ hne)
        (fun cs hcs => ⟨ne_tDM_sUC _ _, ne_tDM_tDC _ _⟩)]
    rfl
  · intro x hx
    obtain ⟨g1, g2, g3, g4, g5⟩ := hcls x hx
    have hfne : ∀ cs ∈ suiteChildren tx,
        my ++ "." ++ classNameOf x ≠ mx ++ "." ++ classNameOf cs := by
      intro cs hcs
      exact fullName_ne (hdoty x hx) (hdotx cs hcs) (Or.inl hne)
    refine ⟨?_, ?_, ?_, ?_, ?_⟩
    · rw [RunState.apply_successful, contains_append, g1,
        moduleSuiteEff_succ_contains env hwx _
          (Ne.symm (ne_sUM_sUC _ _)) (Ne.symm (ne_tDM_sUC _ _))
          (fun cs hcs => ⟨append_right_cancel_ne _ _ _ (hfne cs hcs),
            ne_sUC_tDC _ _⟩)]
      rfl
    · rw [RunState.apply_failed, contains_append, g2,
        moduleSuiteEff_fail_contains env hwx _
          (Ne.symm (ne_sUM_sUC _ _)) (Ne.symm (ne_tDM_sUC _ _))
          (fun cs hcs => ⟨append_right_cancel_ne _ _ _ (hfne cs hcs),
            ne_sUC_tDC _ _⟩)]
      rfl
    · rw [RunState.apply_successful, contains_append, g3,
        moduleSuiteEff_succ_contains env hwx _
          (Ne.symm (ne_sUM_tDC _ _)) (Ne.symm (ne_tDM_tDC _ _))
          (fun cs hcs => ⟨Ne.symm (ne_sUC_tDC _ _),
            append_right_cancel_ne _ _ _ (hfne cs hcs)⟩)]
      rfl
    · rw [RunState.apply_failed, contains_append, g4,
        moduleSuiteEff_fail_contains env hwx _
          (Ne.symm (ne_sUM_tDC _ _)) (Ne.symm (ne_tDM_tDC _ _))
          (fun cs hcs => ⟨Ne.symm (ne_sUC_tDC _ _),
            append_right_cancel_ne _ _ _ (hfne cs hcs)⟩)]
      rfl
    · rw [RunState.apply_csf, contains_append, g5,
        moduleSuiteEff_csf_contains env hwx _ hfne]
      rfl

theorem seqRunList_modules (env : Env) : ∀ (mods : List Test) (st : RunState),
    (∀ x ∈ mods, wfModuleSuiteB (modNameOf x) x = true) →
    nodupB (mods.map modNameOf) = true →
    (∀ x ∈ mods, moduleFresh st (modNameOf x) x) →
    seqRunList env mods st =
      (st.apply (Eff.concat (mods.map (moduleSuiteEff env))),
       (Eff.concat (mods.map (moduleSuiteEff env))).recs, none) := by
  intro mods
  induction mods with
  | nil =>
    intro st hwf hnd hfresh
    simp [seqRunList, RunState.apply_empty]
  | cons x rest ih =>
    intro st hwf hnd hfresh
    have hwx := hwf x (List.mem_cons_self _ _)
    have hx := seqRun_module_fresh env st hwx (hfresh x (List.mem_cons_self _ _))
    obtain ⟨hnd1, hnd2⟩ := nodupB_head (by simpa using hnd)
    have hstep : ∀ y ∈ rest,
        moduleFresh (st.apply (moduleSuiteEff env x)) (modNameOf y) y := by
      intro y hy
      have hmy : modNameOf y ≠ modNameOf x := by
        intro he
        have hmem : (rest.map modNameOf).contains (modNameOf x) = true :=
          contains_of_mem (List.mem_map.mpr ⟨y, hy, he ▸ rfl⟩)
        rw [hmem] at hnd1
        exact Bool.true_eq_false.mp hnd1
      exact moduleFresh_preserved env hwx (hwf y (List.mem_cons_of_mem _ hy)) hmy
        (hfresh y (List.mem_cons_of_mem _ hy))
    have hih := ih _ (fun a ha => hwf a (List.mem_cons_of_mem _ ha)) hnd2 hstep
    simp only [seqRunList, hx, hih, List.map_cons]
    simp [RunState.apply_apply, Eff.append_recs]

/-- The state of a fresh run satisfies every freshness requirement. -/
theorem moduleFresh_init (m : String) (t : Test) : moduleFresh initState m t :=
  ⟨rfl, rfl, rfl, rfl, fun _ _ => ⟨rfl, rfl, rfl, rfl, rfl⟩⟩

theorem unittestRun_wf (env : Env) {t : Test} (st : RunState)
    (hwf : wfTreeB t = true)
    (hfresh : ∀ x ∈ suiteChildren t, moduleFresh st (modNameOf x) x) :
    unittestRun env t st =
      (st.apply (treeEff env t), (treeEff env t).recs, none) := by
  obtain ⟨ms, hne, ht, hall, hnd⟩ := wfTree_parts hwf
  subst ht
  simp only [unittestRun, treeEff, suiteChildren_suite]
  exact seqRunList_modules env ms st hall hnd (by simpa using hfresh)

/-! ## Interleaving machinery for the concurrent scheduler

A phase of the scheduler interleaves effects of different modules/classes;
the membership queries of one unit are unaffected by the effects of the
others because their ledger names are disjoint. -/

theorem succ_contains_apply (st : RunState) (e : Eff) (x : String)
    (h : e.succ.contains x = false) :
    (st.apply e).successful.contains x = st.successful.contains x := by
  rw [RunState.apply_successful, contains_append, h, Bool.or_false]

theorem fail_contains_apply (st : RunState) (e : Eff) (x : String)
    (h : e.fail.contains x = false) :
    (st.apply e).failed.contains x = st.failed.contains x := by
  rw [RunState.apply_failed, contains_append, h, Bool.or_false]

theorem csf_contains_apply (st : RunState) (e : Eff) (x : String)
    (h : e.csf.contains x = false) :
    (st.apply e).csf.contains x = st.csf.contains x := by
  rw [RunState.apply_csf, contains_append, h, Bool.or_false]

/-- The effect never touches any ledger name or mark of the module unit
`(m, t)`. -/
def effAvoidsUnit (e : Eff) (m : String) (t : Test) : Prop :=
  e.succ.contains (m ++ ".setUpModule") = false ∧
  e.fail.contains (m ++ ".setUpModule") = false ∧
  e.succ.contains (m ++ ".tearDownModule") = false ∧
  e.fail.contains (m ++ ".tearDownModule") = false ∧
  ∀ cs ∈ suiteChildren t,
    e.succ.contains ((m ++ "." ++ classNameOf cs) ++ ".setUpClass") = false ∧
    e.fail.contains ((m ++ "." ++ classNameOf cs) ++ ".setUpClass") = false ∧
    e.succ.contains ((m ++ "." ++ classNameOf cs) ++ ".tearDownClass") = false ∧
    e.fail.contains ((m ++ "." ++ classNameOf cs) ++ ".tearDownClass") = false ∧
    e.csf.contains (m ++ "." ++ classNameOf cs) = false

theorem effAvoidsUnit_empty (m : String) (t : Test) : effAvoidsUnit ∅ m t :=
  ⟨rfl, rfl, rfl, rfl, fun _ _ => ⟨rfl, rfl, rfl, rfl, rfl⟩⟩

theorem effAvoidsUnit_append {e₁ e₂ : Eff} {m : String} {t : Test}
    (h₁ : effAvoidsUnit e₁ m t) (h₂ : effAvoidsUnit e₂ m t) :
    effAvoidsUnit (e₁ ++ e₂) m t := by
  obtain ⟨a1, a2, a3, a4, a5⟩ := h₁
  obtain ⟨b1, b2, b3, b4, b5⟩ := h₂
  refine ⟨?_, ?_, ?_, ?_, ?_⟩ <;>
    first
    | (rw [Eff.append_succ, contains_append, a1, b1]; rfl)
    | (rw [Eff.append_fail, contains_append, a2, b2]; rfl)
    | (rw [Eff.append_succ, contains_append, a3, b3]; rfl)
    | (rw [Eff.append_fail, contains_append, a4, b4]; rfl)
    | (intro cs hcs
       obtain ⟨c1, c2, c3, c4, c5⟩ := a5 cs hcs
       obtain ⟨d1, d2, d3, d4, d5⟩ := b5 cs hcs
       exact ⟨by rw [Eff.append_succ, contains_append, c1, d1]; rfl,
              by rw [Eff.append_fail, contains_append, c2, d2]; rfl,
              by rw [Eff.append_succ, contains_append, c3, d3]; rfl,
              by rw [Eff.append_fail, contains_append, c4, d4]; rfl,
              by rw [Eff.append_csf, contains_append, c5, d5]; rfl⟩)

theorem effAvoidsUnit_concat {es : List Eff} {m : String} {t : Test}
    (h : ∀ e ∈ es, effAvoidsUnit e m t) : effAvoidsUnit (Eff.concat es) m t := by
  induction es with
  | nil => exact effAvoidsUnit_empty m t
  | cons e rest ih =>
    rw [Eff.concat_cons]
    exact effAvoidsUnit_append (h e (List.mem_cons_self _ _))
      (ih (fun a ha => h a (List.mem_cons_of_mem _ ha)))

theorem moduleFresh_apply {e : Eff} {m : String} {t : Test} {st : RunState}
    (ha : effAvoidsUnit e m t) (h : moduleFresh st m t) :
    moduleFresh (st.apply e) m t := by
  obtain ⟨a1, a2, a3, a4, a5⟩ := ha
  obtain ⟨h1, h2, h3, h4, h5⟩ := h
  refine ⟨?_, ?_, ?_, ?_, ?_⟩
  · rw [succ_contains_apply st e _ a1, h1]
  · rw [fail_contains_apply st e _ a2, h2]
  · rw [succ_contains_apply st e _ a3, h3]
  · rw [fail_contains_apply st e _ a4, h4]
  · intro cs hcs
    obtain ⟨c1, c2, c3, c4, c5⟩ := a5 cs hcs
    obtain ⟨g1, g2, g3, g4, g5⟩ := h5 cs hcs
    exact ⟨by rw [succ_contains_apply st e _ c1, g1],
           by rw [fail_contains_apply st e _ c2, g2],
           by rw [succ_contains_apply st e _ c3, g3],
           by rw [fail_contains_apply st e _ c4, g4],
           by rw [csf_contains_apply st e _ c5, g5]⟩

/-- Memberships of module unit `(m, t)` after its `_setup_module` ran and
before anything else of the unit ran. -/
def modPostSetup (env : Env) (st : RunState) (m : String) (t : Test) : Prop :=
  st.successful.contains (m ++ ".setUpModule") = (modHookSetup env m == some true) ∧
  st.failed.contains (m ++ ".setUpModule") = (modHookSetup env m == some false) ∧
  st.successful.contains (m ++ ".tearDownModule") = false ∧
  st.failed.contains (m ++ ".tearDownModule") = false ∧
  ∀ x ∈ suiteChildren t, classFresh st (m ++ "." ++ classNameOf x)

theorem modPostSetup_apply (env : Env) {e : Eff} {m : String} {t : Test} {st : RunState}
    (ha : effAvoidsUnit e m t) (h : modPostSetup env st m t) :
    modPostSetup env (st.apply e) m t := by
  obtain ⟨a1, a2, a3, a4, a5⟩ := ha
  obtain ⟨h1, h2, h3, h4, h5⟩ := h
  refine ⟨?_, ?_, ?_, ?_, ?_⟩
  · rw [succ_contains_apply st e _ a1, h1]
  · rw [fail_contains_apply st e _ a2, h2]
  · rw [succ_contains_apply st e _ a3, h3]
  · rw [fail_contains_apply st e _ a4, h4]
  · intro cs hcs
    obtain ⟨c1, c2, c3, c4, c5⟩ := a5 cs hcs
    obtain ⟨g1, g2, g3, g4, g5⟩ := h5 cs hcs
    exact ⟨by rw [succ_contains_apply st e _ c1, g1],
           by rw [fail_contains_apply st e _ c2, g2],
           by rw [succ_contains_apply st e _ c3, g3],
           by rw [fail_contains_apply st e _ c4, g4],
           by rw [csf_contains_apply st e _ c5, g5]⟩

theorem modPostSetup_start (env : Env) {m : String} {t : Test} {st : RunState}
    (h : moduleFresh st m t) :
    modPostSetup env (st.apply (setupModuleEff env m)) m t := by
  obtain ⟨h1, h2, h3, h4, h5⟩ := h
  refine ⟨?_, ?_, ?_, ?_, ?_⟩
  · rw [RunState.apply_successful, contains_append, h1, setupModuleEff_succ_self]
    rfl
  · rw [RunState.apply_failed, contains_append, h2, setupModuleEff_fail_self]
    rfl
  · rw [succ_contains_apply st _ _
      (setupModuleEff_succ_contains env m _ (Ne.symm (ne_sUM_tDM _ _))), h3]
  · rw [fail_contains_apply st _ _
      (setupModuleEff_fail_contains env m _ (Ne.symm (ne_sUM_tDM _ _))), h4]
  · intro cs hcs
    obtain ⟨g1, g2, g3, g4, g5⟩ := h5 cs hcs
    refine ⟨?_, ?_, ?_, ?_, ?_⟩
    · rw [succ_contains_apply st _ _
        (setupModuleEff_succ_contains env m _ (Ne.symm (ne_sUM_sUC _ _))), g1]
    · rw [fail_contains_apply st _ _
        (setupModuleEff_fail_contains env m _ (Ne.symm (ne_sUM_sUC _ _))), g2]
    · rw [succ_contains_apply st _ _
        (setupModuleEff_succ_contains env m _ (Ne.symm (ne_sUM_tDC _ _))), g3]
    · rw [fail_contains_apply st _ _
        (setupModuleEff_fail_contains env m _ (Ne.symm (ne_sUM_tDC _ _))), g4]
    · rw [csf_contains_apply st _ _ (by rw [setupModuleEff_csf]; rfl), g5]

theorem effAvoidsUnit_setupModuleEff (env : Env) {mx my : String} {ty : Test}
    (hwy : wfModuleSuiteB my ty = true) (hne : my ≠ mx) :
    effAvoidsUnit (setupModuleEff env mx) my ty := by
  refine ⟨?_, ?_, ?_, ?_, ?_⟩
  · exact setupModuleEff_succ_contains env mx _ (append_right_cancel_ne _ _ _ hne)
  · exact setupModuleEff_fail_contains env mx _ (append_right_cancel_ne _ _ _ hne)
  · exact setupModuleEff_succ_contains env mx _ (Ne.symm (ne_sUM_tDM _ _))
  · exact setupModuleEff_fail_contains env mx _ (Ne.symm (ne_sUM_tDM _ _))
  · intro cs hcs
    refine ⟨?_, ?_, ?_, ?_, ?_⟩
    · exact setupModuleEff_succ_contains env mx _ (Ne.symm (ne_sUM_sUC _ _))
    · exact setupModuleEff_fail_contains env mx _ (Ne.symm (ne_sUM_sUC _ _))
    · exact setupModuleEff_succ_contains env mx _ (Ne.symm (ne_sUM_tDC _ _))
    · exact setupModuleEff_fail_contains env mx _ (Ne.symm (ne_sUM_tDC _ _))
    · rw [setupModuleEff_csf]; rfl

theorem effAvoidsUnit_teardownModuleEff (env : Env) {mx my : String} {ty : Test}
    (mf : Bool) (hne : my ≠ mx) :
    effAvoidsUnit (teardownModuleEff env mx mf) my ty := by
  refine ⟨?_, ?_, ?_, ?_, ?_⟩
  · exact teardownModuleEff_succ_contains env mx _ mf (ne_sUM_tDM _ _)
  · exact teardownModuleEff_fail_contains env mx _ mf (ne_sUM_tDM _ _)
  · exact teardownModuleEff_succ_contains env mx _ mf (append_right_cancel_ne _ _ _ hne)
  · exact teardownModuleEff_fail_contains env mx _ mf (append_right_cancel_ne _ _ _ hne)
  · intro cs hcs
    refine ⟨?_, ?_, ?_, ?_, ?_⟩
    · exact teardownModuleEff_succ_contains env mx _ mf (Ne.symm (ne_tDM_sUC _ _))
    · exact teardownModuleEff_fail_contains env mx _ mf (Ne.symm (ne_tDM_sUC _ _))
    · exact teardownModuleEff_succ_contains env mx _ mf (Ne.symm (ne_tDM_tDC _ _))
    · exact teardownModuleEff_fail_contains env mx _ mf (Ne.symm (ne_tDM_tDC _ _))
    · rw [teardownModuleEff_csf]; rfl

theorem effAvoidsUnit_classRunEff (env : Env) {mx my : String} {ty : Test}
    (crx : ClassRef) (cases : List CaseInfo) (mf : Bool)
    (hwy : wfModuleSuiteB my ty = true)
    (hfull : ∀ cs ∈ suiteChildren ty, my ++ "." ++ classNameOf cs ≠ crx.fullName) :
    effAvoidsUnit (classRunEff env crx cases mf) my ty := by
  refine ⟨?_, ?_, ?_, ?_, ?_⟩
  · exact classRunEff_succ_contains env crx cases mf _ (ne_sUM_sUC _ _) (ne_sUM_tDC _ _)
  · exact classRunEff_fail_contains env crx cases mf _ (ne_sUM_sUC _ _) (ne_sUM_tDC _ _)
  · exact classRunEff_succ_contains env crx cases mf _ (ne_tDM_sUC _ _) (ne_tDM_tDC _ _)
  · exact classRunEff_fail_contains env crx cases mf _ (ne_tDM_sUC _ _) (ne_tDM_tDC _ _)
  · intro cs hcs
    refine ⟨?_, ?_, ?_, ?_, ?_⟩
    · exact classRunEff_succ_contains env crx cases mf _
        (append_right_cancel_ne _ _ _ (hfull cs hcs)) (ne_sUC_tDC _ _)
    · exact classRunEff_fail_contains env crx cases mf _
        (append_right_cancel_ne _ _ _ (hfull cs hcs)) (ne_sUC_tDC _ _)
    · exact classRunEff_succ_contains env crx cases mf _
        (Ne.symm (ne_sUC_tDC _ _)) (append_right_cancel_ne _ _ _ (hfull cs hcs))
    · exact classRunEff_fail_contains env crx cases mf _
        (Ne.symm (ne_sUC_tDC _ _)) (append_right_cancel_ne _ _ _ (hfull cs hcs))
    · exact classRunEff_csf_contains env crx cases mf _ (hfull cs hcs)

/-- The effect never touches a ledger name or the mark of the class with
full name `full`. -/
def effAvoidsClass (e : Eff) (full : String) : Prop :=
  e.succ.contains (full ++ ".setUpClass") = false ∧
  e.fail.contains (full ++ ".setUpClass") = false ∧
  e.succ.contains (full ++ ".tearDownClass") = false ∧
  e.fail.contains (full ++ ".tearDownClass") = false ∧
  e.csf.contains full = false

theorem effAvoidsClass_empty (full : String) : effAvoidsClass ∅ full :=
  ⟨rfl, rfl, rfl, rfl, rfl⟩

theorem effAvoidsClass_append {e₁ e₂ : Eff} {full : String}
    (h₁ : effAvoidsClass e₁ full) (h₂ : effAvoidsClass e₂ full) :
    effAvoidsClass (e₁ ++ e₂) full := by
  obtain ⟨a1, a2, a3, a4, a5⟩ := h₁
  obtain ⟨b1, b2, b3, b4, b5⟩ := h₂
  exact ⟨by rw [Eff.append_succ, contains_append, a1, b1]; rfl,
         by rw [Eff.append_fail, contains_append, a2, b2]; rfl,
         by rw [Eff.append_succ, contains_append, a3, b3]; rfl,
         by rw [Eff.append_fail, contains_append, a4, b4]; rfl,
         by rw [Eff.append_csf, contains_append, a5, b5]; rfl⟩

theorem effAvoidsClass_concat {es : List Eff} {full : String}
    (h : ∀ e ∈ es, effAvoidsClass e full) : effAvoidsClass (Eff.concat es) full := by
  induction es with
  | nil => exact effAvoidsClass_empty full
  | cons e rest ih =>
    rw [Eff.concat_cons]
    exact effAvoidsClass_append (h e (List.mem_cons_self _ _))
      (ih (fun a ha => h a (List.mem_cons_of_mem _ ha)))

theorem classFresh_applyE {e : Eff} {full : String} {st : RunState}
    (ha : effAvoidsClass e full) (h : classFresh st full) :
    classFresh (st.apply e) full := by
  obtain ⟨a1, a2, a3, a4, a5⟩ := ha
  obtain ⟨h1, h2, h3, h4, h5⟩ := h
  exact ⟨by rw [succ_contains_apply st e _ a1, h1],
         by rw [fail_contains_apply st e _ a2, h2],
         by rw [succ_contains_apply st e _ a3, h3],
         by rw [fail_contains_apply st e _ a4, h4],
         by rw [csf_contains_apply st e _ a5, h5]⟩

/-- Memberships of a class unit after its `_setup_class` ran and before its
teardown ran (case execution does not touch the ledger). -/
def classPostSetup (env : Env) (st : RunState) (cr : ClassRef) (mf : Bool) : Prop :=
  st.successful.contains (cr.fullName ++ ".setUpClass") =
    (!mf && !(classEnvOf env cr).skip &&
      ((classEnvOf env cr).setUpClassHook == some true)) ∧
  st.failed.contains (cr.fullName ++ ".setUpClass") = classSetupFails env cr mf ∧
  st.successful.contains (cr.fullName ++ ".tearDownClass") = false ∧
  st.failed.contains (cr.fullName ++ ".tearDownClass") = false ∧
  st.csf.contains cr.fullName = classSetupFails env cr mf

theorem classPostSetup_applyE (env : Env) {e : Eff} {cr : ClassRef} {mf : Bool}
    {st : RunState} (ha : effAvoidsClass e cr.fullName)
    (h : classPostSetup env st cr mf) :
    classPostSetup env (st.apply e) cr mf := by
  obtain ⟨a1, a2, a3, a4, a5⟩ := ha
  obtain ⟨h1, h2, h3, h4, h5⟩ := h
  exact ⟨by rw [succ_contains_apply st e _ a1, h1],
         by rw [fail_contains_apply st e _ a2, h2],
         by rw [succ_contains_apply st e _ a3, h3],
         by rw [fail_contains_apply st e _ a4, h4],
         by rw [csf_contains_apply st e _ a5, h5]⟩

theorem classPostSetup_start (env : Env) {cr : ClassRef} {mf : Bool} {st : RunState}
    (h : classFresh st cr.fullName) :
    classPostSetup env (st.apply (setupClassEff env cr mf)) cr mf := by
  obtain ⟨h1, h2, h3, h4, h5⟩ := h
  refine ⟨?_, ?_, ?_, ?_, ?_⟩
  · rw [RunState.apply_successful, contains_append, h1, setupClassEff_succ_self]
    rfl
  · rw [RunState.apply_failed, contains_append, h2, setupClassEff_fail_self]
    rfl
  · rw [succ_contains_apply st _ _
      (setupClassEff_succ_contains env cr mf _ (Ne.symm (ne_sUC_tDC _ _))), h3]
  · rw [fail_contains_apply st _ _
      (setupClassEff_fail_contains env cr mf _ (Ne.symm (ne_sUC_tDC _ _))), h4]
  · rw [RunState.apply_csf, contains_append, h5, setupClassEff_csf_self]
    rfl

/-- Memberships of a class unit after both its setup and teardown ran. -/
def classPostAll (env : Env) (st : RunState) (cr : ClassRef) (mf : Bool) : Prop :=
  st.failed.contains (cr.fullName ++ ".setUpClass") = classSetupFails env cr mf ∧
  st.successful.contains (cr.fullName ++ ".tearDownClass") =
    (!(classSetupFails env cr mf) && !mf && !(classEnvOf env cr).skip &&
      ((classEnvOf env cr).tearDownClassHook == some true)) ∧
  st.failed.contains (cr.fullName ++ ".tearDownClass") =
    (!(classSetupFails env cr mf) && !mf && !(classEnvOf env cr).skip &&
      ((classEnvOf env cr).tearDownClassHook == some false))

theorem classPostAll_applyE (env : Env) {e : Eff} {cr : ClassRef} {mf : Bool}
    {st : RunState} (ha : effAvoidsClass e cr.fullName)
    (h : classPostAll env st cr mf) :
    classPostAll env (st.apply e) cr mf := by
  obtain ⟨a1, a2, a3, a4, a5⟩ := ha
  obtain ⟨h1, h2, h3⟩ := h
  exact ⟨by rw [fail_contains_apply st e _ a2, h1],
         by rw [succ_contains_apply st e _ a3, h2],
         by rw [fail_contains_apply st e _ a4, h3]⟩

theorem classPostAll_start (env : Env) {cr : ClassRef} {mf : Bool} {st : RunState}
    (cases : List CaseInfo) (h : classPostSetup env st cr mf) :
    classPostAll env (st.apply (classAfterSetupEff env cr cases
      mf (classSetupFails env cr mf))) cr mf := by
  obtain ⟨h1, h2, h3, h4, h5⟩ := h
  set cf := classSetupFails env cr mf with hcf
  have kf : ∀ x : String,
      (Eff.concat (cases.map (caseEff env mf cf))).fail.contains x = false := by
    intro x
    apply concat_fail_contains
    intro e he
    obtain ⟨a, -, rfl⟩ := List.mem_map.mp he
    exact caseEff_fail_contains env mf cf a x
  have ks : ∀ x : String,
      (Eff.concat (cases.map (caseEff env mf cf))).succ.contains x = false := by
    intro x
    apply concat_succ_contains
    intro e he
    obtain ⟨a, -, rfl⟩ := List.mem_map.mp he
    exact caseEff_succ_contains env mf cf a x
  refine ⟨?_, ?_, ?_⟩
  · rw [RunState.apply_failed]
    unfold classAfterSetupEff
    rw [Eff.append_fail, contains_append, contains_append, h2,
      kf, teardownClassEff_fail_contains env cr _ mf _ (ne_sUC_tDC _ _)]
    simp [hcf]
  · rw [RunState.apply_successful]
    unfold classAfterSetupEff
    rw [Eff.append_succ, contains_append, contains_append, h3,
      ks, teardownClassEff_succ_self]
    simp [hcf]
  · rw [RunState.apply_failed]
    unfold classAfterSetupEff
    rw [Eff.append_fail, contains_append, contains_append, h4,
      kf, teardownClassEff_fail_self]
    simp [hcf]

theorem effAvoidsClass_setupClassEff (env : Env) {full : String} (crx : ClassRef)
    (mf : Bool) (hfull : full ≠ crx.fullName) :
    effAvoidsClass (setupClassEff env crx mf) full := by
  refine ⟨?_, ?_, ?_, ?_, ?_⟩
  · exact setupClassEff_succ_contains env crx mf _ (append_right_cancel_ne _ _ _ hfull)
  · exact setupClassEff_fail_contains env crx mf _ (append_right_cancel_ne _ _ _ hfull)
  · exact setupClassEff_succ_contains env crx mf _ (Ne.symm (ne_sUC_tDC _ _))
  · exact setupClassEff_fail_contains env crx mf _ (Ne.symm (ne_sUC_tDC _ _))
  · exact setupClassEff_csf_contains env crx mf _ hfull

theorem effAvoidsClass_teardownClassEff (env : Env) {full : String} (crx : ClassRef)
    (cf mf : Bool) (hfull : full ≠ crx.fullName) :
    effAvoidsClass (teardownClassEff env crx cf mf) full := by
  refine ⟨?_, ?_, ?_, ?_, ?_⟩
  · exact teardownClassEff_succ_contains env crx cf mf _ (ne_sUC_tDC _ _)
  · exact teardownClassEff_fail_contains env crx cf mf _ (ne_sUC_tDC _ _)
  · exact teardownClassEff_succ_contains env crx cf mf _ (append_right_cancel_ne _ _ _ hfull)
  · exact teardownClassEff_fail_contains env crx cf mf _ (append_right_cancel_ne _ _ _ hfull)
  · rw [teardownClassEff_csf]; rfl

theorem effAvoidsClass_caseEff (env : Env) (mf cf : Bool) (ci : CaseInfo)
    (full : String) : effAvoidsClass (caseEff env mf cf ci) full :=
  ⟨caseEff_succ_contains env mf cf ci _, caseEff_fail_contains env mf cf ci _,
   caseEff_succ_contains env mf cf ci _, caseEff_fail_contains env mf cf ci _,
   caseEff_csf_contains env mf cf ci _⟩

theorem effAvoidsClass_classAfterSetupEff (env : Env) {full : String} (crx : ClassRef)
    (cases : List CaseInfo) (mf cf : Bool) (hfull : full ≠ crx.fullName) :
    effAvoidsClass (classAfterSetupEff env crx cases mf cf) full := by
  unfold classAfterSetupEff
  apply effAvoidsClass_append
  · apply effAvoidsClass_concat
    intro e he
    obtain ⟨a, -, rfl⟩ := List.mem_map.mp he
    exact effAvoidsClass_caseEff env mf cf a full
  · exact effAvoidsClass_teardownClassEff env crx cf mf hfull

theorem moduleSetupClassPhase (env : Env) (m : String) (mf : Bool) :
    ∀ (css : List Test) (st : RunState),
    (∀ x ∈ css, wfClassSuiteB m (classNameOf x) x = true) →
    nodupB (css.map classNameOf) = true →
    (∀ x ∈ css, classFresh st (m ++ "." ++ classNameOf x)) →
    st.failed.contains (m ++ ".setUpModule") = mf →
    threadList (fun t s => match setupClass env t s with
      | (s1, b, e) => (s1, (b, e))) css st =
      (st.apply (Eff.concat (css.map
        (fun x => setupClassEff env (.user m (classNameOf x)) mf))),
       css.map (fun x =>
        ((setupClassEff env (.user m (classNameOf x)) mf).recs, (none : Option PyErr)))) ∧
    (∀ y ∈ css, classPostSetup env
      (st.apply (Eff.concat (css.map
        (fun x => setupClassEff env (.user m (classNameOf x)) mf))))
      (.user m (classNameOf y)) mf) ∧
    (st.apply (Eff.concat (css.map
      (fun x => setupClassEff env (.user m (classNameOf x)) mf)))).failed.contains
        (m ++ ".setUpModule") = mf := by
  intro css
  induction css with
  | nil =>
    intro st hwf hnd hfresh hmf
    refine ⟨by simp [threadList, RunState.apply_empty], by simp, ?_⟩
    simpa [RunState.apply_empty] using hmf
  | cons x rest ih =>
    intro st hwf hnd hfresh hmf
    have hwx := hwf x (List.mem_cons_self _ _)
    have hgx := wfClassSuite_getClass hwx
    obtain ⟨f1, f2, f3, f4, f5⟩ := hfresh x (List.mem_cons_self _ _)
    have hsc : setupClass env x st =
        (st.apply (setupClassEff env (.user m (classNameOf x)) mf),
         (setupClassEff env (.user m (classNameOf x)) mf).recs, none) :=
      setupClass_fresh env st mf hgx f1 f2 hmf
    obtain ⟨hnd1, hnd2⟩ := nodupB_head (by simpa using hnd)
    have hcne : ∀ y ∈ rest, classNameOf y ≠ classNameOf x := by
      intro y hy he
      have hmem : (rest.map classNameOf).contains (classNameOf x) = true :=
        contains_of_mem (List.mem_map.mpr ⟨y, hy, he ▸ rfl⟩)
      rw [hmem] at hnd1
      exact Bool.true_eq_false.mp hnd1
    have hfr1 : ∀ y ∈ rest, classFresh
        (st.apply (setupClassEff env (.user m (classNameOf x)) mf))
        (m ++ "." ++ classNameOf y) := by
      intro y hy
      exact classFresh_applyE
        (effAvoidsClass_setupClassEff env _ mf (full_ne_of_cls_ne (hcne y hy)))
        (hfresh y (List.mem_cons_of_mem _ hy))
    have hmf1 : (st.apply (setupClassEff env (.user m (classNameOf x)) mf)).failed.contains
        (m ++ ".setUpModule") = mf := by
      rw [fail_contains_apply st _ _
        (setupClassEff_fail_contains env _ mf _ (ne_sUM_sUC _ _)), hmf]
    obtain ⟨ih1, ih2, ih3⟩ := ih _ (fun a ha => hwf a (List.mem_cons_of_mem _ ha))
      hnd2 hfr1 hmf1
    have hfin : st.apply (Eff.concat ((x :: rest).map
        (fun z => setupClassEff env (.user m (classNameOf z)) mf))) =
        (st.apply (setupClassEff env (.user m (classNameOf x)) mf)).apply
          (Eff.concat (rest.map (fun z => setupClassEff env (.user m (classNameOf z)) mf))) := by
      rw [List.map_cons, Eff.concat_cons, RunState.apply_apply]
    refine ⟨?_, ?_, ?_⟩
    · simp only [threadList, hsc, ih1, List.map_cons]
      rw [Eff.concat_cons, ← RunState.apply_apply]
    · intro y hy
      rcases List.mem_cons.mp hy with h | h
      · subst h
        rw [hfin]
        apply classPostSetup_applyE env ?_ (classPostSetup_start env ⟨f1, f2, f3, f4, f5⟩)
        apply effAvoidsClass_concat
        intro e he
        obtain ⟨a, ha, rfl⟩ := List.mem_map.mp he
        exact effAvoidsClass_setupClassEff env _ mf
          (full_ne_of_cls_ne (Ne.symm (hcne a ha)))
      · rw [hfin]
        exact ih2 y h
    · rw [hfin]
      exact ih3

theorem concatRecs_map_eq {α : Type} (l : List α) (f : α → Result) (g : α → Eff)
    (h : ∀ a ∈ l, (f a).recs = (g a).recs) :
    concatRecs (l.map f) = (Eff.concat (l.map g)).recs := by
  induction l with
  | nil => rfl
  | cons a rest ih =>
    simp only [List.map_cons, concatRecs, List.foldr_cons, Eff.concat_cons, Eff.append_recs]
    rw [h a (List.mem_cons_self _ _)]
    exact congrArg _ (ih (fun b hb => h b (List.mem_cons_of_mem _ hb)))

theorem assembleChildren_map {α : Type} (l : List α)
    (f : α → RecBundle × Option PyErr) (g : α → Result) (h : α → RecBundle) :
    assembleChildren (l.map f) (l.map g) (l.map h) =
      l.map (fun a => Result.mk ((f a).1 ++ (g a).recs ++ h a) (g a).children) := by
  induction l with
  | nil => rfl
  | cons a rest ih =>
    simp only [List.map_cons]
    show Result.mk ((f a).1 ++ (g a).recs ++ h a) (g a).children ::
      assembleChildren (rest.map f) (rest.map g) (rest.map h) = _
    rw [ih]

theorem classBodyPhase_cases (env : Env) (m c : String) (mf cf : Bool) :
    ∀ (cis : List CaseInfo) (st : RunState),
    (∀ ci ∈ cis, ci.module = m ∧ ci.cls = c) →
    st.csf.contains (m ++ "." ++ c) = cf →
    st.failed.contains (m ++ ".setUpModule") = mf →
    classBodyPhase (concRunMethod env 3) (cis.map Test.case) st =
      (st.apply (Eff.concat (cis.map (caseEff env mf cf))),
       cis.map (fun ci => Result.mk (caseEff env mf cf ci).recs [])) := by
  intro cis
  induction cis with
  | nil =>
    intro st hall hcsf hmf
    simp [classBodyPhase, RunState.apply_empty]
  | cons ci rest ih =>
    intro st hall hcsf hmf
    have hm := hall ci (List.mem_cons_self _ _)
    have hrc : runCase env ci st =
        (st.apply (caseEff env mf cf ci), (caseEff env mf cf ci).recs) := by
      apply runCase_eq
      · rw [hm.1, hm.2]; exact hcsf
      · rw [hm.1]; exact hmf
    have hih := ih (st.apply (caseEff env mf cf ci))
      (fun a ha => hall a (List.mem_cons_of_mem _ ha))
      (by rw [csf_contains_apply st _ _ (caseEff_csf_contains env mf cf ci _), hcsf])
      (by rw [fail_contains_apply st _ _ (caseEff_fail_contains env mf cf ci _), hmf])
    simp only [List.map_cons, classBodyPhase, concRunMethod]
    simp only [if_true, if_false, reduceIte]
    simp only [seqRun, hrc, hih]
    rw [Eff.concat_cons, ← RunState.apply_apply]

theorem concRunClass_three (env : Env) {m c : String} {t : Test} (st : RunState)
    (mf : Bool) (hwf : wfClassSuiteB m c t = true)
    (hcsf : st.csf.contains (m ++ "." ++ c) = classSetupFails env (.user m c) mf)
    (hmf : st.failed.contains (m ++ ".setUpModule") = mf) :
    concRunClass env 3 t st =
      (st.apply (Eff.concat ((caseInfosOf t).map
        (caseEff env mf (classSetupFails env (.user m c) mf)))),
       Result.mk (Eff.concat ((caseInfosOf t).map
        (caseEff env mf (classSetupFails env (.user m c) mf)))).recs
         ((caseInfosOf t).map (fun ci => Result.mk
           (caseEff env mf (classSetupFails env (.user m c) mf) ci).recs [])),
       none) := by
  obtain ⟨hdot, cis, hne, ht, hall⟩ := wfClassSuite_parts hwf
  subst ht
  rw [caseInfosOf_map]
  have hbody := classBodyPhase_cases env m c mf
    (classSetupFails env (.user m c) mf) cis st hall hcsf hmf
  simp only [concRunClass, if_true, if_false, reduceIte, reduceCtorEq]
  simp only [hbody]
  refine congrArg (fun z => ((st.apply (Eff.concat (cis.map
    (caseEff env mf (classSetupFails env (.user m c) mf))))), z,
      (none : Option PyErr))) ?_
  apply congrArg (fun z => Result.mk z (cis.map (fun ci => Result.mk
    (caseEff env mf (classSetupFails env (.user m c) mf) ci).recs [])))
  exact concatRecs_map_eq cis _ _ (fun a ha => rfl)

/-- Effect of the first `_setup_class` of the class suite `x` of module `m`. -/
def setupEffOf (env : Env) (m : String) (mf : Bool) (x : Test) : Eff :=
  setupClassEff env (.user m (classNameOf x)) mf

/-- Effect of the class walk of `x` after its setup. -/
def afterEffOf (env : Env) (m : String) (mf : Bool) (x : Test) : Eff :=
  classAfterSetupEff env (.user m (classNameOf x)) (caseInfosOf x) mf
    (classSetupFails env (.user m (classNameOf x)) mf)

/-- Effect of the full class walk of `x`. -/
def classEffOf (env : Env) (m : String) (mf : Bool) (x : Test) : Eff :=
  classRunEff env (.user m (classNameOf x)) (caseInfosOf x) mf

/-- Effect of running all cases of the class suite `x`. -/
def caseEffsOf (env : Env) (m : String) (mf : Bool) (x : Test) : Eff :=
  Eff.concat ((caseInfosOf x).map
    (caseEff env mf (classSetupFails env (.user m (classNameOf x)) mf)))

/-- Effect of the first `_teardown_class` of the class suite `x`. -/
def tdClassEffOf (env : Env) (m : String) (mf : Bool) (x : Test) : Eff :=
  teardownClassEff env (.user m (classNameOf x))
    (classSetupFails env (.user m (classNameOf x)) mf) mf

theorem classEffOf_split (env : Env) (m : String) (mf : Bool) (x : Test) :
    classEffOf env m mf x = setupEffOf env m mf x ++ afterEffOf env m mf x := rfl

theorem afterEffOf_split (env : Env) (m : String) (mf : Bool) (x : Test) :
    afterEffOf env m mf x = caseEffsOf env m mf x ++ tdClassEffOf env m mf x := rfl

theorem moduleBodyPhase2 (env : Env) (m : String) (mf : Bool) :
    ∀ (css : List Test) (st : RunState),
    (∀ x ∈ css, wfClassSuiteB m (classNameOf x) x = true) →
    nodupB (css.map classNameOf) = true →
    (∀ y ∈ css, classPostSetup env st (.user m (classNameOf y)) mf) →
    st.failed.contains (m ++ ".setUpModule") = mf →
    bodyPhase (concRunClass env 2)
      (css.zip (css.map (fun x =>
        ((setupEffOf env m mf x).recs, (none : Option PyErr))))) st =
      (st.apply (Eff.concat (css.map (afterEffOf env m mf))),
       css.map (fun x => Result.mk (afterEffOf env m mf x).recs []),
       none) ∧
    (∀ y ∈ css, classPostAll env
      (st.apply (Eff.concat (css.map (afterEffOf env m mf))))
      (.user m (classNameOf y)) mf) ∧
    (st.apply (Eff.concat (css.map (afterEffOf env m mf)))).failed.contains
      (m ++ ".setUpModule") = mf := by
  intro css
  induction css with
  | nil =>
    intro st hwf hnd hpost hmf
    refine ⟨by simp [bodyPhase, RunState.apply_empty], by simp, ?_⟩
    simpa [RunState.apply_empty] using hmf
  | cons x rest ih =>
    intro st hwf hnd hpost hmf
    have hwx := hwf x (List.mem_cons_self _ _)
    obtain ⟨p1, p2, p3, p4, p5⟩ := hpost x (List.mem_cons_self _ _)
    have hbx : seqRun env x st =
        (st.apply (afterEffOf env m mf x), (afterEffOf env m mf x).recs, none) :=
      seqRun_class_after env st mf hwx p1 p2 p3 p4 p5 hmf
    obtain ⟨hnd1, hnd2⟩ := nodupB_head (by simpa using hnd)
    have hcne : ∀ y ∈ rest, classNameOf y ≠ classNameOf x := by
      intro y hy he
      have hmem : (rest.map classNameOf).contains (classNameOf x) = true :=
        contains_of_mem (List.mem_map.mpr ⟨y, hy, he ▸ rfl⟩)
      rw [hmem] at hnd1
      exact Bool.true_eq_false.mp hnd1
    have havoid : ∀ y ∈ rest, effAvoidsClass (afterEffOf env m mf x)
        (ClassRef.user m (classNameOf y)).fullName := by
      intro y hy
      exact effAvoidsClass_classAfterSetupEff env _ _ mf _
        (full_ne_of_cls_ne (hcne y hy))
    have hpost1 : ∀ y ∈ rest, classPostSetup env
        (st.apply (afterEffOf env m mf x)) (.user m (classNameOf y)) mf := by
      intro y hy
      exact classPostSetup_applyE env (havoid y hy) (hpost y (List.mem_cons_of_mem _ hy))
    have hmf1 : (st.apply (afterEffOf env m mf x)).failed.contains
        (m ++ ".setUpModule") = mf := by
      rw [fail_contains_apply st _ _ ?_, hmf]
      unfold afterEffOf classAfterSetupEff
      rw [Eff.append_fail, contains_append,
        concat_fail_contains (fun e he => ?_),
        teardownClassEff_fail_contains env _ _ mf _ (ne_sUM_tDC _ _)]
      · rfl
      · obtain ⟨a, -, rfl⟩ := List.mem_map.mp he
        exact caseEff_fail_contains env mf _ a _
    obtain ⟨ih1, ih2, ih3⟩ := ih _ (fun a ha => hwf a (List.mem_cons_of_mem _ ha))
      hnd2 hpost1 hmf1
    have hcrc : concRunClass env 2 x st =
        (st.apply (afterEffOf env m mf x),
         Result.mk (afterEffOf env m mf x).recs [], none) := by
      simp only [concRunClass, if_true, if_false, reduceIte, hbx]
    refine ⟨?_, ?_, ?_⟩
    · rw [List.map_cons, show (x :: rest).zip (((setupEffOf env m mf x).recs,
        (none : Option PyErr)) :: rest.map (fun z =>
          ((setupEffOf env m mf z).recs, (none : Option PyErr)))) =
        (x, ((setupEffOf env m mf x).recs, (none : Option PyErr))) ::
          rest.zip (rest.map (fun z =>
            ((setupEffOf env m mf z).recs, (none : Option PyErr)))) from rfl]
      simp only [bodyPhase, hcrc, ih1]
      rw [List.map_cons, Eff.concat_cons, ← RunState.apply_apply]
      rfl
    · intro y hy
      rw [List.map_cons, Eff.concat_cons, ← RunState.apply_apply]
      rcases List.mem_cons.mp hy with h | h
      · subst h
        apply classPostAll_applyE env ?_ ?_
        · apply effAvoidsClass_concat
          intro e he
          obtain ⟨a, ha, rfl⟩ := List.mem_map.mp he
          exact effAvoidsClass_classAfterSetupEff env _ _ mf _
            (full_ne_of_cls_ne (Ne.symm (hcne a ha)))
        · exact classPostAll_start env (caseInfosOf y) ⟨p1, p2, p3, p4, p5⟩
      · exact ih2 y h
    · rw [List.map_cons, Eff.concat_cons, ← RunState.apply_apply]
      exact ih3

theorem moduleTeardownPhase2 (env : Env) (m : String) (mf : Bool) :
    ∀ (css : List Test) (st : RunState),
    (∀ x ∈ css, wfClassSuiteB m (classNameOf x) x = true) →
    (∀ y ∈ css, classPostAll env st (.user m (classNameOf y)) mf) →
    st.failed.contains (m ++ ".setUpModule") = mf →
    teardownPhase (teardownClass env) css st =
      (st, css.map (fun _ => (∅ : RecBundle))) := by
  intro css
  induction css with
  | nil => intro st _ _ _; rfl
  | cons x rest ih =>
    intro st hwf hpost hmf
    have hwx := hwf x (List.mem_cons_self _ _)
    obtain ⟨q1, q2, q3⟩ := hpost x (List.mem_cons_self _ _)
    have htd : teardownClass env x st = (st, ∅, none) :=
      teardownClass_after env st (classSetupFails env (.user m (classNameOf x)) mf) mf
        (wfClassSuite_getClass hwx) q2 q3 q1 hmf
    have hih := ih st (fun a ha => hwf a (List.mem_cons_of_mem _ ha))
      (fun y hy => hpost y (List.mem_cons_of_mem _ hy)) hmf
    simp only [teardownPhase, htd, hih, List.map_cons]

theorem moduleBodyPhase3 (env : Env) (m : String) (mf : Bool) :
    ∀ (css : List Test) (st : RunState),
    (∀ x ∈ css, wfClassSuiteB m (classNameOf x) x = true) →
    (∀ y ∈ css, classPostSetup env st (.user m (classNameOf y)) mf) →
    st.failed.contains (m ++ ".setUpModule") = mf →
    bodyPhase (concRunClass env 3)
      (css.zip (css.map (fun x =>
        ((setupEffOf env m mf x).recs, (none : Option PyErr))))) st =
      (st.apply (Eff.concat (css.map (caseEffsOf env m mf))),
       css.map (fun x => Result.mk (caseEffsOf env m mf x).recs
         ((caseInfosOf x).map (fun ci => Result.mk
           (caseEff env mf (classSetupFails env (.user m (classNameOf x)) mf) ci).recs []))),
       none) ∧
    (∀ y ∈ css, classPostSetup env
      (st.apply (Eff.concat (css.map (caseEffsOf env m mf))))
      (.user m (classNameOf y)) mf) ∧
    (st.apply (Eff.concat (css.map (caseEffsOf env m mf)))).failed.contains
      (m ++ ".setUpModule") = mf := by
  intro css
  induction css with
  | nil =>
    intro st hwf hpost hmf
    refine ⟨by simp [bodyPhase, RunState.apply_empty], by simp, ?_⟩
    simpa [RunState.apply_empty] using hmf
  | cons x rest ih =>
    intro st hwf hpost hmf
    have hwx := hwf x (List.mem_cons_self _ _)
    obtain ⟨p1, p2, p3, p4, p5⟩ := hpost x (List.mem_cons_self _ _)
    have hcx : concRunClass env 3 x st =
        (st.apply (caseEffsOf env m mf x),
         Result.mk (caseEffsOf env m mf x).recs
           ((caseInfosOf x).map (fun ci => Result.mk
             (caseEff env mf (classSetupFails env (.user m (classNameOf x)) mf) ci).recs [])),
         none) :=
      concRunClass_three env st mf hwx p5 hmf
    have havoidcase : ∀ (full : String), effAvoidsClass (caseEffsOf env m mf x) full := by
      intro full
      apply effAvoidsClass_concat
      intro e he
      obtain ⟨a, -, rfl⟩ := List.mem_map.mp he
      exact effAvoidsClass_caseEff env mf _ a full
    have hpost1 : ∀ y ∈ rest, classPostSetup env
        (st.apply (caseEffsOf env m mf x)) (.user m (classNameOf y)) mf := by
      intro y hy
      exact classPostSetup_applyE env (havoidcase _) (hpost y (List.mem_cons_of_mem _ hy))
    have hmf1 : (st.apply (caseEffsOf env m mf x)).failed.contains
        (m ++ ".setUpModule") = mf := by
      rw [fail_contains_apply st _ _ ?_, hmf]
      unfold caseEffsOf
      apply concat_fail_contains
      intro e he
      obtain ⟨a, -, rfl⟩ := List.mem_map.mp he
      exact caseEff_fail_contains env mf _ a _
    obtain ⟨ih1, ih2, ih3⟩ := ih _ (fun a ha => hwf a (List.mem_cons_of_mem _ ha))
      hpost1 hmf1
    refine ⟨?_, ?_, ?_⟩
    · rw [List.map_cons, show (x :: rest).zip (((setupEffOf env m mf x).recs,
        (none : Option PyErr)) :: rest.map (fun z =>
          ((setupEffOf env m mf z).recs, (none : Option PyErr)))) =
        (x, ((setupEffOf env m mf x).recs, (none : Option PyErr))) ::
          rest.zip (rest.map (fun z =>
            ((setupEffOf env m mf z).recs, (none : Option PyErr)))) from rfl]
      simp only [bodyPhase, hcx, ih1]
      rw [List.map_cons, Eff.concat_cons, ← RunState.apply_apply]
      rfl
    · intro y hy
      rw [List.map_cons, Eff.concat_cons, ← RunState.apply_apply]
      rcases List.mem_cons.mp hy with h | h
      · subst h
        apply classPostSetup_applyE env ?_ ?_
        · apply effAvoidsClass_concat
          intro e he
          obtain ⟨a, ha, rfl⟩ := List.mem_map.mp he
          exact (by
            apply effAvoidsClass_concat
            intro e2 he2
            obtain ⟨b, -, rfl⟩ := List.mem_map.mp he2
            exact effAvoidsClass_caseEff env mf _ b _)
        · exact classPostSetup_applyE env (havoidcase _) ⟨p1, p2, p3, p4, p5⟩
      · exact ih2 y h
    · rw [List.map_cons, Eff.concat_cons, ← RunState.apply_apply]
      exact ih3

theorem moduleTeardownPhase3 (env : Env) (m : String) (mf : Bool) :
    ∀ (css : List Test) (st : RunState),
    (∀ x ∈ css, wfClassSuiteB m (classNameOf x) x = true) →
    nodupB (css.map classNameOf) = true →
    (∀ y ∈ css, classPostSetup env st (.user m (classNameOf y)) mf) →
    st.failed.contains (m ++ ".setUpModule") = mf →
    teardownPhase (teardownClass env) css st =
      (st.apply (Eff.concat (css.map (tdClassEffOf env m mf))),
       css.map (fun x => (tdClassEffOf env m mf x).recs)) := by
  intro css
  induction css with
  | nil =>
    intro st _ _ _ _
    simp [teardownPhase, RunState.apply_empty]
  | cons x rest ih =>
    intro st hwf hnd hpost hmf
    have hwx := hwf x (List.mem_cons_self _ _)
    obtain ⟨p1, p2, p3, p4, p5⟩ := hpost x (List.mem_cons_self _ _)
    have htd : teardownClass env x st =
        (st.apply (tdClassEffOf env m mf x), (tdClassEffOf env m mf x).recs, none) :=
      teardownClass_fresh env st (classSetupFails env (.user m (classNameOf x)) mf) mf
        (wfClassSuite_getClass hwx) p3 p4 p2 hmf
    obtain ⟨hnd1, hnd2⟩ := nodupB_head (by simpa using hnd)
    have hcne : ∀ y ∈ rest, classNameOf y ≠ classNameOf x := by
      intro y hy he
      have hmem : (rest.map classNameOf).contains (classNameOf x) = true :=
        contains_of_mem (List.mem_map.mpr ⟨y, hy, he ▸ rfl⟩)
      rw [hmem] at hnd1
      exact Bool.true_eq_false.mp hnd1
    have hpost1 : ∀ y ∈ rest, classPostSetup env
        (st.apply (tdClassEffOf env m mf x)) (.user m (classNameOf y)) mf := by
      intro y hy
      apply classPostSetup_applyE env ?_ (hpost y (List.mem_cons_of_mem _ hy))
      exact effAvoidsClass_teardownClassEff env _ _ mf
        (full_ne_of_cls_ne (hcne y hy))
    have hmf1 : (st.apply (tdClassEffOf env m mf x)).failed.contains
        (m ++ ".setUpModule") = mf := by
      rw [fail_contains_apply st _ _ ?_, hmf]
      unfold tdClassEffOf
      exact teardownClassEff_fail_contains env _ _ mf _ (ne_sUM_tDC _ _)
    have hih := ih _ (fun a ha => hwf a (List.mem_cons_of_mem _ ha)) hnd2 hpost1 hmf1
    simp only [teardownPhase, htd, hih, List.map_cons]
    rw [Eff.concat_cons, ← RunState.apply_apply]

/-- Effect the module body contributes under concurrency level 1 (the whole
module subtree runs sequentially, including the module teardown). -/
def bodyEff1 (env : Env) (m : String) (t : Test) : Eff :=
  Eff.concat ((suiteChildren t).map
    (fun x => classRunEff env (.user m (classNameOf x)) (caseInfosOf x)
      (modSetupFails env m))) ++
    teardownModuleEff env m (modSetupFails env m)

/-- Effect the module body contributes under concurrency level 2. -/
def bodyEff2 (env : Env) (m : String) (t : Test) : Eff :=
  Eff.concat ((suiteChildren t).map
    (fun x => setupClassEff env (.user m (classNameOf x)) (modSetupFails env m))) ++
    Eff.concat ((suiteChildren t).map (afterEffOf env m (modSetupFails env m)))

/-- Effect the module body contributes under concurrency level 3. -/
def bodyEff3 (env : Env) (m : String) (t : Test) : Eff :=
  Eff.concat ((suiteChildren t).map
    (fun x => setupClassEff env (.user m (classNameOf x)) (modSetupFails env m))) ++
    (Eff.concat ((suiteChildren t).map (caseEffsOf env m (modSetupFails env m))) ++
     Eff.concat ((suiteChildren t).map (tdClassEffOf env m (modSetupFails env m))))

/-- Flat records of the module body under concurrency levels 2 and 3. -/
def bodyRecs23 (env : Env) (m : String) (t : Test) : RecBundle :=
  (Eff.concat ((suiteChildren t).map
    (fun x => classRunEff env (.user m (classNameOf x)) (caseInfosOf x)
      (modSetupFails env m)))).recs

/-- Child result slots of the module under concurrency level 2. -/
def children2 (env : Env) (m : String) (t : Test) : List Result :=
  (suiteChildren t).map (fun x => Result.mk
    (classRunEff env (.user m (classNameOf x)) (caseInfosOf x)
      (modSetupFails env m)).recs [])

/-- Child result slots of the module under concurrency level 3, each
carrying its per-case grandchild results. -/
def children3 (env : Env) (m : String) (t : Test) : List Result :=
  (suiteChildren t).map (fun x => Result.mk
    (classRunEff env (.user m (classNameOf x)) (caseInfosOf x)
      (modSetupFails env m)).recs
    ((caseInfosOf x).map (fun ci => Result.mk
      (caseEff env (modSetupFails env m)
        (classSetupFails env (.user m (classNameOf x)) (modSetupFails env m)) ci).recs [])))

/-- Module-name memberships after the module body ran with its teardown
(concurrency level 1). -/
def modPostDoneTd (env : Env) (st : RunState) (m : String) : Prop :=
  st.failed.contains (m ++ ".setUpModule") = modSetupFails env m ∧
  st.successful.contains (m ++ ".tearDownModule") =
    (!(modSetupFails env m) && (modHookTeardown env m == some true)) ∧
  st.failed.contains (m ++ ".tearDownModule") =
    (!(modSetupFails env m) && (modHookTeardown env m == some false))

/-- Module-name memberships after the module body ran without its teardown
(concurrency levels 2 and 3). -/
def modPostNoTd (env : Env) (st : RunState) (m : String) : Prop :=
  st.failed.contains (m ++ ".setUpModule") = modSetupFails env m ∧
  st.successful.contains (m ++ ".tearDownModule") = false ∧
  st.failed.contains (m ++ ".tearDownModule") = false

theorem concRunModule_one (env : Env) {m : String} {t : Test} (st : RunState)
    (hwf : wfModuleSuiteB m t = true)
    (hpost : modPostSetup env st m t) :
    concRunModule env 1 t st =
      (st.apply (bodyEff1 env m t),
       Result.mk (bodyEff1 env m t).recs [], none) ∧
    modPostDoneTd env (st.apply (bodyEff1 env m t)) m := by
  obtain ⟨p1, p2, p3, p4, p5⟩ := hpost
  have hs := seqRun_module_after env st hwf p1 p2 p3 p4 p5
  have kavoid : ∀ x : String,
      (x ≠ m ++ ".tearDownModule") →
      (∀ y ∈ suiteChildren t, x ≠ (m ++ "." ++ classNameOf y) ++ ".setUpClass" ∧
        x ≠ (m ++ "." ++ classNameOf y) ++ ".tearDownClass") →
      (bodyEff1 env m t).fail.contains x = false ∧
      (bodyEff1 env m t).succ.contains x = false := by
    intro x hx1 hx2
    unfold bodyEff1
    constructor
    · rw [Eff.append_fail, contains_append,
        teardownModuleEff_fail_contains env m _ _ hx1,
        concat_fail_contains (fun e he => ?_)]
      · rfl
      · obtain ⟨a, ha, rfl⟩ := List.mem_map.mp he
        exact classRunEff_fail_contains env _ _ _ x (hx2 a ha).1 (hx2 a ha).2
    · rw [Eff.append_succ, contains_append,
        teardownModuleEff_succ_contains env m _ _ hx1,
        concat_succ_contains (fun e he => ?_)]
      · rfl
      · obtain ⟨a, ha, rfl⟩ := List.mem_map.mp he
        exact classRunEff_succ_contains env _ _ _ x (hx2 a ha).1 (hx2 a ha).2
  constructor
  · simp only [concRunModule, if_true, if_false, reduceIte]
    rw [hs]
    rfl
  · refine ⟨?_, ?_, ?_⟩
    · rw [fail_contains_apply st _ _ (kavoid _ (ne_sUM_tDM _ _)
        (fun y hy => ⟨ne_sUM_sUC _ _, ne_sUM_tDC _ _⟩)).1, p2]
      rfl
    · rw [RunState.apply_successful]
      unfold bodyEff1
      rw [Eff.append_succ, contains_append, contains_append, p3,
        concat_succ_contains (fun e he => ?_), teardownModuleEff_succ_self]
      · rfl
      · obtain ⟨a, ha, rfl⟩ := List.mem_map.mp he
        exact classRunEff_succ_contains env _ _ _ _ (ne_tDM_sUC _ _) (ne_tDM_tDC _ _)
    · rw [RunState.apply_failed]
      unfold bodyEff1
      rw [Eff.append_fail, contains_append, contains_append, p4,
        concat_fail_contains (fun e he => ?_), teardownModuleEff_fail_self]
      · rfl
      · obtain ⟨a, ha, rfl⟩ := List.mem_map.mp he
        exact classRunEff_fail_contains env _ _ _ _ (ne_tDM_sUC _ _) (ne_tDM_tDC _ _)

theorem classAfterSetupEff_succ_contains (env : Env) (cr : ClassRef)
    (cases : List CaseInfo) (mf cf : Bool) (x : String)
    (hx : x ≠ cr.fullName ++ ".tearDownClass") :
    (classAfterSetupEff env cr cases mf cf).succ.contains x = false := by
  unfold classAfterSetupEff
  rw [Eff.append_succ, contains_append,
    teardownClassEff_succ_contains env cr cf mf x hx,
    concat_succ_contains (fun e he => ?_)]
  · rfl
  · obtain ⟨a, -, rfl⟩ := List.mem_map.mp he
    exact caseEff_succ_contains env mf cf a x

theorem classAfterSetupEff_fail_contains (env : Env) (cr : ClassRef)
    (cases : List CaseInfo) (mf cf : Bool) (x : String)
    (hx : x ≠ cr.fullName ++ ".tearDownClass") :
    (classAfterSetupEff env cr cases mf cf).fail.contains x = false := by
  unfold classAfterSetupEff
  rw [Eff.append_fail, contains_append,
    teardownClassEff_fail_contains env cr cf mf x hx,
    concat_fail_contains (fun e he => ?_)]
  · rfl
  · obtain ⟨a, -, rfl⟩ := List.mem_map.mp he
    exact caseEff_fail_contains env mf cf a x

theorem bodyEff2_modname_avoid (env : Env) (m : String) (t : Test) (x : String)
    (h1 : ∀ y ∈ suiteChildren t, x ≠ (m ++ "." ++ classNameOf y) ++ ".setUpClass" ∧
      x ≠ (m ++ "." ++ classNameOf y) ++ ".tearDownClass") :
    (bodyEff2 env m t).succ.contains x = false ∧
    (bodyEff2 env m t).fail.contains x = false := by
  unfold bodyEff2
  constructor
  · rw [Eff.append_succ, contains_append,
      concat_succ_contains (fun e he => ?_), concat_succ_contains (fun e he => ?_)]
    · rfl
    · obtain ⟨a, ha, rfl⟩ := List.mem_map.mp he
      exact classAfterSetupEff_succ_contains env _ _ _ _ x (h1 a ha).2
    · obtain ⟨a, ha, rfl⟩ := List.mem_map.mp he
      exact setupClassEff_succ_contains env _ _ _ (h1 a ha).1
  · rw [Eff.append_fail, contains_append,
      concat_fail_contains (fun e he => ?_), concat_fail_contains (fun e he => ?_)]
    · rfl
    · obtain ⟨a, ha, rfl⟩ := List.mem_map.mp he
      exact classAfterSetupEff_fail_contains env _ _ _ _ x (h1 a ha).2
    · obtain ⟨a, ha, rfl⟩ := List.mem_map.mp he
      exact setupClassEff_fail_contains env _ _ _ (h1 a ha).1

theorem concRunModule_two (env : Env) {m : String} {t : Test} (st : RunState)
    (hwf : wfModuleSuiteB m t = true)
    (hpost : modPostSetup env st m t) :
    concRunModule env 2 t st =
      (st.apply (bodyEff2 env m t),
       Result.mk (bodyRecs23 env m t) (children2 env m t), none) ∧
    modPostNoTd env (st.apply (bodyEff2 env m t)) m := by
  obtain ⟨p1, p2, p3, p4, p5⟩ := hpost
  have hb2 := bodyEff2_modname_avoid env m t
  obtain ⟨css, hne, ht, hall, hnd⟩ := wfModuleSuite_parts hwf
  subst ht
  have hmfst : st.failed.contains (m ++ ".setUpModule") = modSetupFails env m := p2
  obtain ⟨ph1, ph1post, ph1mf⟩ := moduleSetupClassPhase env m (modSetupFails env m)
    css st hall (by simpa using hnd) (by simpa using p5) hmfst
  have hbridge : css.map (fun x => ((setupClassEff env
      (.user m (classNameOf x)) (modSetupFails env m)).recs, (none : Option PyErr))) =
      css.map (fun x => ((setupEffOf env m (modSetupFails env m) x).recs,
        (none : Option PyErr))) :=
    map_congr_mem (fun a _ => rfl)
  obtain ⟨ph2, ph2post, ph2mf⟩ := moduleBodyPhase2 env m (modSetupFails env m) css
    (st.apply (Eff.concat (css.map
      (fun x => setupClassEff env (.user m (classNameOf x)) (modSetupFails env m)))))
    hall (by simpa using hnd) ph1post ph1mf
  have hph3 := moduleTeardownPhase2 env m (modSetupFails env m) css
    ((st.apply (Eff.concat (css.map
      (fun x => setupClassEff env (.user m (classNameOf x)) (modSetupFails env m))))).apply
        (Eff.concat (css.map (afterEffOf env m (modSetupFails env m)))))
    hall ph2post ph2mf
  have hassemble := assembleChildren_map css
    (fun x => ((setupEffOf env m (modSetupFails env m) x).recs, (none : Option PyErr)))
    (fun x => Result.mk (afterEffOf env m (modSetupFails env m) x).recs [])
    (fun _ => (∅ : RecBundle))
  have hchild : css.map (fun a => Result.mk
      (((setupEffOf env m (modSetupFails env m) a).recs, (none : Option PyErr)).1 ++
        (Result.mk (afterEffOf env m (modSetupFails env m) a).recs []).recs ++
        (∅ : RecBundle))
      (Result.mk (afterEffOf env m (modSetupFails env m) a).recs []).children) =
      children2 env m (.suite css) := by
    unfold children2
    rw [suiteChildren_suite]
    apply map_congr_mem
    intro a _
    rw [Result.recs_mk, Result.children_mk, RecBundle.append_empty]
    rfl
  have hstate : ((st.apply (Eff.concat (css.map
      (fun x => setupClassEff env (.user m (classNameOf x)) (modSetupFails env m))))).apply
        (Eff.concat (css.map (afterEffOf env m (modSetupFails env m))))) =
      st.apply (bodyEff2 env m (.suite css)) := by
    rw [RunState.apply_apply]
    rfl
  constructor
  · simp only [concRunModule, if_true, if_false, reduceIte, reduceCtorEq, concPhases]
    rw [ph1, hbridge]
    simp only [ph2]
    rw [hph3]
    simp only [hassemble, hchild, hstate]
    refine congrArg (fun z => (st.apply (bodyEff2 env m (.suite css)), z,
      (none : Option PyErr))) ?_
    apply congrArg (fun z => Result.mk z (children2 env m (.suite css)))
    unfold children2 bodyRecs23
    rw [suiteChildren_suite]
    exact concatRecs_map_eq css _ _ (fun a _ => rfl)
  · refine ⟨?_, ?_, ?_⟩
    · rw [RunState.apply_apply] at ph2mf
      exact ph2mf
    · rw [succ_contains_apply st _ _ (hb2 (m ++ ".tearDownModule")
        (fun y hy => ⟨ne_tDM_sUC _ _, ne_tDM_tDC _ _⟩)).1, p3]
    · rw [fail_contains_apply st _ _ (hb2 (m ++ ".tearDownModule")
        (fun y hy => ⟨ne_tDM_sUC _ _, ne_tDM_tDC _ _⟩)).2, p4]

theorem bodyEff3_modname_avoid (env : Env) (m : String) (t : Test) (x : String)
    (h1 : ∀ y ∈ suiteChildren t, x ≠ (m ++ "." ++ classNameOf y) ++ ".setUpClass" ∧
      x ≠ (m ++ "." ++ classNameOf y) ++ ".tearDownClass") :
    (bodyEff3 env m t).succ.contains x = false ∧
    (bodyEff3 env m t).fail.contains x = false := by
  unfold bodyEff3
  constructor
  · rw [Eff.append_succ, Eff.append_succ, contains_append, contains_append,
      concat_succ_contains (fun e he => ?_), concat_succ_contains (fun e he => ?_),
      concat_succ_contains (fun e he => ?_)]
    · rfl
    · obtain ⟨a, ha, rfl⟩ := List.mem_map.mp he
      exact teardownClassEff_succ_contains env _ _ _ x (h1 a ha).2
    · obtain ⟨a, ha, rfl⟩ := List.mem_map.mp he
      unfold caseEffsOf
      apply concat_succ_contains
      intro e2 he2
      obtain ⟨b, -, rfl⟩ := List.mem_map.mp he2
      exact caseEff_succ_contains env _ _ b x
    · obtain ⟨a, ha, rfl⟩ := List.mem_map.mp he
      exact setupClassEff_succ_contains env _ _ _ (h1 a ha).1
  · rw [Eff.append_fail, Eff.append_fail, contains_append, contains_append,
      concat_fail_contains (fun e he => ?_), concat_fail_contains (fun e he => ?_),
      concat_fail_contains (fun e he => ?_)]
    · rfl
    · obtain ⟨a, ha, rfl⟩ := List.mem_map.mp he
      exact teardownClassEff_fail_contains env _ _ _ x (h1 a ha).2
    · obtain ⟨a, ha, rfl⟩ := List.mem_map.mp he
      unfold caseEffsOf
      apply concat_fail_contains
      intro e2 he2
      obtain ⟨b, -, rfl⟩ := List.mem_map.mp he2
      exact caseEff_fail_contains env _ _ b x
    · obtain ⟨a, ha, rfl⟩ := List.mem_map.mp he
      exact setupClassEff_fail_contains env _ _ _ (h1 a ha).1

theorem concRunModule_three (env : Env) {m : String} {t : Test} (st : RunState)
    (hwf : wfModuleSuiteB m t = true)
    (hpost : modPostSetup env st m t) :
    concRunModule env 3 t st =
      (st.apply (bodyEff3 env m t),
       Result.mk (bodyRecs23 env m t) (children3 env m t), none) ∧
    modPostNoTd env (st.apply (bodyEff3 env m t)) m := by
  obtain ⟨p1, p2, p3, p4, p5⟩ := hpost
  have hb3 := bodyEff3_modname_avoid env m t
  obtain ⟨css, hne, ht, hall, hnd⟩ := wfModuleSuite_parts hwf
  subst ht
  have hmfst : st.failed.contains (m ++ ".setUpModule") = modSetupFails env m := p2
  obtain ⟨ph1, ph1post, ph1mf⟩ := moduleSetupClassPhase env m (modSetupFails env m)
    css st hall (by simpa using hnd) (by simpa using p5) hmfst
  have hbridge : css.map (fun x => ((setupClassEff env
      (.user m (classNameOf x)) (modSetupFails env m)).recs, (none : Option PyErr))) =
      css.map (fun x => ((setupEffOf env m (modSetupFails env m) x).recs,
        (none : Option PyErr))) :=
    map_congr_mem (fun a _ => rfl)
  obtain ⟨ph2, ph2post, ph2mf⟩ := moduleBodyPhase3 env m (modSetupFails env m) css
    (st.apply (Eff.concat (css.map
      (fun x => setupClassEff env (.user m (classNameOf x)) (modSetupFails env m)))))
    hall ph1post ph1mf
  have hph3 := moduleTeardownPhase3 env m (modSetupFails env m) css
    ((st.apply (Eff.concat (css.map
      (fun x => setupClassEff env (.user m (classNameOf x)) (modSetupFails env m))))).apply
        (Eff.concat (css.map (caseEffsOf env m (modSetupFails env m)))))
    hall (by simpa using hnd) ph2post ph2mf
  have hassemble := assembleChildren_map css
    (fun x => ((setupEffOf env m (modSetupFails env m) x).recs, (none : Option PyErr)))
    (fun x => Result.mk (caseEffsOf env m (modSetupFails env m) x).recs
      ((caseInfosOf x).map (fun ci => Result.mk
        (caseEff env (modSetupFails env m)
          (classSetupFails env (.user m (classNameOf x)) (modSetupFails env m)) ci).recs [])))
    (fun x => (tdClassEffOf env m (modSetupFails env m) x).recs)
  have hchild : css.map (fun a => Result.mk
      (((setupEffOf env m (modSetupFails env m) a).recs, (none : Option PyErr)).1 ++
        (Result.mk (caseEffsOf env m (modSetupFails env m) a).recs
          ((caseInfosOf a).map (fun ci => Result.mk
            (caseEff env (modSetupFails env m)
              (classSetupFails env (.user m (classNameOf a)) (modSetupFails env m)) ci).recs
            []))).recs ++
        (tdClassEffOf env m (modSetupFails env m) a).recs)
      (Result.mk (caseEffsOf env m (modSetupFails env m) a).recs
        ((caseInfosOf a).map (fun ci => Result.mk
          (caseEff env (modSetupFails env m)
            (classSetupFails env (.user m (classNameOf a)) (modSetupFails env m)) ci).recs
          []))).children) =
      children3 env m (.suite css) := by
    unfold children3
    rw [suiteChildren_suite]
    apply map_congr_mem
    intro a _
    rw [Result.recs_mk, Result.children_mk, RecBundle.append_assoc]
    rfl
  have hstate : (((st.apply (Eff.concat (css.map
      (fun x => setupClassEff env (.user m (classNameOf x)) (modSetupFails env m))))).apply
        (Eff.concat (css.map (caseEffsOf env m (modSetupFails env m))))).apply
          (Eff.concat (css.map (tdClassEffOf env m (modSetupFails env m))))) =
      st.apply (bodyEff3 env m (.suite css)) := by
    rw [RunState.apply_apply, RunState.apply_apply]
    rfl
  constructor
  · simp only [concRunModule, if_true, if_false, reduceIte, reduceCtorEq, concPhases]
    rw [ph1, hbridge]
    simp only [ph2]
    rw [hph3]
    simp only [hassemble, hchild, hstate]
    refine congrArg (fun z => (st.apply (bodyEff3 env m (.suite css)), z,
      (none : Option PyErr))) ?_
    apply congrArg (fun z => Result.mk z (children3 env m (.suite css)))
    unfold children3 bodyRecs23
    rw [suiteChildren_suite]
    exact concatRecs_map_eq css _ _ (fun a _ => rfl)
  · refine ⟨?_, ?_, ?_⟩
    · rw [fail_contains_apply st _ _ (hb3 (m ++ ".setUpModule")
        (fun y hy => ⟨ne_sUM_sUC _ _, ne_sUM_tDC _ _⟩)).2, p2]
      rfl
    · rw [succ_contains_apply st _ _ (hb3 (m ++ ".tearDownModule")
        (fun y hy => ⟨ne_tDM_sUC _ _, ne_tDM_tDC _ _⟩)).1, p3]
    · rw [fail_contains_apply st _ _ (hb3 (m ++ ".tearDownModule")
        (fun y hy => ⟨ne_tDM_sUC _ _, ne_tDM_tDC _ _⟩)).2, p4]

theorem modPostDoneTd_applyE (env : Env) {e : Eff} {st : RunState} {m : String}
    (a2 : e.fail.contains (m ++ ".setUpModule") = false)
    (a3 : e.succ.contains (m ++ ".tearDownModule") = false)
    (a4 : e.fail.contains (m ++ ".tearDownModule") = false)
    (h : modPostDoneTd env st m) : modPostDoneTd env (st.apply e) m := by
  obtain ⟨h1, h2, h3⟩ := h
  exact ⟨by rw [fail_contains_apply st e _ a2, h1],
         by rw [succ_contains_apply st e _ a3, h2],
         by rw [fail_contains_apply st e _ a4, h3]⟩

theorem modPostNoTd_applyE (env : Env) {e : Eff} {st : RunState} {m : String}
    (a2 : e.fail.contains (m ++ ".setUpModule") = false)
    (a3 : e.succ.contains (m ++ ".tearDownModule") = false)
    (a4 : e.fail.contains (m ++ ".tearDownModule") = false)
    (h : modPostNoTd env st m) : modPostNoTd env (st.apply e) m := by
  obtain ⟨h1, h2, h3⟩ := h
  exact ⟨by rw [fail_contains_apply st e _ a2, h1],
         by rw [succ_contains_apply st e _ a3, h2],
         by rw [fail_contains_apply st e _ a4, h3]⟩

theorem effAvoidsUnit_caseEff (env : Env) {my : String} {ty : Test} (mf cf : Bool)
    (ci : CaseInfo) : effAvoidsUnit (caseEff env mf cf ci) my ty :=
  ⟨caseEff_succ_contains env mf cf ci _, caseEff_fail_contains env mf cf ci _,
   caseEff_succ_contains env mf cf ci _, caseEff_fail_contains env mf cf ci _,
   fun cs hcs => effAvoidsClass_caseEff env mf cf ci _⟩

theorem effAvoidsUnit_setupClassEff (env : Env) {my : String} {ty : Test}
    (crx : ClassRef) (mf : Bool)
    (hfull : ∀ cs ∈ suiteChildren ty, my ++ "." ++ classNameOf cs ≠ crx.fullName) :
    effAvoidsUnit (setupClassEff env crx mf) my ty := by
  refine ⟨?_, ?_, ?_, ?_,
    fun cs hcs => effAvoidsClass_setupClassEff env crx mf (hfull cs hcs)⟩
  · exact setupClassEff_succ_contains env crx mf _ (ne_sUM_sUC _ _)
  · exact setupClassEff_fail_contains env crx mf _ (ne_sUM_sUC _ _)
  · exact setupClassEff_succ_contains env crx mf _ (ne_tDM_sUC _ _)
  · exact setupClassEff_fail_contains env crx mf _ (ne_tDM_sUC _ _)

theorem effAvoidsUnit_teardownClassEff (env : Env) {my : String} {ty : Test}
    (crx : ClassRef) (cf mf : Bool)
    (hfull : ∀ cs ∈ suiteChildren ty, my ++ "." ++ classNameOf cs ≠ crx.fullName) :
    effAvoidsUnit (teardownClassEff env crx cf mf) my ty := by
  refine ⟨?_, ?_, ?_, ?_,
    fun cs hcs => effAvoidsClass_teardownClassEff env crx cf mf (hfull cs hcs)⟩
  · exact teardownClassEff_succ_contains env crx cf mf _ (ne_sUM_tDC _ _)
  · exact teardownClassEff_fail_contains env crx cf mf _ (ne_sUM_tDC _ _)
  · exact teardownClassEff_succ_contains env crx cf mf _ (ne_tDM_tDC _ _)
  · exact teardownClassEff_fail_contains env crx cf mf _ (ne_tDM_tDC _ _)

theorem effAvoidsUnit_bodyEff1 (env : Env) {mx my : String} {tx ty : Test}
    (hwx : wfModuleSuiteB mx tx = true) (hwy : wfModuleSuiteB my ty = true)
    (hne : my ≠ mx) :
    effAvoidsUnit (bodyEff1 env mx tx) my ty := by
  have hdx := wfModuleSuite_dotFree hwx
  have hdy := wfModuleSuite_dotFree hwy
  unfold bodyEff1
  apply effAvoidsUnit_append
  · apply effAvoidsUnit_concat
    intro e he
    obtain ⟨a, ha, rfl⟩ := List.mem_map.mp he
    refine @effAvoidsUnit_classRunEff env mx my ty _ _ _ hwy ?_
    intro cs hcs
    exact fullName_ne (hdy cs hcs) (hdx a ha) (Or.inl hne)
  · exact effAvoidsUnit_teardownModuleEff env _ hne

theorem effAvoidsUnit_bodyEff2 (env : Env) {mx my : String} {tx ty : Test}
    (hwx : wfModuleSuiteB mx tx = true) (hwy : wfModuleSuiteB my ty = true)
    (hne : my ≠ mx) :
    effAvoidsUnit (bodyEff2 env mx tx) my ty := by
  have hdx := wfModuleSuite_dotFree hwx
  have hdy := wfModuleSuite_dotFree hwy
  have hfull : ∀ a ∈ suiteChildren tx, ∀ cs ∈ suiteChildren ty,
      my ++ "." ++ classNameOf cs ≠ (ClassRef.user mx (classNameOf a)).fullName := by
    intro a ha cs hcs
    exact fullName_ne (hdy cs hcs) (hdx a ha) (Or.inl hne)
  unfold bodyEff2
  apply effAvoidsUnit_append
  · apply effAvoidsUnit_concat
    intro e he
    obtain ⟨a, ha, rfl⟩ := List.mem_map.mp he
    exact effAvoidsUnit_setupClassEff env _ _ (hfull a ha)
  · apply effAvoidsUnit_concat
    intro e he
    obtain ⟨a, ha, rfl⟩ := List.mem_map.mp he
    unfold afterEffOf classAfterSetupEff
    apply effAvoidsUnit_append
    · apply effAvoidsUnit_concat
      intro e2 he2
      obtain ⟨b, -, rfl⟩ := List.mem_map.mp he2
      exact effAvoidsUnit_caseEff env _ _ b
    · exact effAvoidsUnit_teardownClassEff env _ _ _ (hfull a ha)

theorem effAvoidsUnit_bodyEff3 (env : Env) {mx my : String} {tx ty : Test}
    (hwx : wfModuleSuiteB mx tx = true) (hwy : wfModuleSuiteB my ty = true)
    (hne : my ≠ mx) :
    effAvoidsUnit (bodyEff3 env mx tx) my ty := by
  have hdx := wfModuleSuite_dotFree hwx
  have hdy := wfModuleSuite_dotFree hwy
  have hfull : ∀ a ∈ suiteChildren tx, ∀ cs ∈ suiteChildren ty,
      my ++ "." ++ classNameOf cs ≠ (ClassRef.user mx (classNameOf a)).fullName := by
    intro a ha cs hcs
    exact fullName_ne (hdy cs hcs) (hdx a ha) (Or.inl hne)
  unfold bodyEff3
  apply effAvoidsUnit_append
  · apply effAvoidsUnit_concat
    intro e he
    obtain ⟨a, ha, rfl⟩ := List.mem_map.mp he
    exact effAvoidsUnit_setupClassEff env _ _ (hfull a ha)
  · apply effAvoidsUnit_append
    · apply effAvoidsUnit_concat
      intro e he
      obtain ⟨a, ha, rfl⟩ := List.mem_map.mp he
      unfold caseEffsOf
      apply effAvoidsUnit_concat
      intro e2 he2
      obtain ⟨b, -, rfl⟩ := List.mem_map.mp he2
      exact effAvoidsUnit_caseEff env _ _ b
    · apply effAvoidsUnit_concat
      intro e he
      obtain ⟨a, ha, rfl⟩ := List.mem_map.mp he
      unfold tdClassEffOf
      exact effAvoidsUnit_teardownClassEff env _ _ _ (hfull a ha)

theorem rootSetupPhase (env : Env) :
    ∀ (mods : List Test) (st : RunState),
    (∀ x ∈ mods, wfModuleSuiteB (modNameOf x) x = true) →
    nodupB (mods.map modNameOf) = true →
    (∀ x ∈ mods, moduleFresh st (modNameOf x) x) →
    threadList (fun t s => match setupModule env t s with
      | (s1, b, e) => (s1, (b, e))) mods st =
      (st.apply (Eff.concat (mods.map (fun x => setupModuleEff env (modNameOf x)))),
       mods.map (fun x =>
        ((setupModuleEff env (modNameOf x)).recs, (none : Option PyErr)))) ∧
    (∀ y ∈ mods, modPostSetup env
      (st.apply (Eff.concat (mods.map (fun x => setupModuleEff env (modNameOf x)))))
      (modNameOf y) y) := by
  intro mods
  induction mods with
  | nil =>
    intro st hwf hnd hfresh
    exact ⟨by simp [threadList, RunState.apply_empty], by simp⟩
  | cons x rest ih =>
    intro st hwf hnd hfresh
    have hwx := hwf x (List.mem_cons_self _ _)
    have hget := wfModuleSuite_getModule hwx
    obtain ⟨f1, f2, f3, f4, f5⟩ := hfresh x (List.mem_cons_self _ _)
    have hsm : setupModule env x st =
        (st.apply (setupModuleEff env (modNameOf x)),
         (setupModuleEff env (modNameOf x)).recs, none) :=
      setupModule_fresh env st hget f1 f2
    obtain ⟨hnd1, hnd2⟩ := nodupB_head (by simpa using hnd)
    have hmne : ∀ y ∈ rest, modNameOf y ≠ modNameOf x := by
      intro y hy he
      have hmem : (rest.map modNameOf).contains (modNameOf x) = true :=
        contains_of_mem (List.mem_map.mpr ⟨y, hy, he ▸ rfl⟩)
      rw [hmem] at hnd1
      exact Bool.true_eq_false.mp hnd1
    have hfr1 : ∀ y ∈ rest, moduleFresh
        (st.apply (setupModuleEff env (modNameOf x))) (modNameOf y) y := by
      intro y hy
      exact moduleFresh_apply
        (effAvoidsUnit_setupModuleEff env (hwf y (List.mem_cons_of_mem _ hy))
          (hmne y hy))
        (hfresh y (List.mem_cons_of_mem _ hy))
    obtain ⟨ih1, ih2⟩ := ih _ (fun a ha => hwf a (List.mem_cons_of_mem _ ha)) hnd2 hfr1
    have hfin : st.apply (Eff.concat ((x :: rest).map
        (fun z => setupModuleEff env (modNameOf z)))) =
        (st.apply (setupModuleEff env (modNameOf x))).apply
          (Eff.concat (rest.map (fun z => setupModuleEff env (modNameOf z)))) := by
      rw [List.map_cons, Eff.concat_cons, RunState.apply_apply]
    refine ⟨?_, ?_⟩
    · simp only [threadList, hsm, ih1, List.map_cons]
      rw [Eff.concat_cons, ← RunState.apply_apply]
    · intro y hy
      rcases List.mem_cons.mp hy with h | h
      · subst h
        rw [hfin]
        apply modPostSetup_apply env ?_ (modPostSetup_start env ⟨f1, f2, f3, f4, f5⟩)
        apply effAvoidsUnit_concat
        intro e he
        obtain ⟨a, ha, rfl⟩ := List.mem_map.mp he
        exact effAvoidsUnit_setupModuleEff env hwx (Ne.symm (hmne a ha))
      · rw [hfin]
        exact ih2 y h

theorem rootBodyPhase1 (env : Env) :
    ∀ (mods : List Test) (st : RunState),
    (∀ x ∈ mods, wfModuleSuiteB (modNameOf x) x = true) →
    nodupB (mods.map modNameOf) = true →
    (∀ x ∈ mods, modPostSetup env st (modNameOf x) x) →
    bodyPhase (concRunModule env 1)
      (mods.zip (mods.map (fun x =>
        ((setupModuleEff env (modNameOf x)).recs, (none : Option PyErr))))) st =
      (st.apply (Eff.concat (mods.map (fun x => bodyEff1 env (modNameOf x) x))),
       mods.map (fun x => Result.mk (bodyEff1 env (modNameOf x) x).recs []),
       none) ∧
    (∀ y ∈ mods, modPostDoneTd env
      (st.apply (Eff.concat (mods.map (fun x => bodyEff1 env (modNameOf x) x))))
      (modNameOf y)) := by
  intro mods
  induction mods with
  | nil =>
    intro st hwf hnd hpost
    exact ⟨by simp [bodyPhase, RunState.apply_empty], by simp⟩
  | cons x rest ih =>
    intro st hwf hnd hpost
    have hwx := hwf x (List.mem_cons_self _ _)
    obtain ⟨hc1, hc2⟩ := concRunModule_one env st hwx (hpost x (List.mem_cons_self _ _))
    obtain ⟨hnd1, hnd2⟩ := nodupB_head (by simpa using hnd)
    have hmne : ∀ y ∈ rest, modNameOf y ≠ modNameOf x := by
      intro y hy he
      have hmem : (rest.map modNameOf).contains (modNameOf x) = true :=
        contains_of_mem (List.mem_map.mpr ⟨y, hy, he ▸ rfl⟩)
      rw [hmem] at hnd1
      exact Bool.true_eq_false.mp hnd1
    have hpost1 : ∀ y ∈ rest, modPostSetup env
        (st.apply (bodyEff1 env (modNameOf x) x)) (modNameOf y) y := by
      intro y hy
      exact modPostSetup_apply env
        (effAvoidsUnit_bodyEff1 env hwx (hwf y (List.mem_cons_of_mem _ hy)) (hmne y hy))
        (hpost y (List.mem_cons_of_mem _ hy))
    obtain ⟨ih1, ih2⟩ := ih _ (fun a ha => hwf a (List.mem_cons_of_mem _ ha)) hnd2 hpost1
    have havoidall : effAvoidsUnit
        (Eff.concat (rest.map (fun z => bodyEff1 env (modNameOf z) z)))
        (modNameOf x) x := by
      apply effAvoidsUnit_concat
      intro e he
      obtain ⟨a, ha, rfl⟩ := List.mem_map.mp he
      exact effAvoidsUnit_bodyEff1 env (hwf a (List.mem_cons_of_mem _ ha)) hwx
        (Ne.symm (hmne a ha))
    refine ⟨?_, ?_⟩
    · rw [List.map_cons, show (x :: rest).zip (((setupModuleEff env (modNameOf x)).recs,
        (none : Option PyErr)) :: rest.map (fun z =>
          ((setupModuleEff env (modNameOf z)).recs, (none : Option PyErr)))) =
        (x, ((setupModuleEff env (modNameOf x)).recs, (none : Option PyErr))) ::
          rest.zip (rest.map (fun z =>
            ((setupModuleEff env (modNameOf z)).recs, (none : Option PyErr)))) from rfl]
      simp only [bodyPhase, hc1, ih1]
      rw [List.map_cons, Eff.concat_cons, ← RunState.apply_apply]
      simp only [List.map_cons]
    · intro y hy
      rw [List.map_cons, Eff.concat_cons, ← RunState.apply_apply]
      rcases List.mem_cons.mp hy with h | h
      · subst h
        exact modPostDoneTd_applyE env havoidall.2.1 havoidall.2.2.1
          havoidall.2.2.2.1 hc2
      · exact ih2 y h

theorem rootBodyPhase2 (env : Env) :
    ∀ (mods : List Test) (st : RunState),
    (∀ x ∈ mods, wfModuleSuiteB (modNameOf x) x = true) →
    nodupB (mods.map modNameOf) = true →
    (∀ x ∈ mods, modPostSetup env st (modNameOf x) x) →
    bodyPhase (concRunModule env 2)
      (mods.zip (mods.map (fun x =>
        ((setupModuleEff env (modNameOf x)).recs, (none : Option PyErr))))) st =
      (st.apply (Eff.concat (mods.map (fun x => bodyEff2 env (modNameOf x) x))),
       mods.map (fun x => Result.mk (bodyRecs23 env (modNameOf x) x)
         (children2 env (modNameOf x) x)),
       none) ∧
    (∀ y ∈ mods, modPostNoTd env
      (st.apply (Eff.concat (mods.map (fun x => bodyEff2 env (modNameOf x) x))))
      (modNameOf y)) := by
  intro mods
  induction mods with
  | nil =>
    intro st hwf hnd hpost
    exact ⟨by simp [bodyPhase, RunState.apply_empty], by simp⟩
  | cons x rest ih =>
    intro st hwf hnd hpost
    have hwx := hwf x (List.mem_cons_self _ _)
    obtain ⟨hc1, hc2⟩ := concRunModule_two env st hwx (hpost x (List.mem_cons_self _ _))
    obtain ⟨hnd1, hnd2⟩ := nodupB_head (by simpa using hnd)
    have hmne : ∀ y ∈ rest, modNameOf y ≠ modNameOf x := by
      intro y hy he
      have hmem : (rest.map modNameOf).contains (modNameOf x) = true :=
        contains_of_mem (List.mem_map.mpr ⟨y, hy, he ▸ rfl⟩)
      rw [hmem] at hnd1
      exact Bool.true_eq_false.mp hnd1
    have hpost1 : ∀ y ∈ rest, modPostSetup env
        (st.apply (bodyEff2 env (modNameOf x) x)) (modNameOf y) y := by
      intro y hy
      exact modPostSetup_apply env
        (effAvoidsUnit_bodyEff2 env hwx (hwf y (List.mem_cons_of_mem _ hy)) (hmne y hy))
        (hpost y (List.mem_cons_of_mem _ hy))
    obtain ⟨ih1, ih2⟩ := ih _ (fun a ha => hwf a (List.mem_cons_of_mem _ ha)) hnd2 hpost1
    have havoidall : effAvoidsUnit
        (Eff.concat (rest.map (fun z => bodyEff2 env (modNameOf z) z)))
        (modNameOf x) x := by
      apply effAvoidsUnit_concat
      intro e he
      obtain ⟨a, ha, rfl⟩ := List.mem_map.mp he
      exact effAvoidsUnit_bodyEff2 env (hwf a (List.mem_cons_of_mem _ ha)) hwx
        (Ne.symm (hmne a ha))
    refine ⟨?_, ?_⟩
    · rw [List.map_cons, show (x :: rest).zip (((setupModuleEff env (modNameOf x)).recs,
        (none : Option PyErr)) :: rest.map (fun z =>
          ((setupModuleEff env (modNameOf z)).recs, (none : Option PyErr)))) =
        (x, ((setupModuleEff env (modNameOf x)).recs, (none : Option PyErr))) ::
          rest.zip (rest.map (fun z =>
            ((setupModuleEff env (modNameOf z)).recs, (none : Option PyErr)))) from rfl]
      simp only [bodyPhase, hc1, ih1]
      rw [List.map_cons, Eff.concat_cons, ← RunState.apply_apply]
      simp only [List.map_cons]
    · intro y hy
      rw [List.map_cons, Eff.concat_cons, ← RunState.apply_apply]
      rcases List.mem_cons.mp hy with h | h
      · subst h
        exact modPostNoTd_applyE env havoidall.2.1 havoidall.2.2.1
          havoidall.2.2.2.1 hc2
      · exact ih2 y h

theorem rootBodyPhase3 (env : Env) :
    ∀ (mods : List Test) (st : RunState),
    (∀ x ∈ mods, wfModuleSuiteB (modNameOf x) x = true) →
    nodupB (mods.map modNameOf) = true →
    (∀ x ∈ mods, modPostSetup env st (modNameOf x) x) →
    bodyPhase (concRunModule env 3)
      (mods.zip (mods.map (fun x =>
        ((setupModuleEff env (modNameOf x)).recs, (none : Option PyErr))))) st =
      (st.apply (Eff.concat (mods.map (fun x => bodyEff3 env (modNameOf x) x))),
       mods.map (fun x => Result.mk (bodyRecs23 env (modNameOf x) x)
         (children3 env (modNameOf x) x)),
       none) ∧
    (∀ y ∈ mods, modPostNoTd env
      (st.apply (Eff.concat (mods.map (fun x => bodyEff3 env (modNameOf x) x))))
      (modNameOf y)) := by
  intro mods
  induction mods with
  | nil =>
    intro st hwf hnd hpost
    exact ⟨by simp [bodyPhase, RunState.apply_empty], by simp⟩
  | cons x rest ih =>
    intro st hwf hnd hpost
    have hwx := hwf x (List.mem_cons_self _ _)
    obtain ⟨hc1, hc2⟩ := concRunModule_three env st hwx (hpost x (List.mem_cons_self _ _))
    obtain ⟨hnd1, hnd2⟩ := nodupB_head (by simpa using hnd)
    have hmne : ∀ y ∈ rest, modNameOf y ≠ modNameOf x := by
      intro y hy he
      have hmem : (rest.map modNameOf).contains (modNameOf x) = true :=
        contains_of_mem (List.mem_map.mpr ⟨y, hy, he ▸ rfl⟩)
      rw [hmem] at hnd1
      exact Bool.true_eq_false.mp hnd1
    have hpost1 : ∀ y ∈ rest, modPostSetup env
        (st.apply (bodyEff3 env (modNameOf x) x)) (modNameOf y) y := by
      intro y hy
      exact modPostSetup_apply env
        (effAvoidsUnit_bodyEff3 env hwx (hwf y (List.mem_cons_of_mem _ hy)) (hmne y hy))
        (hpost y (List.mem_cons_of_mem _ hy))
    obtain ⟨ih1, ih2⟩ := ih _ (fun a ha => hwf a (List.mem_cons_of_mem _ ha)) hnd2 hpost1
    have havoidall : effAvoidsUnit
        (Eff.concat (rest.map (fun z => bodyEff3 env (modNameOf z) z)))
        (modNameOf x) x := by
      apply effAvoidsUnit_concat
      intro e he
      obtain ⟨a, ha, rfl⟩ := List.mem_map.mp he
      exact effAvoidsUnit_bodyEff3 env (hwf a (List.mem_cons_of_mem _ ha)) hwx
        (Ne.symm (hmne a ha))
    refine ⟨?_, ?_⟩
    · rw [List.map_cons, show (x :: rest).zip (((setupModuleEff env (modNameOf x)).recs,
        (none : Option PyErr)) :: rest.map (fun z =>
          ((setupModuleEff env (modNameOf z)).recs, (none : Option PyErr)))) =
        (x, ((setupModuleEff env (modNameOf x)).recs, (none : Option PyErr))) ::
          rest.zip (rest.map (fun z =>
            ((setupModuleEff env (modNameOf z)).recs, (none : Option PyErr)))) from rfl]
      simp only [bodyPhase, hc1, ih1]
      rw [List.map_cons, Eff.concat_cons, ← RunState.apply_apply]
      simp only [List.map_cons]
    · intro y hy
      rw [List.map_cons, Eff.concat_cons, ← RunState.apply_apply]
      rcases List.mem_cons.mp hy with h | h
      · subst h
        exact modPostNoTd_applyE env havoidall.2.1 havoidall.2.2.1
          havoidall.2.2.2.1 hc2
      · exact ih2 y h

theorem rootTeardownPhase1 (env : Env) :
    ∀ (mods : List Test) (st : RunState),
    (∀ x ∈ mods, wfModuleSuiteB (modNameOf x) x = true) →
    (∀ y ∈ mods, modPostDoneTd env st (modNameOf y)) →
    teardownPhase (teardownModule env) mods st =
      (st, mods.map (fun _ => (∅ : RecBundle))) := by
  intro mods
  induction mods with
  | nil => intro st _ _; rfl
  | cons x rest ih =>
    intro st hwf hpost
    have hwx := hwf x (List.mem_cons_self _ _)
    obtain ⟨q1, q2, q3⟩ := hpost x (List.mem_cons_self _ _)
    have htd : teardownModule env x st = (st, ∅, none) :=
      teardownModule_after env st (modSetupFails env (modNameOf x))
        (wfModuleSuite_getModule hwx) q2 q3 q1
    have hih := ih st (fun a ha => hwf a (List.mem_cons_of_mem _ ha))
      (fun y hy => hpost y (List.mem_cons_of_mem _ hy))
    simp only [teardownPhase, htd, hih, List.map_cons]

theorem rootTeardownPhase23 (env : Env) :
    ∀ (mods : List Test) (st : RunState),
    (∀ x ∈ mods, wfModuleSuiteB (modNameOf x) x = true) →
    nodupB (mods.map modNameOf) = true →
    (∀ y ∈ mods, modPostNoTd env st (modNameOf y)) →
    teardownPhase (teardownModule env) mods st =
      (st.apply (Eff.concat (mods.map (fun x =>
        teardownModuleEff env (modNameOf x) (modSetupFails env (modNameOf x))))),
       mods.map (fun x => (teardownModuleEff env (modNameOf x)
         (modSetupFails env (modNameOf x))).recs)) := by
  intro mods
  induction mods with
  | nil =>
    intro st _ _ _
    simp [teardownPhase, RunState.apply_empty]
  | cons x rest ih =>
    intro st hwf hnd hpost
    have hwx := hwf x (List.mem_cons_self _ _)
    obtain ⟨q1, q2, q3⟩ := hpost x (List.mem_cons_self _ _)
    have htd : teardownModule env x st =
        (st.apply (teardownModuleEff env (modNameOf x) (modSetupFails env (modNameOf x))),
         (teardownModuleEff env (modNameOf x) (modSetupFails env (modNameOf x))).recs,
         none) :=
      teardownModule_fresh env st (modSetupFails env (modNameOf x))
        (wfModuleSuite_getModule hwx) q2 q3 q1
    obtain ⟨hnd1, hnd2⟩ := nodupB_head (by simpa using hnd)
    have hmne : ∀ y ∈ rest, modNameOf y ≠ modNameOf x := by
      intro y hy he
      have hmem : (rest.map modNameOf).contains (modNameOf x) = true :=
        contains_of_mem (List.mem_map.mpr ⟨y, hy, he ▸ rfl⟩)
      rw [hmem] at hnd1
      exact Bool.true_eq_false.mp hnd1
    have hpost1 : ∀ y ∈ rest, modPostNoTd env
        (st.apply (teardownModuleEff env (modNameOf x) (modSetupFails env (modNameOf x))))
        (modNameOf y) := by
      intro y hy
      have hav : effAvoidsUnit
          (teardownModuleEff env (modNameOf x) (modSetupFails env (modNameOf x)))
          (modNameOf y) y :=
        effAvoidsUnit_teardownModuleEff env _ (hmne y hy)
      exact modPostNoTd_applyE env hav.2.1 hav.2.2.1 hav.2.2.2.1
        (hpost y (List.mem_cons_of_mem _ hy))
    have hih := ih _ (fun a ha => hwf a (List.mem_cons_of_mem _ ha)) hnd2 hpost1
    simp only [teardownPhase, htd, hih, List.map_cons]
    rw [Eff.concat_cons, ← RunState.apply_apply]

/-- Total effect of the concurrent scheduler at concurrency level 1. -/
def rootEff1 (env : Env) (t : Test) : Eff :=
  Eff.concat ((suiteChildren t).map (fun x => setupModuleEff env (modNameOf x))) ++
    Eff.concat ((suiteChildren t).map (fun x => bodyEff1 env (modNameOf x) x))

/-- Total effect of the concurrent scheduler at concurrency level 2. -/
def rootEff2 (env : Env) (t : Test) : Eff :=
  Eff.concat ((suiteChildren t).map (fun x => setupModuleEff env (modNameOf x))) ++
    (Eff.concat ((suiteChildren t).map (fun x => bodyEff2 env (modNameOf x) x)) ++
     Eff.concat ((suiteChildren t).map (fun x =>
       teardownModuleEff env (modNameOf x) (modSetupFails env (modNameOf x)))))

/-- Total effect of the concurrent scheduler at concurrency level 3. -/
def rootEff3 (env : Env) (t : Test) : Eff :=
  Eff.concat ((suiteChildren t).map (fun x => setupModuleEff env (modNameOf x))) ++
    (Eff.concat ((suiteChildren t).map (fun x => bodyEff3 env (modNameOf x) x)) ++
     Eff.concat ((suiteChildren t).map (fun x =>
       teardownModuleEff env (modNameOf x) (modSetupFails env (modNameOf x)))))

/-- Root child result slots at concurrency level 1: one per module, in the
original child index order, each carrying the module's full records. -/
def rootChildren1 (env : Env) (t : Test) : List Result :=
  (suiteChildren t).map (fun x => Result.mk (moduleSuiteEff env x).recs [])

/-- Root child result slots at concurrency level 2. -/
def rootChildren2 (env : Env) (t : Test) : List Result :=
  (suiteChildren t).map (fun x => Result.mk (moduleSuiteEff env x).recs
    (children2 env (modNameOf x) x))

/-- Root child result slots at concurrency level 3. -/
def rootChildren3 (env : Env) (t : Test) : List Result :=
  (suiteChildren t).map (fun x => Result.mk (moduleSuiteEff env x).recs
    (children3 env (modNameOf x) x))

theorem concRunRoot_one (env : Env) {t : Test} (st : RunState)
    (hwf : wfTreeB t = true)
    (hfresh : ∀ x ∈ suiteChildren t, moduleFresh st (modNameOf x) x) :
    concRunRoot env 1 t st =
      (st.apply (rootEff1 env t),
       Result.mk (treeEff env t).recs (rootChildren1 env t), none) := by
  obtain ⟨mods, hne, ht, hall, hnd⟩ := wfTree_parts hwf
  subst ht
  obtain ⟨rs1, rs2⟩ := rootSetupPhase env mods st hall (by simpa using hnd)
    (by simpa using hfresh)
  obtain ⟨rb1, rb2⟩ := rootBodyPhase1 env mods
    (st.apply (Eff.concat (mods.map (fun x => setupModuleEff env (modNameOf x)))))
    hall (by simpa using hnd) rs2
  have hrt := rootTeardownPhase1 env mods
    ((st.apply (Eff.concat (mods.map (fun x => setupModuleEff env (modNameOf x))))).apply
      (Eff.concat (mods.map (fun x => bodyEff1 env (modNameOf x) x))))
    hall rb2
  have hassemble := assembleChildren_map mods
    (fun x => ((setupModuleEff env (modNameOf x)).recs, (none : Option PyErr)))
    (fun x => Result.mk (bodyEff1 env (modNameOf x) x).recs [])
    (fun _ => (∅ : RecBundle))
  have hchild : mods.map (fun a => Result.mk
      (((setupModuleEff env (modNameOf a)).recs, (none : Option PyErr)).1 ++
        (Result.mk (bodyEff1 env (modNameOf a) a).recs []).recs ++ (∅ : RecBundle))
      (Result.mk (bodyEff1 env (modNameOf a) a).recs []).children) =
      rootChildren1 env (.suite mods) := by
    unfold rootChildren1
    rw [suiteChildren_suite]
    apply map_congr_mem
    intro a ha
    rw [Result.recs_mk, Result.children_mk, RecBundle.append_empty,
      moduleSuiteEff_eq env (hall a ha)]
    rfl
  have hstate : ((st.apply (Eff.concat (mods.map
      (fun x => setupModuleEff env (modNameOf x))))).apply
        (Eff.concat (mods.map (fun x => bodyEff1 env (modNameOf x) x)))) =
      st.apply (rootEff1 env (.suite mods)) := by
    rw [RunState.apply_apply]
    rfl
  simp only [concRunRoot, if_true, if_false, reduceIte, reduceCtorEq, concPhases]
  rw [rs1]
  simp only [rb1]
  rw [hrt]
  simp only [hassemble, hchild, hstate]
  refine congrArg (fun z => (st.apply (rootEff1 env (.suite mods)), z,
    (none : Option PyErr))) ?_
  apply congrArg (fun z => Result.mk z (rootChildren1 env (.suite mods)))
  unfold rootChildren1 treeEff
  rw [suiteChildren_suite]
  exact concatRecs_map_eq mods _ _ (fun a _ => rfl)

theorem concRunRoot_two (env : Env) {t : Test} (st : RunState)
    (hwf : wfTreeB t = true)
    (hfresh : ∀ x ∈ suiteChildren t, moduleFresh st (modNameOf x) x) :
    concRunRoot env 2 t st =
      (st.apply (rootEff2 env t),
       Result.mk (treeEff env t).recs (rootChildren2 env t), none) := by
  obtain ⟨mods, hne, ht, hall, hnd⟩ := wfTree_parts hwf
  subst ht
  obtain ⟨rs1, rs2⟩ := rootSetupPhase env mods st hall (by simpa using hnd)
    (by simpa using hfresh)
  obtain ⟨rb1, rb2⟩ := rootBodyPhase2 env mods
    (st.apply (Eff.concat (mods.map (fun x => setupModuleEff env (modNameOf x)))))
    hall (by simpa using hnd) rs2
  have hrt := rootTeardownPhase23 env mods
    ((st.apply (Eff.concat (mods.map (fun x => setupModuleEff env (modNameOf x))))).apply
      (Eff.concat (mods.map (fun x => bodyEff2 env (modNameOf x) x))))
    hall (by simpa using hnd) rb2
  have hassemble := assembleChildren_map mods
    (fun x => ((setupModuleEff env (modNameOf x)).recs, (none : Option PyErr)))
    (fun x => Result.mk (bodyRecs23 env (modNameOf x) x) (children2 env (modNameOf x) x))
    (fun x => (teardownModuleEff env (modNameOf x) (modSetupFails env (modNameOf x))).recs)
  have hchild : mods.map (fun a => Result.mk
      (((setupModuleEff env (modNameOf a)).recs, (none : Option PyErr)).1 ++
        (Result.mk (bodyRecs23 env (modNameOf a) a)
          (children2 env (modNameOf a) a)).recs ++
        (teardownModuleEff env (modNameOf a) (modSetupFails env (modNameOf a))).recs)
      (Result.mk (bodyRecs23 env (modNameOf a) a)
        (children2 env (modNameOf a) a)).children) =
      rootChildren2 env (.suite mods) := by
    unfold rootChildren2
    rw [suiteChildren_suite]
    apply map_congr_mem
    intro a ha
    rw [Result.recs_mk, Result.children_mk, RecBundle.append_assoc,
      moduleSuiteEff_eq env (hall a ha)]
    rfl
  have hstate : (((st.apply (Eff.concat (mods.map
      (fun x => setupModuleEff env (modNameOf x))))).apply
        (Eff.concat (mods.map (fun x => bodyEff2 env (modNameOf x) x)))).apply
          (Eff.concat (mods.map (fun x =>
            teardownModuleEff env (modNameOf x) (modSetupFails env (modNameOf x)))))) =
      st.apply (rootEff2 env (.suite mods)) := by
    rw [RunState.apply_apply, RunState.apply_apply]
    rfl
  simp only [concRunRoot, if_true, if_false, reduceIte, reduceCtorEq, concPhases]
  rw [rs1]
  simp only [rb1]
  rw [hrt]
  simp only [hassemble, hchild, hstate]
  refine congrArg (fun z => (st.apply (rootEff2 env (.suite mods)), z,
    (none : Option PyErr))) ?_
  apply congrArg (fun z => Result.mk z (rootChildren2 env (.suite mods)))
  unfold rootChildren2 treeEff
  rw [suiteChildren_suite]
  exact concatRecs_map_eq mods _ _ (fun a _ => rfl)

theorem concRunRoot_three (env : Env) {t : Test} (st : RunState)
    (hwf : wfTreeB t = true)
    (hfresh : ∀ x ∈ suiteChildren t, moduleFresh st (modNameOf x) x) :
    concRunRoot env 3 t st =
      (st.apply (rootEff3 env t),
       Result.mk (treeEff env t).recs (rootChildren3 env t), none) := by
  obtain ⟨mods, hne, ht, hall, hnd⟩ := wfTree_parts hwf
  subst ht
  obtain ⟨rs1, rs2⟩ := rootSetupPhase env mods st hall (by simpa using hnd)
    (by simpa using hfresh)
  obtain ⟨rb1, rb2⟩ := rootBodyPhase3 env mods
    (st.apply (Eff.concat (mods.map (fun x => setupModuleEff env (modNameOf x)))))
    hall (by simpa using hnd) rs2
  have hrt := rootTeardownPhase23 env mods
    ((st.apply (Eff.concat (mods.map (fun x => setupModuleEff env (modNameOf x))))).apply
      (Eff.concat (mods.map (fun x => bodyEff3 env (modNameOf x) x))))
    hall (by simpa using hnd) rb2
  have hassemble := assembleChildren_map mods
    (fun x => ((setupModuleEff env (modNameOf x)).recs, (none : Option PyErr)))
    (fun x => Result.mk (bodyRecs23 env (modNameOf x) x) (children3 env (modNameOf x) x))
    (fun x => (teardownModuleEff env (modNameOf x) (modSetupFails env (modNameOf x))).recs)
  have hchild : mods.map (fun a => Result.mk
      (((setupModuleEff env (modNameOf a)).recs, (none : Option PyErr)).1 ++
        (Result.mk (bodyRecs23 env (modNameOf a) a)
          (children3 env (modNameOf a) a)).recs ++
        (teardownModuleEff env (modNameOf a) (modSetupFails env (modNameOf a))).recs)
      (Result.mk (bodyRecs23 env (modNameOf a) a)
        (children3 env (modNameOf a) a)).children) =
      rootChildren3 env (.suite mods) := by
    unfold rootChildren3
    rw [suiteChildren_suite]
    apply map_congr_mem
    intro a ha
    rw [Result.recs_mk, Result.children_mk, RecBundle.append_assoc,
      moduleSuiteEff_eq env (hall a ha)]
    rfl
  have hstate : (((st.apply (Eff.concat (mods.map
      (fun x => setupModuleEff env (modNameOf x))))).apply
        (Eff.concat (mods.map (fun x => bodyEff3 env (modNameOf x) x)))).apply
          (Eff.concat (mods.map (fun x =>
            teardownModuleEff env (modNameOf x) (modSetupFails env (modNameOf x)))))) =
      st.apply (rootEff3 env (.suite mods)) := by
    rw [RunState.apply_apply, RunState.apply_apply]
    rfl
  simp only [concRunRoot, if_true, if_false, reduceIte, reduceCtorEq, concPhases]
  rw [rs1]
  simp only [rb1]
  rw [hrt]
  simp only [hassemble, hchild, hstate]
  refine congrArg (fun z => (st.apply (rootEff3 env (.suite mods)), z,
    (none : Option PyErr))) ?_
  apply congrArg (fun z => Result.mk z (rootChildren3 env (.suite mods)))
  unfold rootChildren3 treeEff
  rw [suiteChildren_suite]
  exact concatRecs_map_eq mods _ _ (fun a _ => rfl)

/-! ## Concrete fixtures used by the witnesses -/

/-- Shorthand for a leaf case node. -/
def mkCase (m cl id : String) (o : Outcome) : Test := .case ⟨m, cl, id, o⟩

/-- Demonstration environment: module `m1` has a failing `setUpModule` and a
succeeding `tearDownModule`; `m2` the reverse; class `m1.C1` has succeeding
hooks, `m1.C2` a failing `setUpClass`, and `m2.C3` carries the skip marker. -/
def env1 : Env := {
  modules := fun m =>
    if m = "m1" then some ⟨some false, some true⟩
    else if m = "m2" then some ⟨some true, some false⟩
    else none
  classes := fun f =>
    if f = "m1.C1" then ⟨false, some true, some true⟩
    else if f = "m1.C2" then ⟨false, some false, some true⟩
    else if f = "m2.C3" then ⟨true, some true, some true⟩
    else ⟨false, none, none⟩ }

/-- Benign environment: module `m1` and class `m1.C1` with succeeding hooks. -/
def env2 : Env := {
  modules := fun m => if m = "m1" then some ⟨some true, some true⟩ else none
  classes := fun f =>
    if f = "m1.C1" then ⟨false, some true, some true⟩
    else ⟨false, none, none⟩ }

/-- A well-formed four-level tree with two modules. -/
def tree1 : Test := .suite [
  .suite [ .suite [mkCase "m1" "C1" "t1" .pass, mkCase "m1" "C1" "t2" .fail],
           .suite [mkCase "m1" "C2" "t3" .error] ],
  .suite [ .suite [mkCase "m2" "C3" "t4" .pass, mkCase "m2" "C3" "t5" .skip] ] ]

/-- A malformed tree: its first-child spine has uniform depth four (so
`_get_level` returns 0 at the root), but its second root child is a bare
case at depth two. -/
def tbad : Test := .suite [
  .suite [ .suite [mkCase "m1" "C1" "t1" .pass] ],
  mkCase "m1" "C1" "t2" .pass ]

/-- A module-level suite of module `m1`. -/
def modSuite1 : Test := .suite [.suite [mkCase "m1" "C1" "t1" .pass]]

/-- A class-level suite of class `m1.C1`. -/
def clsSuiteC1 : Test := .suite [mkCase "m1" "C1" "t1" .pass]

/-- A class-level suite of class `m1.C2`. -/
def clsSuiteC2 : Test := .suite [mkCase "m1" "C2" "t3" .error]

/-- A class-level suite of class `m2.C3` (skip-marked in `env1`). -/
def clsSuiteC3 : Test := .suite [mkCase "m2" "C3" "t4" .pass]

/-- A state whose ledger already records all four `m1` and `m1.C1` fixtures. -/
def stRec : RunState :=
  ⟨["m1.setUpModule", "m1.C1.setUpClass"],
   ["m1.tearDownModule", "m1.C1.tearDownClass"], [], []⟩

/-- A state recording a failed `m1.setUpModule`. -/
def stModF : RunState := ⟨[], ["m1.setUpModule"], [], []⟩

/-- A state recording a failed `m1.setUpModule` and the
`_classSetupFailed` mark on `m1.C2`. -/
def stModCsf : RunState := ⟨[], ["m1.setUpModule"], ["m1.C2"], []⟩

theorem teardownModule_recorded (env : Env) {t : Test} {m : String} (st : RunState)
    (hget : getCurrentModule t = .ok (some m))
    (h : st.successful.contains (m ++ ".tearDownModule") = true ∨
         st.failed.contains (m ++ ".tearDownModule") = true) :
    teardownModule env t st = (st, ∅, none) := by
  simp only [teardownModule, hget]
  rcases h with h | h <;> rw [h] <;> simp

theorem teardownClass_recorded (env : Env) {t : Test} {cr : ClassRef} (st : RunState)
    (hget : getCurrentClass t = .ok (some cr))
    (h : st.successful.contains (cr.fullName ++ ".tearDownClass") = true ∨
         st.failed.contains (cr.fullName ++ ".tearDownClass") = true) :
    teardownClass env t st = (st, ∅, none) := by
  simp only [teardownClass, hget]
  rcases h with h | h <;> rw [h] <;> simp

/-! ## The claims -/

/-- C1: for every well-formed four-level tree, the sequential path of `run`
(debug mode, concurrency level Root, or at most one worker) and the
concurrent path (any concurrency level 1..3, more than one worker) produce
results carrying the same flat record bundle — hence the same aggregate
test count and the same failure/error/skip identity lists — with no raised
exception, and the concurrent root result carries one child slot per root
child in the original index order, each holding exactly that module's
sequential records. -/
theorem claim_C1 (env : Env) (t : Test) (debugS : Bool) (clS mwS clC mwC : Int)
    (hwf : wfTreeB t = true)
    (hseq : debugS = true ∨ clS = 0 ∨ mwS ≤ 1)
    (hclS : 0 ≤ clS ∧ clS ≤ 3)
    (hconc : clC = 1 ∨ clC = 2 ∨ clC = 3)
    (hmw : 1 < mwC) :
    (run env t initState debugS clS mwS).2.1.recs = (treeEff env t).recs ∧
    (run env t initState debugS clS mwS).2.2 = none ∧
    (run env t initState false clC mwC).2.1.recs = (treeEff env t).recs ∧
    (run env t initState false clC mwC).2.2 = none ∧
    (run env t initState false clC mwC).2.1.children.map Result.recs =
      (suiteChildren t).map (fun x => (moduleSuiteEff env x).recs) := by
  have hfresh : ∀ x ∈ suiteChildren t, moduleFresh initState (modNameOf x) x :=
    fun x _ => moduleFresh_init _ _
  have huw := unittestRun_wf env initState hwf hfresh
  have hseqrun : run env t initState debugS clS mwS =
      (initState.apply (treeEff env t), Result.mk (treeEff env t).recs [], none) := by
    unfold run
    rw [if_neg (by omega : ¬(clS < 0 ∨ 3 < clS)), if_pos hseq, huw]
  have hlvl := wfTree_level hwf
  have hnotrange : ¬(clC < 0 ∨ 3 < clC) := by rcases hconc with h | h | h <;> omega
  have hnotseq : ¬((false = true) ∨ clC = 0 ∨ mwC ≤ 1) := by
    rintro (h | h | h)
    · simp at h
    · rcases hconc with h' | h' | h' <;> omega
    · omega
  have hpath : run env t initState false clC mwC = concRunRoot env clC t initState := by
    unfold run
    rw [if_neg hnotrange, if_neg hnotseq, if_pos hlvl]
  have hc : (run env t initState false clC mwC).2.1.recs = (treeEff env t).recs ∧
      (run env t initState false clC mwC).2.2 = none ∧
      (run env t initState false clC mwC).2.1.children.map Result.recs =
        (suiteChildren t).map (fun x => (moduleSuiteEff env x).recs) := by
    rcases hconc with h | h | h <;> subst h
    · rw [hpath, concRunRoot_one env initState hwf hfresh]
      refine ⟨rfl, rfl, ?_⟩
      show (rootChildren1 env t).map Result.recs = _
      unfold rootChildren1
      rw [List.map_map]
      exact map_congr_mem (fun a _ => rfl)
    · rw [hpath, concRunRoot_two env initState hwf hfresh]
      refine ⟨rfl, rfl, ?_⟩
      show (rootChildren2 env t).map Result.recs = _
      unfold rootChildren2
      rw [List.map_map]
      exact map_congr_mem (fun a _ => rfl)
    · rw [hpath, concRunRoot_three env initState hwf hfresh]
      refine ⟨rfl, rfl, ?_⟩
      show (rootChildren3 env t).map Result.recs = _
      unfold rootChildren3
      rw [List.map_map]
      exact map_congr_mem (fun a _ => rfl)
  exact ⟨by rw [hseqrun]; rfl, by rw [hseqrun], hc.1, hc.2.1, hc.2.2⟩

/-- Witness for C1 on a concrete two-module tree and environment, comparing
the sequential run (concurrency level 0, one worker) with a concurrent run
at class level with four workers. -/
theorem claim_C1_witness :
    wfTreeB tree1 = true ∧
    ((run env1 tree1 initState false 0 1).2.1.recs = (treeEff env1 tree1).recs ∧
     (run env1 tree1 initState false 0 1).2.2 = none ∧
     (run env1 tree1 initState false 2 4).2.1.recs = (treeEff env1 tree1).recs ∧
     (run env1 tree1 initState false 2 4).2.2 = none ∧
     (run env1 tree1 initState false 2 4).2.1.children.map Result.recs =
       (suiteChildren tree1).map (fun x => (moduleSuiteEff env1 x).recs)) :=
  ⟨by decide,
   claim_C1 env1 tree1 false 0 1 2 4 (by decide) (Or.inr (Or.inl rfl))
     ⟨by decide, by decide⟩ (Or.inr (Or.inl rfl)) (by decide)⟩

/-- C2: within one top-level run, each fixture hook executes at most once
per fixture name: once the ledger records the fixture as succeeded or
failed, every later invocation of the corresponding operation for the same
module or class returns the state unchanged (no ledger change, no appended
trace event — so the hook is not called again) with no records and no
exception. -/
theorem claim_C2 (env : Env) (tm tc : Test) (m : String) (cr : ClassRef) (st : RunState)
    (hgm : getCurrentModule tm = Except.ok (some m))
    (hgc : getCurrentClass tc = Except.ok (some cr))
    (hsm : st.successful.contains (m ++ ".setUpModule") = true ∨
           st.failed.contains (m ++ ".setUpModule") = true)
    (htm : st.successful.contains (m ++ ".tearDownModule") = true ∨
           st.failed.contains (m ++ ".tearDownModule") = true)
    (hsc : st.successful.contains (cr.fullName ++ ".setUpClass") = true ∨
           st.failed.contains (cr.fullName ++ ".setUpClass") = true)
    (htc : st.successful.contains (cr.fullName ++ ".tearDownClass") = true ∨
           st.failed.contains (cr.fullName ++ ".tearDownClass") = true) :
    setupModule env tm st = (st, ∅, none) ∧
    teardownModule env tm st = (st, ∅, none) ∧
    setupClass env tc st = (st, ∅, none) ∧
    teardownClass env tc st = (st, ∅, none) :=
  ⟨setupModule_recorded env st hgm hsm, teardownModule_recorded env st hgm htm,
   setupClass_recorded env st hgc hsc, teardownClass_recorded env st hgc htc⟩

/-- Witness for C2: with all four `m1`/`m1.C1` fixture names recorded, all
four operations are no-ops. -/
theorem claim_C2_witness :
    (stRec.successful.contains ("m1" ++ ".setUpModule") = true ∨
     stRec.failed.contains ("m1" ++ ".setUpModule") = true) ∧
    setupModule env1 modSuite1 stRec = (stRec, ∅, none) ∧
    teardownModule env1 modSuite1 stRec = (stRec, ∅, none) ∧
    setupClass env1 clsSuiteC1 stRec = (stRec, ∅, none) ∧
    teardownClass env1 clsSuiteC1 stRec = (stRec, ∅, none) :=
  ⟨Or.inl (by decide),
   claim_C2 env1 modSuite1 clsSuiteC1 "m1" (.user "m1" "C1") stRec rfl rfl
     (Or.inl (by decide)) (Or.inr (by decide))
     (Or.inl (by decide)) (Or.inr (by decide))⟩

/-- C3: a fixture's teardown is never invoked when its paired setup is
recorded failed: `_teardown_module` is a no-op when the module's
`setUpModule` is recorded failed, `_teardown_class` is a no-op when the
class's `setUpClass` is recorded failed, or the owning module's
`setUpModule` is recorded failed, or the class carries the skip marker; and
`_setup_class` never calls `setUpClass` for a skip-marked class.  In every
case the state (ledger and trace) is unchanged, so no hook ran. -/
theorem claim_C3 (env : Env) (tm tc tk : Test) (m : String) (cr crk : ClassRef)
    (st : RunState)
    (hgm : getCurrentModule tm = Except.ok (some m))
    (hgc : getCurrentClass tc = Except.ok (some cr))
    (hgk : getCurrentClass tk = Except.ok (some crk))
    (hmf : st.failed.contains (m ++ ".setUpModule") = true)
    (hsup : st.failed.contains (cr.fullName ++ ".setUpClass") = true ∨
            st.failed.contains (cr.modName ++ ".setUpModule") = true ∨
            (classEnvOf env cr).skip = true)
    (hskip : (classEnvOf env crk).skip = true) :
    teardownModule env tm st = (st, ∅, none) ∧
    teardownClass env tc st = (st, ∅, none) ∧
    setupClass env tk st = (st, ∅, none) ∧
    teardownClass env tk st = (st, ∅, none) :=
  ⟨teardownModule_failedSetup env st hgm hmf,
   teardownClass_suppressed env st hgc hsup,
   setupClass_skip env st hgk hskip,
   teardownClass_suppressed env st hgk (Or.inr (Or.inr hskip))⟩

/-- Witness for C3: after `m1.setUpModule` is recorded failed, the module
teardown and the `m1.C1` class teardown are no-ops, and the skip-marked
class `m2.C3` has neither of its hooks invoked. -/
theorem claim_C3_witness :
    stModF.failed.contains ("m1" ++ ".setUpModule") = true ∧
    teardownModule env1 modSuite1 stModF = (stModF, ∅, none) ∧
    teardownClass env1 clsSuiteC1 stModF = (stModF, ∅, none) ∧
    setupClass env1 clsSuiteC3 stModF = (stModF, ∅, none) ∧
    teardownClass env1 clsSuiteC3 stModF = (stModF, ∅, none) :=
  ⟨by decide,
   claim_C3 env1 modSuite1 clsSuiteC1 clsSuiteC3 "m1"
     (.user "m1" "C1") (.user "m2" "C3") stModF rfl rfl rfl (by decide)
     (Or.inr (Or.inl (by decide))) (by decide)⟩

/-- C4: when `setUpClass` of class C has failed (its `_classSetupFailed`
mark is set), a case of C is recorded as an error with its body not
executed (the state, and in particular the event trace, is unchanged, so no
`execBody` event is emitted); when `setUpModule` of module M has failed,
`_setup_class` for a class of M returns without calling `setUpClass`, and a
case of M is recorded as an error with its body not executed. -/
theorem claim_C4 (env : Env) (tc : Test) (cr : ClassRef) (c d : CaseInfo)
    (st : RunState)
    (hcsk : (env.classes (c.module ++ "." ++ c.cls)).skip = false)
    (hcsf : st.csf.contains (c.module ++ "." ++ c.cls) = true)
    (hgc : getCurrentClass tc = Except.ok (some cr))
    (hmfc : st.failed.contains (cr.modName ++ ".setUpModule") = true)
    (hdsk : (env.classes (d.module ++ "." ++ d.cls)).skip = false)
    (hmfd : st.failed.contains (d.module ++ ".setUpModule") = true) :
    runCase env c st = (st, ⟨1, [], [c.id], []⟩) ∧
    setupClass env tc st = (st, ∅, none) ∧
    runCase env d st = (st, ⟨1, [], [d.id], []⟩) := by
  refine ⟨?_, ?_, ?_⟩
  · simp only [runCase, hcsk, hcsf]
    simp
  · simp only [setupClass, hgc]
    cases h1 : (st.successful.contains (cr.fullName ++ ".setUpClass") ||
        st.failed.contains (cr.fullName ++ ".setUpClass")) with
    | true => simp
    | false => rw [hmfc]; simp
  · simp only [runCase, hdsk, hmfd]
    simp

/-- Witness for C4: with `m1.setUpModule` failed and `m1.C2` marked
`_classSetupFailed`, the cases `t3` of `C2` and `t2` of `C1` are recorded
as errors without body execution, and `_setup_class` on `C1` is a no-op. -/
theorem claim_C4_witness :
    stModCsf.csf.contains ("m1" ++ "." ++ "C2") = true ∧
    runCase env1 ⟨"m1", "C2", "t3", .error⟩ stModCsf =
      (stModCsf, ⟨1, [], ["t3"], []⟩) ∧
    setupClass env1 clsSuiteC1 stModCsf = (stModCsf, ∅, none) ∧
    runCase env1 ⟨"m1", "C1", "t2", .fail⟩ stModCsf =
      (stModCsf, ⟨1, [], ["t2"], []⟩) :=
  ⟨by decide,
   claim_C4 env1 clsSuiteC1 (.user "m1" "C1") ⟨"m1", "C2", "t3", .error⟩
     ⟨"m1", "C1", "t2", .fail⟩ stModCsf (by decide) (by decide) rfl
     (by decide) (by decide) (by decide)⟩

/-- C5 (amended): when `run` enters the concurrent path (debug off,
concurrency level 1..3, more than one worker), the structural check
inspects only the first-child spine of the tree via `_get_level`: whenever
that spine's level at the root differs from 0, the run fails fast with a
RuntimeError, the state unchanged and the result empty — before any test
executes.  The original claim is refuted by `claim_C5_counterexample`: a
malformed tree whose first-child spine has uniform depth four passes the
check and is executed partially, surfacing a TypeError mid-run instead. -/
theorem claim_C5 (env : Env) (t : Test) (st : RunState) (cl mw : Int)
    (hcl : cl = 1 ∨ cl = 2 ∨ cl = 3) (hmw : 1 < mw)
    (hlvl : getLevel t ≠ 0) :
    run env t st false cl mw = (st, Result.mk ∅ [], some PyErr.runtimeError) := by
  have hnotrange : ¬(cl < 0 ∨ 3 < cl) := by rcases hcl with h | h | h <;> omega
  have hnotseq : ¬((false = true) ∨ cl = 0 ∨ mw ≤ 1) := by
    rintro (h | h | h)
    · simp at h
    · rcases hcl with h' | h' | h' <;> omega
    · omega
  unfold run
  rw [if_neg hnotrange, if_neg hnotseq, if_neg hlvl]

/-- Witness for C5: a bare case at the root has level 3, so the concurrent
path rejects it up front with a RuntimeError. -/
theorem claim_C5_witness :
    getLevel (mkCase "m1" "C1" "t1" .pass) = 3 ∧
    run env1 (mkCase "m1" "C1" "t1" .pass) initState false 2 4 =
      (initState, Result.mk ∅ [], some PyErr.runtimeError) :=
  ⟨by decide,
   claim_C5 env1 (mkCase "m1" "C1" "t1" .pass) initState 2 4
     (Or.inr (Or.inl rfl)) (by decide) (by decide)⟩

/-- Counterexample for C5 as stated: `tbad` is not well-formed, yet its
first-child spine yields level 0, so the concurrent run does not fail fast:
it executes the body of case `t1` (visible in the trace) before aborting
with a TypeError — a partial run, and not the structural RuntimeError. -/
theorem claim_C5_counterexample :
    wfTreeB tbad = false ∧
    getLevel tbad = 0 ∧
    (run env2 tbad initState false 3 4).2.2 = some PyErr.typeError ∧
    (run env2 tbad initState false 3 4).1.trace =
      [.setupStdout, .callSetUpModule "m1", .restoreStdout,
       .setupStdout, .callSetUpClass "m1.C1", .restoreStdout,
       .execBody "t1",
       .setupStdout, .callTearDownClass "m1.C1", .restoreStdout] := by
  refine ⟨by decide, by decide, by decide, by decide⟩

/-- C6: a concurrency level outside [0..3] (for example 5) makes `run`
return a ValueError with the state unchanged and the result empty — before
any test executes — for every combination of the other arguments, debug
mode included. -/
theorem claim_C6 (env : Env) (t : Test) (st : RunState) (debug : Bool) (cl mw : Int)
    (hcl : cl < 0 ∨ 3 < cl) :
    run env t st debug cl mw = (st, Result.mk ∅ [], some PyErr.valueError) := by
  unfold run
  rw [if_pos hcl]

/-- Witness for C6 at concurrency level 5, in debug mode. -/
theorem claim_C6_witness :
    ((5 : Int) < 0 ∨ (3 : Int) < 5) ∧
    run env1 tree1 initState true 5 1 =
      (initState, Result.mk ∅ [], some PyErr.valueError) :=
  ⟨Or.inr (by decide),
   claim_C6 env1 tree1 initState true 5 1 (Or.inr (by decide))⟩

/-- C7: when a fixture hook raises, the failure is recovered locally and no
exception propagates out of the invocation (the returned error component is
`none`): the fixture is marked failed in the ledger, a module- or
class-level error is recorded under the synthetic identity
(`"setUpModule (<module>)"`, `"setUpClass (<class>)"`), and the scoped
stdout redirection is restored on the hook-failure path (the trace gains
`setupStdout`, the hook call, then `restoreStdout`). -/
theorem claim_C7 (env : Env) (tm tc : Test) (m : String) (cr : ClassRef)
    (st : RunState)
    (hgm : getCurrentModule tm = Except.ok (some m))
    (h1 : st.successful.contains (m ++ ".setUpModule") = false)
    (h2 : st.failed.contains (m ++ ".setUpModule") = false)
    (hhm : modHookSetup env m = some false)
    (hgc : getCurrentClass tc = Except.ok (some cr))
    (h3 : st.successful.contains (cr.fullName ++ ".setUpClass") = false)
    (h4 : st.failed.contains (cr.fullName ++ ".setUpClass") = false)
    (h5 : st.failed.contains (cr.modName ++ ".setUpModule") = false)
    (hsk : (classEnvOf env cr).skip = false)
    (hhc : (classEnvOf env cr).setUpClassHook = some false) :
    setupModule env tm st =
      ({st with failed := st.failed ++ [m ++ ".setUpModule"],
                trace := st.trace ++
                  [.setupStdout, .callSetUpModule m, .restoreStdout]},
       fxErr ("setUpModule (" ++ m ++ ")"), none) ∧
    setupClass env tc st =
      ({st with failed := st.failed ++ [cr.fullName ++ ".setUpClass"],
                csf := st.csf ++ [cr.fullName],
                trace := st.trace ++
                  [.setupStdout, .callSetUpClass cr.fullName, .restoreStdout]},
       fxErr ("setUpClass (" ++ cr.fullName ++ ")"), none) := by
  constructor
  · rw [setupModule_fresh env st hgm h1 h2]
    unfold setupModuleEff
    rw [hhm]
    cases st
    simp [RunState.apply, hookEvents]
  · rw [setupClass_fresh env st false hgc h3 h4 h5]
    unfold setupClassEff
    rw [hsk, hhc]
    cases st
    simp [RunState.apply, hookEvents]

/-- Witness for C7: `m1.setUpModule` and `m1.C2.setUpClass` both raise in
`env1`; from the fresh state each failure is recovered into the ledger, the
result and a balanced stdout redirection, with no exception returned. -/
theorem claim_C7_witness :
    modHookSetup env1 "m1" = some false ∧
    setupModule env1 modSuite1 initState =
      ({initState with failed := initState.failed ++ ["m1" ++ ".setUpModule"],
                       trace := initState.trace ++
                         [.setupStdout, .callSetUpModule "m1", .restoreStdout]},
       fxErr ("setUpModule (" ++ "m1" ++ ")"), none) ∧
    setupClass env1 clsSuiteC2 initState =
      ({initState with
          failed := initState.failed ++
            [(ClassRef.user "m1" "C2").fullName ++ ".setUpClass"],
          csf := initState.csf ++ [(ClassRef.user "m1" "C2").fullName],
          trace := initState.trace ++
            [.setupStdout, .callSetUpClass (ClassRef.user "m1" "C2").fullName,
             .restoreStdout]},
       fxErr ("setUpClass (" ++ (ClassRef.user "m1" "C2").fullName ++ ")"), none) :=
  ⟨by decide,
   claim_C7 env1 modSuite1 clsSuiteC2 "m1" (.user "m1" "C2") initState
     rfl (by decide) (by decide) (by decide) rfl (by decide) (by decide)
     (by decide) (by decide) (by decide)⟩

/-- C8: `_get_level` returns Method (3) on a case, the first child's level
minus one on a non-empty suite, and the sentinel -1 on an empty suite. -/
theorem claim_C8 (c : CaseInfo) (t : Test) (ts : List Test) :
    getLevel (Test.case c) = 3 ∧
    getLevel (Test.suite []) = -1 ∧
    getLevel (Test.suite (t :: ts)) = getLevel t - 1 :=
  ⟨rfl, rfl, rfl⟩

/-- C9 (amended): on the empty suite both representative lookups return the
absent identity (`none`) without raising; but the fixture callers do not
treat that as "skip fixture work": `_setup_module` and `_teardown_module`
raise a TypeError while building the fixture name from the absent module
(`None + ".setUpModule"`), performing no fixture work (state unchanged,
nothing recorded).  The original claim that they complete without raising
is refuted by `claim_C9_counterexample`. -/
theorem claim_C9 (env : Env) (st : RunState) :
    getCurrentModule (Test.suite []) = Except.ok none ∧
    getCurrentClass (Test.suite []) = Except.ok none ∧
    setupModule env (Test.suite []) st = (st, ∅, some PyErr.typeError) ∧
    teardownModule env (Test.suite []) st = (st, ∅, some PyErr.typeError) :=
  ⟨rfl, rfl, rfl, rfl⟩

/-- Counterexample for C9 as stated: on an empty module-level suite,
`_setup_module` does not complete without raising — it raises a TypeError
(though indeed performing no fixture work). -/
theorem claim_C9_counterexample :
    (setupModule env1 (Test.suite []) initState).2.2 = some PyErr.typeError ∧
    (teardownModule env1 (Test.suite []) initState).2.2 = some PyErr.typeError :=
  ⟨rfl, rfl⟩

/-- C10 (implicit): whenever `run` takes the sequential path (debug mode,
concurrency level 0, or at most one worker) with an in-range concurrency
level, it is exactly the sequential executor applied to the tree — no
well-formedness check is consulted, so a malformed tree is executed rather
than rejected with the structural RuntimeError (the check sits behind the
sequential branch). -/
theorem claim_C10 (env : Env) (t : Test) (st : RunState) (debug : Bool) (cl mw : Int)
    (hcl : 0 ≤ cl ∧ cl ≤ 3)
    (hseq : debug = true ∨ cl = 0 ∨ mw ≤ 1) :
    run env t st debug cl mw =
      ((unittestRun env t st).1,
       Result.mk (unittestRun env t st).2.1 [], (unittestRun env t st).2.2) := by
  unfold run
  rw [if_neg (by omega : ¬(cl < 0 ∨ 3 < cl)), if_pos hseq]

/-- Witness for C10: the malformed tree `tbad` runs on the sequential path
(debug mode) without any structural error — it executes to completion. -/
theorem claim_C10_witness :
    wfTreeB tbad = false ∧
    run env2 tbad initState true 3 5 =
      ((unittestRun env2 tbad initState).1,
       Result.mk (unittestRun env2 tbad initState).2.1 [],
       (unittestRun env2 tbad initState).2.2) ∧
    (run env2 tbad initState true 3 5).2.2 = none :=
  ⟨by decide,
   claim_C10 env2 tbad initState true 3 5 ⟨by decide, by decide⟩ (Or.inl rfl),
   by decide⟩

end Unishark
